import Mathlib

/-!
Shallow embedding of the VKUI `Tappable` component
(`src/components/Tappable/Tappable.tsx`).

The component is a gesture state machine: per-instance React state
(`active`, `ts`, `hasHover`, `hasActive`, `clicks`), instance fields
(`isSlide`, `timeout`, `wavesTimeout`), a module-level shared registry
`storage : { [id]: { activeTimeout, timeout?, stop } }`, and `setTimeout` /
`clearTimeout` scheduling.  We model the whole process as a `World`:

* `insts`    — the mounted instances, keyed by their id (the random string id
  is modelled as a `Nat`); each `Inst` carries the state and fields read or
  written by the gesture handlers.  Props that the handlers read
  (`activeEffectDelay`, `platform === ANDROID`) are per-instance constants,
  and `state.hasActive` is held at its configured value (prop updates and the
  nesting-context suppression are outside the gesture sequences the claims
  quantify over).
* `storage`  — the shared registry, an association list mirroring the plain
  JS object (unique keys, insertion order, overwrite in place).  The
  `stop` callback stored in an entry is always the owning instance's `stop`,
  so it is implied by the key and not stored.
* `timers`   — the outstanding timeouts.  `setTimeout` allocates a fresh
  handle (`nextHandle`), records the requested delay (an `Int`, since the
  source can compute a negative delay) and the scheduling instant, and tags
  the timer with which callback it runs (`start`, `stop` or the waves-ripple
  expiry of a given instance).  `clearTimeout` drops the timer; clearing an
  absent or already-fired handle is a no-op, like the DOM API.
* `now`      — the wall clock read by `ts()` (`Date.now()`).

Event handlers become functions `World → World`, translated clause by clause
from the source.  `setState` inside a handler is modelled as a synchronous
state update (no handler in this file reads a state field it has itself just
written, so React's batching is unobservable here).  Unmounting removes the
instance from `insts` — after `componentWillUnmount` React delivers no more
gesture events and `setState` is a no-op — while timers survive unless
explicitly cleared, as in the browser.

`Reach` closes the handlers and timer firings (a timer may only fire once its
delay has elapsed) over an initial world with empty registry and no timers:
exactly the "sequences of gesture events" the specification's properties
quantify over.
-/

/-- Which callback a `window.setTimeout` registration runs: `Tappable.start`
of instance `id`, `Tappable.stop` of instance `id`, or the waves-ripple
removal (`onDown`'s anonymous callback) for ripple key `key` of instance
`id`. -/
inductive TimerCb where
  | startCb (id : Nat)
  | stopCb (id : Nat)
  | wavesCb (id : Nat) (key : Nat)
deriving DecidableEq

/-- An outstanding timeout: its handle, the delay passed to `setTimeout`
(`Int`, since `activeEffectDelay - now + ts` can be negative; the browser
clamps negative delays to zero when firing), the instant it was scheduled,
and its callback. -/
structure Timer where
  handle : Nat
  delay : Int
  schedAt : Nat
  cb : TimerCb
deriving DecidableEq

/-- `StorageItem` from the source: the handle of the pending activation
timeout and, optionally, the handle of the pending release (`stop`)
timeout.  The source also stores the owning instance's `stop` callback; the
owner is the registry key, so the callback needs no field here. -/
structure StorageItem where
  activeTimeout : Nat
  timeout : Option Nat := none
deriving DecidableEq

/-- One mounted `Tappable` instance: the pieces of `this.state` and the
instance fields that the gesture handlers read or write, plus the props the
handlers consult (held constant over a gesture sequence). -/
structure Inst where
  active : Bool := false
  ts : Option Nat := none
  hasActive : Bool := true
  isSlide : Bool := false
  clicks : List (Nat × Int × Int) := []
  wavesTimeout : Option Nat := none
  timeoutF : Option Nat := none
  activeEffectDelay : Nat := 600
  platformAndroid : Bool := false
deriving DecidableEq

/-- The whole process: mounted instances, the shared `storage` registry, the
outstanding timeouts, the wall clock, and the next fresh timeout handle. -/
structure World where
  insts : List (Nat × Inst)
  storage : List (Nat × StorageItem)
  timers : List Timer
  now : Nat
  nextHandle : Nat
deriving DecidableEq

/-- `ACTIVE_DELAY` from the source (70 ms activation delay). -/
def ACTIVE_DELAY : Int := 70

/-- `ACTIVE_EFFECT_DELAY` from the source (600 ms default effect
duration). -/
def ACTIVE_EFFECT_DELAY : Nat := 600

/-- First-match lookup in an association list, mirroring JS property
access on the registry object. -/
def lookupA {α : Type} (k : Nat) : List (Nat × α) → Option α
  | [] => none
  | p :: rest => if p.1 = k then some p.2 else lookupA k rest

/-- Assignment `obj[k] = v` on a JS object: replace in place when the key is
present (JS objects keep the original insertion position), append
otherwise. -/
def setA {α : Type} (k : Nat) (v : α) : List (Nat × α) → List (Nat × α)
  | [] => [(k, v)]
  | p :: rest => if p.1 = k then (k, v) :: rest else p :: setA k v rest

/-- `delete obj[k]` on a JS object (keys are unique, so removing every pair
with the key is the same as removing the one pair). -/
def eraseAllA {α : Type} (k : Nat) (l : List (Nat × α)) : List (Nat × α) :=
  l.filter (fun p => decide (p.1 ≠ k))

/-- Update the instance stored under `id`, leaving every other instance
alone. -/
def updInst (w : World) (id : Nat) (f : Inst → Inst) : World :=
  { w with insts := w.insts.map (fun p => if p.1 = id then (p.1, f p.2) else p) }

/-- `this.state.active` of instance `id` (`false` when the instance is not
mounted). -/
def activeOf (w : World) (id : Nat) : Bool :=
  match lookupA id w.insts with
  | some i => i.active
  | none => false

/-- `this.state.hasActive` of instance `id`. -/
def hasActiveOf (w : World) (id : Nat) : Bool :=
  match lookupA id w.insts with
  | some i => i.hasActive
  | none => false

/-- `this.isSlide` of instance `id`. -/
def isSlideOf (w : World) (id : Nat) : Bool :=
  match lookupA id w.insts with
  | some i => i.isSlide
  | none => false

/-- `this.state.ts` of instance `id`. -/
def tsOf (w : World) (id : Nat) : Option Nat :=
  match lookupA id w.insts with
  | some i => i.ts
  | none => none

/-- `clearTimeout(h)`: drop the timeout with handle `h`; a no-op when no such
timeout is outstanding. -/
def clearTimeoutW (w : World) (h : Nat) : World :=
  { w with timers := w.timers.filter (fun t => decide (t.handle ≠ h)) }

/-- `clearTimeout` applied to a possibly-`undefined` handle
(`clearTimeout(undefined)` is a no-op). -/
def clearTimeoutO (w : World) (h : Option Nat) : World :=
  match h with
  | some h => clearTimeoutW w h
  | none => w

/-- `window.setTimeout(cb, delay)`: schedule `cb` after `delay`, returning
the updated world and the fresh handle. -/
def setTimeoutW (w : World) (cb : TimerCb) (delay : Int) : World × Nat :=
  ({ w with
      timers := w.timers ++ [{ handle := w.nextHandle, delay := delay, schedAt := w.now, cb := cb }],
      nextHandle := w.nextHandle + 1 },
   w.nextHandle)

/-- `Tappable.stop` (source lines 303–314): if the instance is active, set
`active := false, ts := null`; then, if the registry holds an entry for this
id, clear the entry's activation timeout and delete the entry.  The entry's
release timeout (`timeout`) is not cleared. -/
def stopI (w : World) (id : Nat) : World :=
  let w1 :=
    match lookupA id w.insts with
    | some i =>
        if i.active then updInst w id (fun j => { j with active := false, ts := none }) else w
    | none => w
  match lookupA id w1.storage with
  | some s =>
      let w2 := clearTimeoutW w1 s.activeTimeout
      { w2 with storage := eraseAllA id w2.storage }
  | none => w1

/-- The body of `deactivateOtherInstances`'s `forEach` for one registry key:
clear both of the entry's timeouts, invoke the entry's `stop` callback (the
owner's `Tappable.stop`), then delete the entry. -/
def purgeOne (w : World) (id : Nat) : World :=
  match lookupA id w.storage with
  | some s =>
      let w1 := clearTimeoutW w s.activeTimeout
      let w2 := clearTimeoutO w1 s.timeout
      let w3 := stopI w2 id
      { w3 with storage := eraseAllA id w3.storage }
  | none => w

/-- `deactivateOtherInstances(exclude?)` (source lines 96–104): for every
registry key other than `exclude`, clear the entry's timeouts, run its
`stop`, and delete it. -/
def deactivateOtherInstances (w : World) (exclude : Option Nat) : World :=
  (((w.storage.map Prod.fst).filter (fun k => decide (some k ≠ exclude))).foldl purgeOne) w

/-- `Tappable.start` (source lines 290–298): if not already active and
`hasActive`, set `active := true, ts := Date.now()`; then deactivate every
other registered instance. -/
def startI (w : World) (id : Nat) : World :=
  let w1 :=
    match lookupA id w.insts with
    | some i =>
        if !i.active && i.hasActive then
          updInst w id (fun j => { j with active := true, ts := some w.now })
        else w
    | none => w
  deactivateOtherInstances w1 (some id)

/-- `Tappable.onDown` (source lines 250–277), the Android ripple: record a
wave at the event coordinate under key `'wave' + Date.now()` (modelled as the
current clock value, so two ripples in the same millisecond collide exactly
as in the source) and schedule its removal after 225 ms, remembering only the
latest waves timeout handle. -/
def onDown (w : World) (id : Nat) (x y : Int) : World :=
  match lookupA id w.insts with
  | some i =>
      if i.platformAndroid then
        let key := w.now
        let w1 := updInst w id (fun j => { j with clicks := setA key (x, y) j.clicks })
        let p := setTimeoutW w1 (TimerCb.wavesCb id key) 225
        updInst p.1 id (fun j => { j with wavesTimeout := some p.2 })
      else w
  | none => w

/-- `Tappable.onStart` (source lines 173–191).  `touches` is
`originalEvent.touches?.length` (`none` for mouse events).  When `hasActive`:
a start with more than one contact purges every registry entry and returns;
otherwise (after the Android ripple) a fresh entry
`{ stop, activeTimeout: setTimeout(start, ACTIVE_DELAY) }` is assigned to
`storage[id]`, overwriting any previous entry without clearing its
timeouts. -/
def onStart (w : World) (id : Nat) (touches : Option Nat) (x y : Int) : World :=
  match lookupA id w.insts with
  | none => w
  | some i =>
      if i.hasActive then
        if (match touches with | some n => decide (1 < n) | none => false) then
          deactivateOtherInstances w none
        else
          let w1 := if i.platformAndroid then onDown w id x y else w
          let p := setTimeoutW w1 (TimerCb.startCb id) ACTIVE_DELAY
          { p.1 with storage := setA id { activeTimeout := p.2, timeout := none } p.1.storage }
      else w

/-- `Tappable.onMove` (source lines 196–202): once the cumulative absolute
shift exceeds 20 on either axis, mark the gesture as a slide and `stop`. -/
def onMove (w : World) (id : Nat) (shiftXAbs shiftYAbs : Nat) : World :=
  match lookupA id w.insts with
  | none => w
  | some _ =>
      if 20 < shiftXAbs || 20 < shiftYAbs then
        stopI (updInst w id (fun j => { j with isSlide := true })) id
      else w

/-- `Tappable.onEnd` (source lines 207–245).  `touches` is the remaining
contact count.  Contacts remaining: reset `isSlide`, `stop`, return.
Active and ≥ 100 ms elapsed: `stop`.  Active and < 100 ms: schedule `stop`
after `activeEffectDelay - now + ts` and record the handle in the registry
entry if one exists.  Not active and not sliding: `start`, schedule `stop`
after `activeEffectDelay`, record the handle in the entry (clearing the
entry's activation timeout) or, with no entry, in `this.timeout`.  Finally
reset `isSlide`. -/
def onEnd (w : World) (id : Nat) (touches : Option Nat) : World :=
  match lookupA id w.insts with
  | none => w
  | some i =>
      if (match touches with | some n => decide (0 < n) | none => false) then
        stopI (updInst w id (fun j => { j with isSlide := false })) id
      else
        let w1 :=
          if i.active then
            if 100 ≤ w.now - i.ts.getD 0 then
              stopI w id
            else
              let p := setTimeoutW w (TimerCb.stopCb id)
                ((i.activeEffectDelay : Int) - (w.now : Int) + (i.ts.getD 0 : Int))
              match lookupA id p.1.storage with
              | some s => { p.1 with storage := setA id { s with timeout := some p.2 } p.1.storage }
              | none => p.1
          else if !i.isSlide then
            let w2 := startI w id
            let p := setTimeoutW w2 (TimerCb.stopCb id) (i.activeEffectDelay : Int)
            match lookupA id p.1.storage with
            | some s =>
                let w4 := clearTimeoutW p.1 s.activeTimeout
                { w4 with storage := setA id { s with timeout := some p.2 } w4.storage }
            | none => updInst p.1 id (fun j => { j with timeoutF := some p.2 })
          else w
        updInst w1 id (fun j => { j with isSlide := false })

/-- `componentWillUnmount` (source lines 331–340): if the registry holds an
entry for this id, clear the entry's release and activation timeouts and
delete the entry; then clear the (last) waves timeout.  The instance is
removed from `insts`: React detaches the handlers and ignores `setState` from
then on.  The `this.timeout` handle is not cleared by the source. -/
def componentWillUnmount (w : World) (id : Nat) : World :=
  match lookupA id w.insts with
  | none => w
  | some i =>
      let w1 :=
        match lookupA id w.storage with
        | some s =>
            let wa := clearTimeoutO w s.timeout
            let wb := clearTimeoutW wa s.activeTimeout
            { wb with storage := eraseAllA id wb.storage }
        | none => w
      let w2 := clearTimeoutO w1 i.wavesTimeout
      { w2 with insts := eraseAllA id w2.insts }

/-- Run a fired timeout's callback. The waves callback deletes its ripple key
from `clicks`; the other callbacks are the instance's `start` / `stop`. -/
def runCb (w : World) (cb : TimerCb) : World :=
  match cb with
  | TimerCb.startCb id => startI w id
  | TimerCb.stopCb id => stopI w id
  | TimerCb.wavesCb id key =>
      match lookupA id w.insts with
      | some _ => updInst w id (fun j => { j with clicks := eraseAllA key j.clicks })
      | none => w

/-- Fire the outstanding timeout with handle `h`: remove it from the queue
and run its callback. -/
def fireTimer (w : World) (h : Nat) : World :=
  match w.timers.find? (fun t => decide (t.handle = h)) with
  | none => w
  | some t => runCb { w with timers := w.timers.filter (fun u => decide (u.handle ≠ h)) } t.cb

/-- A timeout may fire once its delay has elapsed (negative delays are
clamped to zero, as in the browser). -/
def timerDue (w : World) (h : Nat) : Bool :=
  w.timers.any (fun t => decide (t.handle = h) && decide (t.schedAt + t.delay.toNat ≤ w.now))

/-- Let wall-clock time pass. -/
def advanceW (w : World) (d : Nat) : World :=
  { w with now := w.now + d }

/-- The configuration of one mounted instance: its id and the props the
gesture handlers read. -/
structure InstCfg where
  id : Nat
  hasActive : Bool := true
  activeEffectDelay : Nat := 600
  platformAndroid : Bool := false
deriving DecidableEq

/-- A freshly constructed instance (`constructor`, source lines 109–120):
inactive, `ts : null`, no ripples, `isSlide := false`. -/
def initInst (c : InstCfg) : Inst :=
  { active := false, ts := none, hasActive := c.hasActive, isSlide := false,
    clicks := [], wavesTimeout := none, timeoutF := none,
    activeEffectDelay := c.activeEffectDelay, platformAndroid := c.platformAndroid }

/-- The world at the start of a gesture sequence: the mounted instances in
their constructor state, an empty registry (`let storage = {}`), and no
outstanding timeouts. -/
def initWorld (cfg : List InstCfg) (t0 : Nat) : World :=
  { insts := cfg.map (fun c => (c.id, initInst c)), storage := [], timers := [],
    now := t0, nextHandle := 0 }

/-- The worlds reachable by some sequence of gesture events on some set of
mounted instances (with distinct ids), interleaved with time passing, timer
firings (only once due) and unmounts. -/
inductive Reach : World → Prop where
  | init (cfg : List InstCfg) (t0 : Nat) (hids : (cfg.map InstCfg.id).Nodup) :
      Reach (initWorld cfg t0)
  | advance {w : World} (d : Nat) (h : Reach w) : Reach (advanceW w d)
  | gestureStart {w : World} (id : Nat) (tc : Option Nat) (x y : Int) (h : Reach w) :
      Reach (onStart w id tc x y)
  | gestureMove {w : World} (id sx sy : Nat) (h : Reach w) : Reach (onMove w id sx sy)
  | gestureEnd {w : World} (id : Nat) (tc : Option Nat) (h : Reach w) : Reach (onEnd w id tc)
  | unmount {w : World} (id : Nat) (h : Reach w) : Reach (componentWillUnmount w id)
  | fire {w : World} (hnd : Nat) (hdue : timerDue w hnd = true) (h : Reach w) :
      Reach (fireTimer w hnd)

/-! ### Keyboard activation (`onKeyDown`, source lines 155–168, and its
wiring in `render`, lines 404–411) -/

/-- The `role` prop values distinguished by the keyboard handler. -/
inductive KbRole where
  | button
  | link
  | other
deriving DecidableEq, Fintype

/-- The key pressed. -/
inductive KbKey where
  | enter
  | space
  | other
deriving DecidableEq, Fintype

/-- Modelled from the spec: `shouldTriggerClickOnEnterOrSpace` lives in
`src/lib/accessibility`, which is not under `src/`.  Per the spec, Enter
triggers a synthesized click for both `role="button"` and `role="link"`,
Space only for `role="button"`. -/
def shouldTriggerClickOnEnterOrSpace (role : KbRole) (key : KbKey) : Bool :=
  match role, key with
  | KbRole.link, KbKey.enter => true
  | KbRole.button, KbKey.enter => true
  | KbRole.button, KbKey.space => true
  | _, _ => false

/-- The observable effects of one `onKeyDown` invocation, in order. -/
inductive KeyAction where
  | click
  | callerHandler
deriving DecidableEq

/-- `Tappable.onKeyDown` (source lines 155–168): when
`shouldTriggerClickOnEnterOrSpace(e)`, prevent default and synthesize
`this.container.click()`; afterwards, call the caller-supplied `onKeyDown`
prop if one is a function. -/
def onKeyDownActions (role : KbRole) (key : KbKey) (hasCaller : Bool) : List KeyAction :=
  (if shouldTriggerClickOnEnterOrSpace role key then [KeyAction.click] else []) ++
    (if hasCaller then [KeyAction.callerHandler] else [])

/-- The natively interactive element types (source line 404). -/
def nativeComponents : List String := ["a", "button", "input", "textarea", "label"]

/-- Whether `render` (source lines 404–411) attaches `this.onKeyDown` to the
root: only for a non-native, non-contentEditable component whose role is
`button` or `link`. -/
def keyDownWired (comp : String) (contentEditable : Bool) (role : String) : Bool :=
  !(nativeComponents.contains comp) && !contentEditable && (role == "button" || role == "link")

/-! ### Renderings of the specification's properties -/

/-- Claim C1 as stated: at most one mounted instance has `isActive`. -/
def AtMostOneActive (w : World) : Prop :=
  ∀ a b : Nat, activeOf w a = true → activeOf w b = true → a = b

/-- Instance `id` has a scheduled timeout that will run its `start` — "a
pending activation timer", in the spec's words. -/
def hasPendingStartTimer (w : World) (id : Nat) : Bool :=
  w.timers.any (fun t => decide (t.cb = TimerCb.startCb id))

/-- Claim C2 as stated: a mounted instance has a registry entry iff it has a
pending activation timer or is active. -/
def EntryIffPendingOrActive (w : World) : Prop :=
  ∀ id i, lookupA id w.insts = some i →
    ((∃ s, lookupA id w.storage = some s) ↔
      (hasPendingStartTimer w id = true ∨ activeOf w id = true))

/-- The activation timeout recorded in registry entry `s` of instance `id`
is still scheduled (and is a `start` timer). -/
def pendingStartB (w : World) (id : Nat) (s : StorageItem) : Bool :=
  w.timers.any (fun t =>
    decide (t.handle = s.activeTimeout) && decide (t.cb = TimerCb.startCb id))

/-- Instance `id` is active, holds a registry entry, and the entry's
activation timeout has already fired or been cleared ("settled"). -/
def settledActiveB (w : World) (id : Nat) : Bool :=
  activeOf w id &&
    (match lookupA id w.storage with
     | some s => !(pendingStartB w id s)
     | none => false)

/-- At most one instance is settled-active: the amended form of claim C1
that the code does maintain. -/
def SettledUnique (w : World) : Prop :=
  ∀ a b : Nat, settledActiveB w a = true → settledActiveB w b = true → a = b

/-- Gesture events that can follow a gesture's start on the same instance:
moves, (partial) releases, and time passing. -/
inductive ContEv where
  | moveEv (sx sy : Nat)
  | endEv (tc : Option Nat)
  | advEv (d : Nat)
deriving DecidableEq

/-- Deliver a continuation of gesture events to instance `id`. -/
def applyCont (id : Nat) : World → List ContEv → World
  | w, [] => w
  | w, ContEv.moveEv sx sy :: rest => applyCont id (onMove w id sx sy) rest
  | w, ContEv.endEv tc :: rest => applyCont id (onEnd w id tc) rest
  | w, ContEv.advEv d :: rest => applyCont id (advanceW w d) rest

/-! ### The inductive well-formedness invariant of reachable worlds -/

/-- Outstanding timeouts have pairwise distinct handles. -/
def TimersDistinct (w : World) : Prop :=
  w.timers.Pairwise (fun t u => t.handle ≠ u.handle)

/-- Outstanding timeout handles are below the fresh-handle counter. -/
def TimersFresh (w : World) : Prop :=
  ∀ t ∈ w.timers, t.handle < w.nextHandle

/-- Handles recorded in registry entries are below the fresh-handle
counter. -/
def StorageFresh (w : World) : Prop :=
  ∀ id s, lookupA id w.storage = some s →
    s.activeTimeout < w.nextHandle ∧ ∀ h, s.timeout = some h → h < w.nextHandle

/-- Waves-timeout handles remembered by instances are below the fresh-handle
counter. -/
def WavesFresh (w : World) : Prop :=
  ∀ id i, lookupA id w.insts = some i → ∀ h, i.wavesTimeout = some h → h < w.nextHandle

/-- A scheduled timeout whose handle an entry records as its activation
timeout runs that instance's `start`. -/
def CohActive (w : World) : Prop :=
  ∀ id s, lookupA id w.storage = some s →
    ∀ t ∈ w.timers, t.handle = s.activeTimeout → t.cb = TimerCb.startCb id

/-- A scheduled timeout whose handle an entry records as its release timeout
runs that instance's `stop`. -/
def CohRelease (w : World) : Prop :=
  ∀ id s, lookupA id w.storage = some s →
    ∀ t ∈ w.timers, s.timeout = some t.handle → t.cb = TimerCb.stopCb id

/-- A scheduled timeout whose handle an instance remembers as its waves
timeout runs that instance's ripple removal. -/
def CohWaves (w : World) : Prop :=
  ∀ id i, lookupA id w.insts = some i →
    ∀ t ∈ w.timers, i.wavesTimeout = some t.handle → ∃ k, t.cb = TimerCb.wavesCb id k

/-- Every registry entry belongs to a mounted instance with
`hasActive`. -/
def EntriesHaveActiveInst (w : World) : Prop :=
  ∀ id s, lookupA id w.storage = some s → hasActiveOf w id = true

/-- Every registry entry's instance has its recorded activation timeout
still scheduled or is active: the amended form of claim C2 that the code
does maintain. -/
def EntriesPendingOrActive (w : World) : Prop :=
  ∀ id s, lookupA id w.storage = some s →
    pendingStartB w id s = true ∨ activeOf w id = true

/-- The well-formedness invariant of reachable worlds.  The two properties
proved alongside it over `Reach` — `EntriesPendingOrActive` and
`SettledUnique` — are stated separately. -/
structure Wf (w : World) : Prop where
  tdist : TimersDistinct w
  tfresh : TimersFresh w
  sfresh : StorageFresh w
  wfresh : WavesFresh w
  cohA : CohActive w
  cohR : CohRelease w
  cohW : CohWaves w
  entried : EntriesHaveActiveInst w

/-! ### Concrete gesture sequences

`mt*`: a multi-touch gesture on instance 1 (two contacts at start, staged
release), then a plain tap on instance 2 — instance 1 ends active with no
registry entry, and both instances end active together.

`dbl*`: two rapid `onStart`s on instance 1 (mouse re-press before any
release is processed), then unmount.

`tap*`: ordinary taps used by the witnesses. -/

/-- Instance 1 with default props. -/
def tapCfg1 : InstCfg := { id := 1 }

/-- Instance 2 with default props. -/
def tapCfg2 : InstCfg := { id := 2 }

/-- Two mounted instances, fresh registry, clock at 0. -/
def mtW0 : World := initWorld [tapCfg1, tapCfg2] 0

/-- A gesture start on instance 1 reporting two contact points. -/
def mtW1 : World := onStart mtW0 1 (some 2) 0 0

/-- One contact lifted: one remains. -/
def mtW2 : World := onEnd mtW1 1 (some 1)

/-- Final release: the very-short-tap branch runs `start` — instance 1 is
now active with no registry entry. -/
def mtW3 : World := onEnd mtW2 1 (some 0)

/-- A plain gesture start on instance 2. -/
def mtW4 : World := onStart mtW3 2 none 0 0

/-- 70 ms pass. -/
def mtW5 : World := advanceW mtW4 70

/-- Instance 2's activation timeout fires: instance 2 activates, but the
purge skips entry-less instance 1 — both instances are now active. -/
def mtW6 : World := fireTimer mtW5 1

/-- One mounted instance, fresh registry. -/
def dblW0 : World := initWorld [tapCfg1] 0

/-- First gesture start on instance 1: entry with activation timeout 0. -/
def dblW1 : World := onStart dblW0 1 none 0 0

/-- Second gesture start: the entry is overwritten with activation timeout
1; the timeout with handle 0 is never cleared. -/
def dblW2 : World := onStart dblW1 1 none 0 0

/-- Unmount: clears only the handles recorded in the current entry, so the
orphaned activation timeout (handle 0) stays scheduled. -/
def dblW3 : World := componentWillUnmount dblW2 1

/-- A tap's start on instance 1 (same world as `dblW1`, named for the
witnesses). -/
def tapW1 : World := onStart (initWorld [tapCfg1] 0) 1 none 0 0

/-- 30 ms into the tap — before the 70 ms activation timeout fires. -/
def tapW2 : World := advanceW tapW1 30

/-- Release at 30 ms: the very-short-tap branch — active, entry
`{activeTimeout := 0, timeout := some 1}`, release timeout 1 scheduled with
delay 600. -/
def shortTapW : World := onEnd tapW2 1 none

/-- A slide right after the short tap's release: `stop` runs, deleting the
entry but leaving release timeout 1 scheduled. -/
def slideW : World := onMove shortTapW 1 25 0

/-- The tap held past the activation delay: the activation timeout fires at
70 ms — active, settled, entry retained. -/
def tapActiveW : World := fireTimer (advanceW tapW1 70) 0

/-- What `stop` does to an instance's state fields. -/
def dstate (i : Inst) : Inst :=
  if i.active then { i with active := false, ts := none } else i

/-- What `start` at instant `n` does to an instance's state fields. -/
def astate (n : Nat) (i : Inst) : Inst :=
  if !i.active && i.hasActive then { i with active := true, ts := some n } else i

/-- The registration assignment of `onStart`
(`storage[this.id] = { stop, activeTimeout: setTimeout(start, ACTIVE_DELAY) }`)
performed on world `w1`. -/
def regWorld (w1 : World) (id : Nat) : World :=
  { insts := w1.insts,
    storage := setA id { activeTimeout := w1.nextHandle, timeout := none } w1.storage,
    timers := w1.timers ++
      [{ handle := w1.nextHandle, delay := ACTIVE_DELAY, schedAt := w1.now,
         cb := TimerCb.startCb id }],
    now := w1.now, nextHandle := w1.nextHandle + 1 }

/-! ## Association-list lemmas -/

theorem lookupA_setA_self {α : Type} (k : Nat) (v : α) (l : List (Nat × α)) :
    lookupA k (setA k v l) = some v := by
  induction l with
  | nil => simp [setA, lookupA]
  | cons p rest ih =>
    by_cases h : p.1 = k
    · simp [setA, h, lookupA]
    · simp [setA, h, lookupA, ih]

theorem lookupA_setA_ne {α : Type} {k k' : Nat} (v : α) (l : List (Nat × α)) (h : k' ≠ k) :
    lookupA k' (setA k v l) = lookupA k' l := by
  induction l with
  | nil => simp [setA, lookupA, Ne.symm h]
  | cons p rest ih =>
    by_cases hp : p.1 = k
    · simp [setA, hp, lookupA, Ne.symm h]
    · simp [setA, hp, lookupA, ih]

theorem lookupA_eraseAllA_self {α : Type} (k : Nat) (l : List (Nat × α)) :
    lookupA k (eraseAllA k l) = none := by
  induction l with
  | nil => rfl
  | cons p rest ih =>
    by_cases h : p.1 = k
    · simpa [eraseAllA, List.filter_cons, h] using ih
    · simpa [eraseAllA, List.filter_cons, h, lookupA] using ih

theorem lookupA_eraseAllA_ne {α : Type} {k k' : Nat} (l : List (Nat × α)) (h : k' ≠ k) :
    lookupA k' (eraseAllA k l) = lookupA k' l := by
  induction l with
  | nil => rfl
  | cons p rest ih =>
    by_cases hp : p.1 = k
    · simpa [eraseAllA, List.filter_cons, hp, lookupA, Ne.symm h] using ih
    · have ih' := ih
      simp only [eraseAllA, ne_eq, decide_not] at ih'
      simp [eraseAllA, List.filter_cons, hp, lookupA, ih']

theorem lookupA_some_mem_keys {α : Type} {k : Nat} {v : α} {l : List (Nat × α)}
    (h : lookupA k l = some v) : k ∈ l.map Prod.fst := by
  induction l with
  | nil => simp [lookupA] at h
  | cons p rest ih =>
    by_cases hp : p.1 = k
    · simp [hp]
    · simp only [lookupA, hp, if_neg] at h
      simp [ih h]

theorem lookupA_mapUpd {α : Type} (id k : Nat) (f : α → α) (l : List (Nat × α)) :
    lookupA k (l.map (fun p => if p.1 = id then (p.1, f p.2) else p)) =
      if k = id then Option.map f (lookupA k l) else lookupA k l := by
  induction l with
  | nil => by_cases h : k = id <;> simp [lookupA, h]
  | cons p rest ih =>
    by_cases hp : p.1 = id
    · by_cases hq : p.1 = k
      · have hk : k = id := by rw [← hq, hp]
        simp [lookupA, hp, hq, hk]
      · have hik : ¬ id = k := by rw [← hp]; exact hq
        simp [lookupA, hp, hik, Ne.symm hik, ih]
    · by_cases hq : p.1 = k
      · have hk : ¬ k = id := by rw [← hq]; exact hp
        simp [lookupA, hp, hq, hk]
      · simp [lookupA, hp, hq, ih]

/-! ## Frame and characterization lemmas for the primitive operations -/

theorem updInst_storage (w : World) (id : Nat) (f : Inst → Inst) :
    (updInst w id f).storage = w.storage := rfl

theorem updInst_timers (w : World) (id : Nat) (f : Inst → Inst) :
    (updInst w id f).timers = w.timers := rfl

theorem updInst_now (w : World) (id : Nat) (f : Inst → Inst) :
    (updInst w id f).now = w.now := rfl

theorem updInst_nextHandle (w : World) (id : Nat) (f : Inst → Inst) :
    (updInst w id f).nextHandle = w.nextHandle := rfl

theorem updInst_insts (w : World) (id : Nat) (f : Inst → Inst) (k : Nat) :
    lookupA k (updInst w id f).insts =
      if k = id then Option.map f (lookupA k w.insts) else lookupA k w.insts :=
  lookupA_mapUpd id k f w.insts

theorem clearTimeoutW_frame (w : World) (h : Nat) :
    (clearTimeoutW w h).insts = w.insts ∧ (clearTimeoutW w h).storage = w.storage ∧
      (clearTimeoutW w h).now = w.now ∧ (clearTimeoutW w h).nextHandle = w.nextHandle :=
  ⟨rfl, rfl, rfl, rfl⟩

theorem mem_clearTimeoutW {w : World} {h : Nat} {t : Timer} :
    t ∈ (clearTimeoutW w h).timers ↔ t ∈ w.timers ∧ t.handle ≠ h := by
  simp [clearTimeoutW, List.mem_filter]

theorem mem_clearTimeoutO {w : World} {ho : Option Nat} {t : Timer} :
    t ∈ (clearTimeoutO w ho).timers ↔ t ∈ w.timers ∧ ho ≠ some t.handle := by
  cases ho with
  | none => simp [clearTimeoutO]
  | some h =>
    simp only [clearTimeoutO, mem_clearTimeoutW, ne_eq, Option.some.injEq]
    constructor
    · rintro ⟨ht, hne⟩
      exact ⟨ht, fun hh => hne hh.symm⟩
    · rintro ⟨ht, hne⟩
      exact ⟨ht, fun hh => hne hh.symm⟩

theorem clearTimeoutO_frame (w : World) (ho : Option Nat) :
    (clearTimeoutO w ho).insts = w.insts ∧ (clearTimeoutO w ho).storage = w.storage ∧
      (clearTimeoutO w ho).now = w.now ∧ (clearTimeoutO w ho).nextHandle = w.nextHandle := by
  cases ho <;> exact ⟨rfl, rfl, rfl, rfl⟩

theorem setTimeoutW_timers (w : World) (cb : TimerCb) (d : Int) :
    (setTimeoutW w cb d).1.timers =
      w.timers ++ [{ handle := w.nextHandle, delay := d, schedAt := w.now, cb := cb }] := rfl

theorem setTimeoutW_handle (w : World) (cb : TimerCb) (d : Int) :
    (setTimeoutW w cb d).2 = w.nextHandle := rfl

theorem setTimeoutW_nextHandle (w : World) (cb : TimerCb) (d : Int) :
    (setTimeoutW w cb d).1.nextHandle = w.nextHandle + 1 := rfl

theorem setTimeoutW_frame (w : World) (cb : TimerCb) (d : Int) :
    (setTimeoutW w cb d).1.insts = w.insts ∧ (setTimeoutW w cb d).1.storage = w.storage ∧
      (setTimeoutW w cb d).1.now = w.now :=
  ⟨rfl, rfl, rfl⟩

theorem dstate_active (i : Inst) : (dstate i).active = false ∨ i.active = true := by
  by_cases h : i.active = true
  · exact Or.inr h
  · simp [dstate, h]

theorem dstate_active_eq_false (i : Inst) : (dstate i).active = false := by
  by_cases h : i.active <;> simp [dstate, h]

theorem dstate_fields (i : Inst) :
    (dstate i).hasActive = i.hasActive ∧ (dstate i).isSlide = i.isSlide ∧
      (dstate i).wavesTimeout = i.wavesTimeout ∧ (dstate i).timeoutF = i.timeoutF ∧
      (dstate i).activeEffectDelay = i.activeEffectDelay ∧
      (dstate i).platformAndroid = i.platformAndroid ∧ (dstate i).clicks = i.clicks := by
  by_cases h : i.active <;> simp [dstate, h]

/-! ## Characterization of `stop` -/

theorem stopI_insts (w : World) (id k : Nat) :
    lookupA k (stopI w id).insts =
      if k = id then Option.map dstate (lookupA k w.insts) else lookupA k w.insts := by
  unfold stopI
  cases hI : lookupA id w.insts with
  | none =>
    cases hs : lookupA id w.storage with
    | none =>
      by_cases hk : k = id
      · subst hk; simp [hs, hI]
      · simp [hs, hk]
    | some s =>
      by_cases hk : k = id
      · subst hk; simp [hs, hI, clearTimeoutW]
      · simp [hs, hk, clearTimeoutW]
  | some i =>
    by_cases hA : i.active
    · have hs' : lookupA id (updInst w id
          (fun j => { j with active := false, ts := none })).storage = lookupA id w.storage := rfl
      by_cases hk : k = id
      · subst hk
        cases hs : lookupA k w.storage with
        | none => simp [hA, hs, hs', updInst_insts, hI, dstate]
        | some s => simp [hA, hs, hs', clearTimeoutW, updInst_insts, hI, dstate]
      · cases hs : lookupA id w.storage with
        | none => simp [hA, hs, hs', updInst_insts, hk]
        | some s => simp [hA, hs, hs', clearTimeoutW, updInst_insts, hk]
    · have hAf : i.active = false := by simpa using hA
      by_cases hk : k = id
      · subst hk
        cases hs : lookupA k w.storage with
        | none => simp [hAf, hs, hI, dstate]
        | some s => simp [hAf, hs, hI, clearTimeoutW, dstate]
      · cases hs : lookupA id w.storage with
        | none => simp [hAf, hs, hk]
        | some s => simp [hAf, hs, hk, clearTimeoutW]

theorem stopI_storage_self (w : World) (id : Nat) :
    lookupA id (stopI w id).storage = none := by
  unfold stopI
  cases hI : lookupA id w.insts with
  | none =>
    cases hs : lookupA id w.storage with
    | none => simpa [hs] using hs
    | some s => simp [hs, clearTimeoutW, lookupA_eraseAllA_self]
  | some i =>
    by_cases hA : i.active
    · have hs' : ∀ s2, lookupA id (updInst w id
          (fun j => { j with active := false, ts := none })).storage = s2 ↔
          lookupA id w.storage = s2 := fun s2 => Iff.rfl
      cases hs : lookupA id w.storage with
      | none => simp [hA, (hs' none).2 hs, updInst_storage, hs]
      | some s => simp [hA, (hs' (some s)).2 hs, clearTimeoutW, lookupA_eraseAllA_self]
    · have hAf : i.active = false := by simpa using hA
      cases hs : lookupA id w.storage with
      | none => simpa [hAf, hs] using hs
      | some s => simp [hAf, hs, clearTimeoutW, lookupA_eraseAllA_self]

theorem stopI_storage_ne (w : World) {id k : Nat} (hk : k ≠ id) :
    lookupA k (stopI w id).storage = lookupA k w.storage := by
  unfold stopI
  cases hI : lookupA id w.insts with
  | none =>
    cases hs : lookupA id w.storage with
    | none => simp [hs]
    | some s => simp [hs, clearTimeoutW, lookupA_eraseAllA_ne _ hk]
  | some i =>
    by_cases hA : i.active
    · cases hs : lookupA id w.storage with
      | none => simp [hA, hs, updInst_storage]
      | some s => simp [hA, hs, updInst_storage, clearTimeoutW, lookupA_eraseAllA_ne _ hk]
    · have hAf : i.active = false := by simpa using hA
      cases hs : lookupA id w.storage with
      | none => simp [hAf, hs]
      | some s => simp [hAf, hs, clearTimeoutW, lookupA_eraseAllA_ne _ hk]

theorem stopI_timers_entry (w : World) (id : Nat) {s : StorageItem}
    (hs : lookupA id w.storage = some s) :
    (stopI w id).timers = w.timers.filter (fun t => decide (t.handle ≠ s.activeTimeout)) := by
  unfold stopI
  cases hI : lookupA id w.insts with
  | none => simp [hs, clearTimeoutW]
  | some i =>
    by_cases hA : i.active
    · simp [hA, hs, updInst_storage, clearTimeoutW, updInst_timers]
    · have hAf : i.active = false := by simpa using hA
      simp [hAf, hs, clearTimeoutW]

theorem stopI_timers_noentry (w : World) (id : Nat)
    (hs : lookupA id w.storage = none) : (stopI w id).timers = w.timers := by
  unfold stopI
  cases hI : lookupA id w.insts with
  | none => simp [hs]
  | some i =>
    by_cases hA : i.active
    · simp [hA, hs, updInst_storage, updInst_timers]
    · have hAf : i.active = false := by simpa using hA
      simp [hAf, hs]

theorem stopI_now (w : World) (id : Nat) : (stopI w id).now = w.now := by
  unfold stopI
  cases hI : lookupA id w.insts with
  | none => cases hs : lookupA id w.storage <;> simp [hs, clearTimeoutW]
  | some i =>
    by_cases hA : i.active
    · cases hs : lookupA id w.storage <;>
        simp [hA, hs, updInst_storage, updInst_now, updInst_nextHandle, clearTimeoutW]
    · have hAf : i.active = false := by simpa using hA
      cases hs : lookupA id w.storage <;> simp [hAf, hs, clearTimeoutW]

theorem stopI_nextHandle (w : World) (id : Nat) : (stopI w id).nextHandle = w.nextHandle := by
  unfold stopI
  cases hI : lookupA id w.insts with
  | none => cases hs : lookupA id w.storage <;> simp [hs, clearTimeoutW]
  | some i =>
    by_cases hA : i.active
    · cases hs : lookupA id w.storage <;>
        simp [hA, hs, updInst_storage, updInst_now, updInst_nextHandle, clearTimeoutW]
    · have hAf : i.active = false := by simpa using hA
      cases hs : lookupA id w.storage <;> simp [hAf, hs, clearTimeoutW]

theorem stopI_active_self (w : World) (id : Nat) : activeOf (stopI w id) id = false := by
  unfold activeOf
  rw [stopI_insts]
  simp only [if_pos rfl]
  cases lookupA id w.insts with
  | none => rfl
  | some i => simp [dstate_active_eq_false]

theorem stopI_active_ne (w : World) {id k : Nat} (hk : k ≠ id) :
    activeOf (stopI w id) k = activeOf w k := by
  unfold activeOf
  rw [stopI_insts, if_neg hk]

/-! ## Characterization of the purge loop body -/

theorem purgeOne_noentry (w : World) (a : Nat) (hs : lookupA a w.storage = none) :
    purgeOne w a = w := by
  unfold purgeOne
  rw [hs]

theorem purgeOne_now (w : World) (a : Nat) : (purgeOne w a).now = w.now := by
  unfold purgeOne
  cases hs : lookupA a w.storage with
  | none => rfl
  | some s =>
    have h2 : (clearTimeoutO (clearTimeoutW w s.activeTimeout) s.timeout).now = w.now :=
      (clearTimeoutO_frame _ _).2.2.1
    simp [stopI_now, h2]

theorem purgeOne_nextHandle (w : World) (a : Nat) :
    (purgeOne w a).nextHandle = w.nextHandle := by
  unfold purgeOne
  cases hs : lookupA a w.storage with
  | none => rfl
  | some s =>
    have h2 : (clearTimeoutO (clearTimeoutW w s.activeTimeout) s.timeout).nextHandle =
        w.nextHandle := (clearTimeoutO_frame _ _).2.2.2
    simp [stopI_nextHandle, h2]

theorem purgeOne_storage_clearTwo (w : World) (a : Nat) (s : StorageItem) :
    (clearTimeoutO (clearTimeoutW w s.activeTimeout) s.timeout).storage = w.storage :=
  (clearTimeoutO_frame _ _).2.1

theorem purgeOne_insts_clearTwo (w : World) (a : Nat) (s : StorageItem) :
    (clearTimeoutO (clearTimeoutW w s.activeTimeout) s.timeout).insts = w.insts :=
  (clearTimeoutO_frame _ _).1

theorem purgeOne_storage_self (w : World) (a : Nat) :
    lookupA a (purgeOne w a).storage = none := by
  unfold purgeOne
  cases hs : lookupA a w.storage with
  | none => exact hs
  | some s => simp [lookupA_eraseAllA_self]

theorem purgeOne_storage_ne (w : World) {a k : Nat} (hk : k ≠ a) :
    lookupA k (purgeOne w a).storage = lookupA k w.storage := by
  unfold purgeOne
  cases hs : lookupA a w.storage with
  | none => rfl
  | some s =>
    simp only []
    rw [lookupA_eraseAllA_ne _ hk, stopI_storage_ne _ hk, purgeOne_storage_clearTwo w a s]

theorem purgeOne_insts_ne (w : World) {a k : Nat} (hk : k ≠ a) :
    lookupA k (purgeOne w a).insts = lookupA k w.insts := by
  unfold purgeOne
  cases hs : lookupA a w.storage with
  | none => rfl
  | some s =>
    simp only []
    rw [stopI_insts]
    simp [hk, purgeOne_insts_clearTwo w a s]

theorem purgeOne_insts_self (w : World) (a : Nat) {s : StorageItem}
    (hs : lookupA a w.storage = some s) :
    lookupA a (purgeOne w a).insts = Option.map dstate (lookupA a w.insts) := by
  unfold purgeOne
  rw [hs]
  simp only []
  rw [stopI_insts]
  simp [purgeOne_insts_clearTwo w a s]

theorem purgeOne_active_self (w : World) (a : Nat) {s : StorageItem}
    (hs : lookupA a w.storage = some s) : activeOf (purgeOne w a) a = false := by
  unfold activeOf
  rw [purgeOne_insts_self w a hs]
  cases lookupA a w.insts with
  | none => rfl
  | some i => simp [dstate_active_eq_false]

theorem purgeOne_timers_mem (w : World) (a : Nat) {s : StorageItem}
    (hs : lookupA a w.storage = some s) {t : Timer} :
    t ∈ (purgeOne w a).timers ↔
      t ∈ w.timers ∧ t.handle ≠ s.activeTimeout ∧ s.timeout ≠ some t.handle := by
  unfold purgeOne
  rw [hs]
  simp only []
  have hst : lookupA a (clearTimeoutO (clearTimeoutW w s.activeTimeout) s.timeout).storage =
      some s := by rw [purgeOne_storage_clearTwo w a s]; exact hs
  rw [stopI_timers_entry _ _ hst]
  simp only [List.mem_filter, mem_clearTimeoutO, mem_clearTimeoutW, decide_eq_true_eq]
  constructor
  · rintro ⟨⟨⟨ht, hne⟩, hto⟩, _⟩
    exact ⟨ht, hne, hto⟩
  · rintro ⟨ht, hne, hto⟩
    exact ⟨⟨⟨ht, hne⟩, hto⟩, hne⟩

theorem purgeOne_timers_sub (w : World) (a : Nat) {t : Timer}
    (ht : t ∈ (purgeOne w a).timers) : t ∈ w.timers := by
  cases hs : lookupA a w.storage with
  | none => rw [purgeOne_noentry w a hs] at ht; exact ht
  | some s => exact ((purgeOne_timers_mem w a hs).1 ht).1

theorem purgeOne_active_le (w : World) (a k : Nat)
    (h : activeOf (purgeOne w a) k = true) : activeOf w k = true := by
  by_cases hk : k = a
  · subst hk
    cases hs : lookupA k w.storage with
    | none => rw [purgeOne_noentry w k hs] at h; exact h
    | some s => rw [purgeOne_active_self w k hs] at h; exact absurd h (by simp)
  · rw [activeOf, purgeOne_insts_ne w hk] at h
    exact h

theorem purgeOne_inst_transfer (w : World) (a k : Nat) {i' : Inst}
    (h : lookupA k (purgeOne w a).insts = some i') :
    ∃ i, lookupA k w.insts = some i ∧ i'.hasActive = i.hasActive ∧
      i'.wavesTimeout = i.wavesTimeout ∧ i'.isSlide = i.isSlide := by
  by_cases hk : k = a
  · subst hk
    cases hs : lookupA k w.storage with
    | none =>
      rw [purgeOne_noentry w k hs] at h
      exact ⟨i', h, rfl, rfl, rfl⟩
    | some s =>
      rw [purgeOne_insts_self w k hs] at h
      cases hI : lookupA k w.insts with
      | none => rw [hI] at h; exact absurd h (by simp)
      | some i =>
        rw [hI] at h
        refine ⟨i, rfl, ?_⟩
        have : i' = dstate i := by simpa using h.symm
        subst this
        exact ⟨(dstate_fields i).1, (dstate_fields i).2.2.1, (dstate_fields i).2.1⟩
  · rw [purgeOne_insts_ne w hk] at h
    exact ⟨i', h, rfl, rfl, rfl⟩

/-! ## The purge fold (`deactivateOtherInstances`) -/

theorem foldl_purgeOne_pres {Q : World → Prop} (hQ : ∀ v a, Q v → Q (purgeOne v a)) :
    ∀ (l : List Nat) (w : World), Q w → Q (List.foldl purgeOne w l) := by
  intro l
  induction l with
  | nil => intro w hw; exact hw
  | cons a rest ih => intro w hw; exact ih (purgeOne w a) (hQ w a hw)

theorem foldl_purgeOne_now : ∀ (l : List Nat) (w : World),
    (List.foldl purgeOne w l).now = w.now := by
  intro l
  induction l with
  | nil => intro w; rfl
  | cons a rest ih => intro w; rw [List.foldl_cons, ih, purgeOne_now]

theorem foldl_purgeOne_nextHandle : ∀ (l : List Nat) (w : World),
    (List.foldl purgeOne w l).nextHandle = w.nextHandle := by
  intro l
  induction l with
  | nil => intro w; rfl
  | cons a rest ih => intro w; rw [List.foldl_cons, ih, purgeOne_nextHandle]

theorem foldl_purgeOne_storage_ne : ∀ (l : List Nat) (w : World) (k : Nat), k ∉ l →
    lookupA k (List.foldl purgeOne w l).storage = lookupA k w.storage := by
  intro l
  induction l with
  | nil => intro w k _; rfl
  | cons a rest ih =>
    intro w k hk
    have hka : k ≠ a := fun h => hk (h ▸ List.mem_cons_self a rest)
    have hkr : k ∉ rest := fun h => hk (List.mem_cons_of_mem a h)
    rw [List.foldl_cons, ih _ _ hkr, purgeOne_storage_ne w hka]

theorem foldl_purgeOne_insts_ne : ∀ (l : List Nat) (w : World) (k : Nat), k ∉ l →
    lookupA k (List.foldl purgeOne w l).insts = lookupA k w.insts := by
  intro l
  induction l with
  | nil => intro w k _; rfl
  | cons a rest ih =>
    intro w k hk
    have hka : k ≠ a := fun h => hk (h ▸ List.mem_cons_self a rest)
    have hkr : k ∉ rest := fun h => hk (List.mem_cons_of_mem a h)
    rw [List.foldl_cons, ih _ _ hkr, purgeOne_insts_ne w hka]

theorem foldl_purgeOne_storage_none : ∀ (l : List Nat) (w : World) (k : Nat),
    (lookupA k w.storage = none ∨ k ∈ l) →
    lookupA k (List.foldl purgeOne w l).storage = none := by
  intro l
  induction l with
  | nil =>
    intro w k h
    rcases h with h | h
    · exact h
    · exact absurd h (List.not_mem_nil k)
  | cons a rest ih =>
    intro w k h
    rw [List.foldl_cons]
    by_cases hka : k = a
    · subst hka
      exact ih _ _ (Or.inl (purgeOne_storage_self w k))
    · rcases h with h | h
      · exact ih _ _ (Or.inl (by rw [purgeOne_storage_ne w hka]; exact h))
      · rcases List.mem_cons.1 h with h | h
        · exact absurd h hka
        · exact ih _ _ (Or.inr h)

theorem foldl_purgeOne_timers_sub : ∀ (l : List Nat) (w : World) (t : Timer),
    t ∈ (List.foldl purgeOne w l).timers → t ∈ w.timers := by
  intro l
  induction l with
  | nil => intro w t ht; exact ht
  | cons a rest ih =>
    intro w t ht
    exact purgeOne_timers_sub w a (ih _ _ ht)

theorem foldl_purgeOne_active_le : ∀ (l : List Nat) (w : World) (k : Nat),
    activeOf (List.foldl purgeOne w l) k = true → activeOf w k = true := by
  intro l
  induction l with
  | nil => intro w k h; exact h
  | cons a rest ih =>
    intro w k h
    exact purgeOne_active_le w a k (ih _ _ h)

theorem foldl_purgeOne_active_processed : ∀ (l : List Nat) (w : World) (k : Nat),
    k ∈ l → lookupA k w.storage ≠ none →
    activeOf (List.foldl purgeOne w l) k = false := by
  intro l
  induction l with
  | nil => intro w k h; exact absurd h (List.not_mem_nil k)
  | cons a rest ih =>
    intro w k hmem hsome
    rw [List.foldl_cons]
    by_cases hka : k = a
    · subst hka
      rcases hs : lookupA k w.storage with _ | s
      · exact absurd hs hsome
      · have hfalse : activeOf (purgeOne w k) k = false := purgeOne_active_self w k hs
        rcases hr : activeOf (List.foldl purgeOne (purgeOne w k) rest) k with _ | _
        · rfl
        · rw [foldl_purgeOne_active_le rest _ k hr] at hfalse
          exact absurd hfalse (by simp)
    · rcases List.mem_cons.1 hmem with h | h
      · exact absurd h hka
      · exact ih _ _ h (by rw [purgeOne_storage_ne w hka]; exact hsome)

theorem foldl_purgeOne_inst_transfer : ∀ (l : List Nat) (w : World) (k : Nat) (i' : Inst),
    lookupA k (List.foldl purgeOne w l).insts = some i' →
    ∃ i, lookupA k w.insts = some i ∧ i'.hasActive = i.hasActive ∧
      i'.wavesTimeout = i.wavesTimeout ∧ i'.isSlide = i.isSlide := by
  intro l
  induction l with
  | nil => intro w k i' h; exact ⟨i', h, rfl, rfl, rfl⟩
  | cons a rest ih =>
    intro w k i' h
    rw [List.foldl_cons] at h
    rcases ih _ _ _ h with ⟨im, him, h1, h2, h3⟩
    rcases purgeOne_inst_transfer w a k him with ⟨i, hi, g1, g2, g3⟩
    exact ⟨i, hi, h1.trans g1, h2.trans g2, h3.trans g3⟩

theorem deact_now (w : World) (ex : Option Nat) :
    (deactivateOtherInstances w ex).now = w.now :=
  foldl_purgeOne_now _ _

theorem deact_nextHandle (w : World) (ex : Option Nat) :
    (deactivateOtherInstances w ex).nextHandle = w.nextHandle :=
  foldl_purgeOne_nextHandle _ _

theorem deact_timers_sub (w : World) (ex : Option Nat) {t : Timer}
    (ht : t ∈ (deactivateOtherInstances w ex).timers) : t ∈ w.timers :=
  foldl_purgeOne_timers_sub _ _ _ ht

theorem deact_active_le (w : World) (ex : Option Nat) (k : Nat)
    (h : activeOf (deactivateOtherInstances w ex) k = true) : activeOf w k = true :=
  foldl_purgeOne_active_le _ _ _ h

theorem deact_inst_transfer (w : World) (ex : Option Nat) (k : Nat) {i' : Inst}
    (h : lookupA k (deactivateOtherInstances w ex).insts = some i') :
    ∃ i, lookupA k w.insts = some i ∧ i'.hasActive = i.hasActive ∧
      i'.wavesTimeout = i.wavesTimeout ∧ i'.isSlide = i.isSlide :=
  foldl_purgeOne_inst_transfer _ _ _ _ h

theorem deact_storage_none (w : World) {ex : Option Nat} {k : Nat} (hk : some k ≠ ex) :
    lookupA k (deactivateOtherInstances w ex).storage = none := by
  unfold deactivateOtherInstances
  rcases hE : lookupA k w.storage with _ | s
  · exact foldl_purgeOne_storage_none _ _ _ (Or.inl hE)
  · refine foldl_purgeOne_storage_none _ _ _ (Or.inr ?_)
    rw [List.mem_filter]
    exact ⟨lookupA_some_mem_keys hE, by simpa using hk⟩

theorem deact_storage_ex (w : World) (e : Nat) :
    lookupA e (deactivateOtherInstances w (some e)).storage = lookupA e w.storage := by
  unfold deactivateOtherInstances
  refine foldl_purgeOne_storage_ne _ _ _ ?_
  intro hmem
  rcases List.mem_filter.1 hmem with ⟨_, hdec⟩
  simp at hdec

theorem deact_insts_ex (w : World) (e : Nat) :
    lookupA e (deactivateOtherInstances w (some e)).insts = lookupA e w.insts := by
  unfold deactivateOtherInstances
  refine foldl_purgeOne_insts_ne _ _ _ ?_
  intro hmem
  rcases List.mem_filter.1 hmem with ⟨_, hdec⟩
  simp at hdec

theorem deact_entried_inactive (w : World) {ex : Option Nat} {k : Nat}
    (hs : lookupA k w.storage ≠ none) (hk : some k ≠ ex) :
    activeOf (deactivateOtherInstances w ex) k = false := by
  unfold deactivateOtherInstances
  refine foldl_purgeOne_active_processed _ _ _ ?_ hs
  rw [List.mem_filter]
  rcases hE : lookupA k w.storage with _ | s
  · exact absurd hE hs
  · exact ⟨lookupA_some_mem_keys hE, by simpa using hk⟩

/-! ## Characterization of `start` -/

theorem startI_storage_self (w : World) (id : Nat) :
    lookupA id (startI w id).storage = lookupA id w.storage := by
  unfold startI
  cases hI : lookupA id w.insts with
  | none => exact deact_storage_ex w id
  | some i =>
    by_cases hc : (!i.active && i.hasActive) = true
    · simp only [hc, if_true]
      exact deact_storage_ex _ id
    · simp only [hc, if_false]
      exact deact_storage_ex w id

theorem startI_storage_other (w : World) {id k : Nat} (hk : k ≠ id) :
    lookupA k (startI w id).storage = none := by
  unfold startI
  cases hI : lookupA id w.insts with
  | none => exact deact_storage_none w (by simpa using hk)
  | some i =>
    by_cases hc : (!i.active && i.hasActive) = true
    · simp only [hc, if_true]
      exact deact_storage_none _ (by simpa using hk)
    · simp only [hc, if_false]
      exact deact_storage_none w (by simpa using hk)

theorem startI_insts_self (w : World) (id : Nat) :
    lookupA id (startI w id).insts = Option.map (astate w.now) (lookupA id w.insts) := by
  unfold startI
  cases hI : lookupA id w.insts with
  | none =>
    show lookupA id (deactivateOtherInstances w (some id)).insts = _
    rw [deact_insts_ex w id, hI]
    rfl
  | some i =>
    show lookupA id (deactivateOtherInstances
        (if (!i.active && i.hasActive) = true then
          updInst w id (fun j => { j with active := true, ts := some w.now }) else w)
        (some id)).insts = _
    by_cases hc : (!i.active && i.hasActive) = true
    · rw [if_pos hc, deact_insts_ex _ id, updInst_insts, if_pos rfl, hI]
      simp [astate, hc]
    · rw [if_neg hc, deact_insts_ex w id, hI]
      simp [astate, hc]

theorem startI_active_self (w : World) {id : Nat} {i : Inst}
    (hI : lookupA id w.insts = some i) (hha : i.hasActive = true) :
    activeOf (startI w id) id = true := by
  unfold activeOf
  rw [startI_insts_self, hI]
  by_cases hA : i.active
  · simp [astate, hA]
  · have hc : (!i.active && i.hasActive) = true := by simp [hA, hha]
    simp [astate, hc]

theorem startI_ts_self (w : World) {id : Nat} {i : Inst}
    (hI : lookupA id w.insts = some i) (hha : i.hasActive = true)
    (hnact : i.active = false) : tsOf (startI w id) id = some w.now := by
  unfold tsOf
  rw [startI_insts_self, hI]
  have hc : (!i.active && i.hasActive) = true := by simp [hnact, hha]
  simp [astate, hc]

theorem startI_now (w : World) (id : Nat) : (startI w id).now = w.now := by
  have key : ∀ w1 : World, w1.now = w.now →
      (deactivateOtherInstances w1 (some id)).now = w.now := by
    intro w1 he
    rw [deact_now, he]
  unfold startI
  cases hI : lookupA id w.insts with
  | none => exact key _ rfl
  | some i => exact key _ (by split <;> first | rfl | (split <;> rfl))

theorem startI_nextHandle (w : World) (id : Nat) :
    (startI w id).nextHandle = w.nextHandle := by
  have key : ∀ w1 : World, w1.nextHandle = w.nextHandle →
      (deactivateOtherInstances w1 (some id)).nextHandle = w.nextHandle := by
    intro w1 he
    rw [deact_nextHandle, he]
  unfold startI
  cases hI : lookupA id w.insts with
  | none => exact key _ rfl
  | some i => exact key _ (by split <;> first | rfl | (split <;> rfl))

theorem startI_timers_sub (w : World) (id : Nat) {t : Timer}
    (ht : t ∈ (startI w id).timers) : t ∈ w.timers := by
  have key : ∀ w1 : World, w1.timers = w.timers →
      t ∈ (deactivateOtherInstances w1 (some id)).timers → t ∈ w.timers := by
    intro w1 he ht2
    have := deact_timers_sub _ _ ht2
    rwa [he] at this
  unfold startI at ht
  cases hI : lookupA id w.insts with
  | none =>
    rw [hI] at ht
    exact key _ rfl ht
  | some i =>
    rw [hI] at ht
    exact key _ (by split <;> first | rfl | (split <;> rfl)) ht

theorem startI_inst_transfer (w : World) (id k : Nat) {i' : Inst}
    (h : lookupA k (startI w id).insts = some i') :
    ∃ i, lookupA k w.insts = some i ∧ i'.hasActive = i.hasActive ∧
      i'.wavesTimeout = i.wavesTimeout := by
  have key : ∀ w1 : World,
      (∀ k2 i2, lookupA k2 w1.insts = some i2 →
        ∃ i, lookupA k2 w.insts = some i ∧ i2.hasActive = i.hasActive ∧
          i2.wavesTimeout = i.wavesTimeout) →
      lookupA k (deactivateOtherInstances w1 (some id)).insts = some i' →
      ∃ i, lookupA k w.insts = some i ∧ i'.hasActive = i.hasActive ∧
        i'.wavesTimeout = i.wavesTimeout := by
    intro w1 htr h2
    rcases deact_inst_transfer _ _ _ h2 with ⟨im, him, h1a, h2a, _⟩
    rcases htr _ _ him with ⟨i, hi, g1, g2⟩
    exact ⟨i, hi, h1a.trans g1, h2a.trans g2⟩
  unfold startI at h
  cases hI : lookupA id w.insts with
  | none =>
    rw [hI] at h
    exact key _ (fun k2 i2 hh => ⟨i2, hh, rfl, rfl⟩) h
  | some i0 =>
    rw [hI] at h
    refine key _ ?_ h
    intro k2 i2 hh
    have hh2 : lookupA k2 (if (!i0.active && i0.hasActive) = true then
        updInst w id (fun j => { j with active := true, ts := some w.now }) else w).insts =
        some i2 := hh
    by_cases hc : (!i0.active && i0.hasActive) = true
    · rw [if_pos hc, updInst_insts] at hh2
      by_cases hk : k2 = id
      · rw [if_pos hk] at hh2
        cases hI2 : lookupA k2 w.insts with
        | none => rw [hI2] at hh2; exact absurd hh2 (by simp)
        | some ib =>
          rw [hI2] at hh2
          have hib : i2 = { ib with active := true, ts := some w.now } := by simpa using hh2.symm
          subst hib
          exact ⟨ib, rfl, rfl, rfl⟩
      · rw [if_neg hk] at hh2
        exact ⟨i2, hh2, rfl, rfl⟩
    · rw [if_neg hc] at hh2
      exact ⟨i2, hh2, rfl, rfl⟩

/-! ## Reduction lemmas for the gesture handlers -/

theorem onStart_mouse_eq (w : World) {id : Nat} {i : Inst} (x y : Int)
    (hI : lookupA id w.insts = some i) (hha : i.hasActive = true)
    (hand : i.platformAndroid = false) :
    onStart w id none x y =
      { insts := w.insts,
        storage := setA id { activeTimeout := w.nextHandle, timeout := none } w.storage,
        timers := w.timers ++
          [{ handle := w.nextHandle, delay := ACTIVE_DELAY, schedAt := w.now,
             cb := TimerCb.startCb id }],
        now := w.now, nextHandle := w.nextHandle + 1 } := by
  unfold onStart
  rw [hI]
  show (if i.hasActive = true then
      if (match (none : Option Nat) with | some n => decide (1 < n) | none => false) = true then
        deactivateOtherInstances w none
      else
        let w1 := if i.platformAndroid = true then onDown w id x y else w
        let p := setTimeoutW w1 (TimerCb.startCb id) ACTIVE_DELAY
        { p.1 with storage := setA id { activeTimeout := p.2, timeout := none } p.1.storage }
    else w) = _
  rw [if_pos hha, if_neg (by decide :
    ¬ ((match (none : Option Nat) with | some n => decide (1 < n) | none => false) = true))]
  rw [if_neg (by simp [hand] : ¬ (i.platformAndroid = true))]
  rfl

theorem onStart_mouse_insts (w : World) {id : Nat} {i : Inst} (x y : Int)
    (hI : lookupA id w.insts = some i) (hha : i.hasActive = true)
    (hand : i.platformAndroid = false) :
    (onStart w id none x y).insts = w.insts := by
  rw [onStart_mouse_eq w x y hI hha hand]

theorem onStart_mouse_storage (w : World) {id : Nat} {i : Inst} (x y : Int)
    (hI : lookupA id w.insts = some i) (hha : i.hasActive = true)
    (hand : i.platformAndroid = false) :
    (onStart w id none x y).storage =
      setA id { activeTimeout := w.nextHandle, timeout := none } w.storage := by
  rw [onStart_mouse_eq w x y hI hha hand]

theorem onStart_mouse_timers (w : World) {id : Nat} {i : Inst} (x y : Int)
    (hI : lookupA id w.insts = some i) (hha : i.hasActive = true)
    (hand : i.platformAndroid = false) :
    (onStart w id none x y).timers = w.timers ++
      [{ handle := w.nextHandle, delay := ACTIVE_DELAY, schedAt := w.now,
         cb := TimerCb.startCb id }] := by
  rw [onStart_mouse_eq w x y hI hha hand]

theorem onStart_mouse_now (w : World) {id : Nat} {i : Inst} (x y : Int)
    (hI : lookupA id w.insts = some i) (hha : i.hasActive = true)
    (hand : i.platformAndroid = false) :
    (onStart w id none x y).now = w.now := by
  rw [onStart_mouse_eq w x y hI hha hand]

theorem onStart_mouse_nextHandle (w : World) {id : Nat} {i : Inst} (x y : Int)
    (hI : lookupA id w.insts = some i) (hha : i.hasActive = true)
    (hand : i.platformAndroid = false) :
    (onStart w id none x y).nextHandle = w.nextHandle + 1 := by
  rw [onStart_mouse_eq w x y hI hha hand]

theorem onStart_multi_eq (w : World) {id n : Nat} {i : Inst} (x y : Int)
    (hI : lookupA id w.insts = some i) (hha : i.hasActive = true) (hn : 1 < n) :
    onStart w id (some n) x y = deactivateOtherInstances w none := by
  unfold onStart
  rw [hI]
  show (if i.hasActive = true then
      if (match (some n : Option Nat) with | some n => decide (1 < n) | none => false) = true then
        deactivateOtherInstances w none
      else
        let w1 := if i.platformAndroid = true then onDown w id x y else w
        let p := setTimeoutW w1 (TimerCb.startCb id) ACTIVE_DELAY
        { p.1 with storage := setA id { activeTimeout := p.2, timeout := none } p.1.storage }
    else w) = _
  rw [if_pos hha, if_pos (show (match (some n : Option Nat) with
    | some n => decide (1 < n) | none => false) = true by simp [hn])]

theorem onMove_slide_eq (w : World) {id : Nat} {i : Inst} (sx sy : Nat)
    (hI : lookupA id w.insts = some i) (hshift : 20 < sx ∨ 20 < sy) :
    onMove w id sx sy = stopI (updInst w id (fun j => { j with isSlide := true })) id := by
  unfold onMove
  rw [hI]
  show (if (20 < sx || 20 < sy) = true then
      stopI (updInst w id (fun j => { j with isSlide := true })) id
    else w) = _
  rw [if_pos (by rcases hshift with h | h <;> simp [h])]

/-! ## Claim theorems, part 1 -/

/-- Claim C9: for keydown on a non-natively-interactive Tappable, Enter
synthesizes a click for `role="link"`, Space does not; both Enter and Space
synthesize a click for `role="button"`; a caller-supplied handler is always
invoked, after the synthesized click; and the handler is only wired for
non-native, non-contentEditable components with role button or link. -/
theorem tappable_keydown_synthesis :
    ∀ hc : Bool,
      (KeyAction.click ∈ onKeyDownActions KbRole.link KbKey.enter hc) ∧
      (KeyAction.click ∉ onKeyDownActions KbRole.link KbKey.space hc) ∧
      (KeyAction.click ∈ onKeyDownActions KbRole.button KbKey.enter hc) ∧
      (KeyAction.click ∈ onKeyDownActions KbRole.button KbKey.space hc) ∧
      (∀ role key, KeyAction.callerHandler ∈ onKeyDownActions role key true) ∧
      (∀ role key, KeyAction.callerHandler ∉ onKeyDownActions role key false) ∧
      (∀ role key,
        onKeyDownActions role key hc = [] ∨
        onKeyDownActions role key hc = [KeyAction.click] ∨
        onKeyDownActions role key hc = [KeyAction.callerHandler] ∨
        onKeyDownActions role key hc = [KeyAction.click, KeyAction.callerHandler]) ∧
      (∀ c ∈ nativeComponents, ∀ ce : Bool,
        keyDownWired c ce "button" = false ∧ keyDownWired c ce "link" = false) ∧
      keyDownWired "div" false "link" = true ∧ keyDownWired "div" false "button" = true ∧
      keyDownWired "div" true "link" = false ∧ keyDownWired "div" false "main" = false := by
  decide

/-- Claim C3 (code bug): unmounting after two rapid gesture starts leaves
the first registration's activation timeout scheduled — `componentWillUnmount`
clears only the handles recorded in the current registry entry, so the claim
"zero timers remain after unmount" fails on this reachable state. -/
theorem tappable_unmount_leftover_timer :
    Reach dblW3 ∧ lookupA 1 dblW3.storage = none ∧ lookupA 1 dblW3.insts = none ∧
      dblW3.timers.map Timer.cb = [TimerCb.startCb 1] := by
  refine ⟨?_, by decide, by decide, by decide⟩
  exact Reach.unmount 1 (Reach.gestureStart 1 none 0 0
    (Reach.gestureStart 1 none 0 0 (Reach.init [tapCfg1] 0 (by decide))))

/-- Claim C1 counterexample: a reachable world in which two instances are
simultaneously active — instance 1 became active with no registry entry, so
instance 2's activation purge does not reach it. -/
theorem tappable_two_active_counterexample :
    ¬ (∀ w : World, Reach w → AtMostOneActive w) := by
  intro hall
  have hr : Reach mtW6 := Reach.fire 1 (by decide)
    (Reach.advance 70 (Reach.gestureStart 2 none 0 0
      (Reach.gestureEnd 1 (some 0) (Reach.gestureEnd 1 (some 1)
        (Reach.gestureStart 1 (some 2) 0 0 (Reach.init [tapCfg1, tapCfg2] 0 (by decide)))))))
  have h1 : activeOf mtW6 1 = true := by decide
  have h2 : activeOf mtW6 2 = true := by decide
  exact absurd (hall mtW6 hr 1 2 h1 h2) (by decide)

/-- Claim C2 counterexample: a reachable world in which instance 1 is active
but has no registry entry, so "an entry exists iff pending activation or
active" fails in the right-to-left direction. -/
theorem tappable_active_without_entry_counterexample :
    ¬ (∀ w : World, Reach w → EntryIffPendingOrActive w) := by
  intro hall
  have hr : Reach mtW3 := Reach.gestureEnd 1 (some 0) (Reach.gestureEnd 1 (some 1)
    (Reach.gestureStart 1 (some 2) 0 0 (Reach.init [tapCfg1, tapCfg2] 0 (by decide))))
  have hinst : lookupA 1 mtW3.insts =
      some { active := true, ts := some 0, timeoutF := some 0 } := by decide
  have hiff := hall mtW3 hr 1 _ hinst
  rcases hiff.2 (Or.inr (by decide)) with ⟨s, hs⟩
  have hnone : lookupA 1 mtW3.storage = none := by decide
  rw [hnone] at hs
  exact Option.noConfusion hs

theorem filter_setA_of_le {α : Type} (k : Nat) (v : α) (l : List (Nat × α))
    (h : (l.filter (fun p => decide (p.1 = k))).length ≤ 1) :
    ((setA k v l).filter (fun p => decide (p.1 = k))).length = 1 := by
  induction l with
  | nil => simp [setA]
  | cons p rest ih =>
    by_cases hp : p.1 = k
    · rw [List.filter_cons_of_pos (by simp [hp]), List.length_cons] at h
      have hr0 : (rest.filter (fun p => decide (p.1 = k))).length = 0 := by omega
      simp [setA, hp, List.filter_cons, hr0]
    · rw [List.filter_cons_of_neg (by simp [hp])] at h
      have := ih h
      simpa [setA, hp, List.filter_cons_of_neg (by simp [hp] :
        ¬ (decide (p.1 = k) = true))] using this

/-- Claim C6: a move event whose cumulative shift exceeds 20 on either axis
leaves the instance inactive and marked as sliding, and — provided the
gesture's only pending `start` timers are the one recorded in the registry
entry, as in a single registration — no activation timer for the instance
remains scheduled. -/
theorem tappable_move_threshold_cancels (w : World) (id sx sy : Nat) {i : Inst}
    (hI : lookupA id w.insts = some i)
    (hshift : 20 < sx ∨ 20 < sy)
    (hpend : ∀ t ∈ w.timers, t.cb = TimerCb.startCb id →
      ∃ s, lookupA id w.storage = some s ∧ t.handle = s.activeTimeout) :
    activeOf (onMove w id sx sy) id = false ∧
    isSlideOf (onMove w id sx sy) id = true ∧
    ∀ t ∈ (onMove w id sx sy).timers, t.cb ≠ TimerCb.startCb id := by
  rw [onMove_slide_eq w sx sy hI hshift]
  refine ⟨stopI_active_self _ id, ?_, ?_⟩
  · rw [isSlideOf, stopI_insts, if_pos rfl, updInst_insts, if_pos rfl, hI]
    simp [dstate_fields]
  · intro t ht hcb
    have hsw : lookupA id (updInst w id (fun j => { j with isSlide := true })).storage =
        lookupA id w.storage := rfl
    cases hs : lookupA id w.storage with
    | none =>
      rw [stopI_timers_noentry _ _ (hsw.trans hs), updInst_timers] at ht
      rcases hpend t ht hcb with ⟨s, hs2, _⟩
      rw [hs] at hs2
      exact Option.noConfusion hs2
    | some s =>
      rw [stopI_timers_entry _ _ (hsw.trans hs), updInst_timers] at ht
      rcases List.mem_filter.1 ht with ⟨htm, hne⟩
      rcases hpend t htm hcb with ⟨s2, hs2, hhandle⟩
      rw [hs] at hs2
      have hss : s2 = s := by injection hs2 with h2; exact h2.symm
      subst hss
      rw [hhandle] at hne
      simp at hne

/-- Claim C7 (amended): a gesture start with more than one contact point on
an activation-enabled instance purges every registry entry (no entry remains
for anyone, including the starting instance), deactivates every instance
that held an entry, and activates no instance at that event; however a later
full release of the same gesture can still activate the instance (see the
counterexample), so "no instance becomes active from that gesture" is
limited to the start event itself. -/
theorem tappable_multitouch_start_purges (w : World) (id n : Nat) (x y : Int) {i : Inst}
    (hI : lookupA id w.insts = some i) (hha : i.hasActive = true) (hn : 1 < n) :
    (∀ k, lookupA k (onStart w id (some n) x y).storage = none) ∧
    (∀ k, activeOf (onStart w id (some n) x y) k = true → activeOf w k = true) ∧
    (∀ k, lookupA k w.storage ≠ none → activeOf (onStart w id (some n) x y) k = false) := by
  rw [onStart_multi_eq w x y hI hha hn]
  refine ⟨?_, ?_, ?_⟩
  · intro k
    exact deact_storage_none w (by simp)
  · intro k h
    exact deact_active_le w none k h
  · intro k h
    exact deact_entried_inactive w h (by simp)

/-- Claim C7 counterexample: after a two-contact gesture start, releasing the
contacts one by one ends in the very-short-tap branch and activates the
instance — the gesture does make an instance active. -/
theorem tappable_multitouch_gesture_activates_counterexample :
    ¬ (∀ (w : World) (id n : Nat) (x y : Int), Reach w → hasActiveOf w id = true → 1 < n →
        ∀ evs : List ContEv,
          activeOf (applyCont id (onStart w id (some n) x y) evs) id = false) := by
  intro hall
  have hr : Reach mtW0 := Reach.init [tapCfg1, tapCfg2] 0 (by decide)
  have hres := hall mtW0 1 2 0 0 hr (by decide) (by decide)
    [ContEv.endEv (some 1), ContEv.endEv (some 0)]
  have hx : activeOf (applyCont 1 (onStart mtW0 1 (some 2) 0 0)
      [ContEv.endEv (some 1), ContEv.endEv (some 0)]) 1 = true := by decide
  rw [hx] at hres
  exact Bool.noConfusion hres

/-- Claim C8 (amended): a second gesture start on the same instance before
the first is released overwrites the registry entry in place — exactly one
entry remains and it records the new activation timeout — but the first
registration's activation timer is not cancelled and remains scheduled. -/
theorem tappable_rapid_restart_registration (w : World) (id : Nat) (x y x2 y2 : Int)
    {i : Inst} (hI : lookupA id w.insts = some i) (hha : i.hasActive = true)
    (hand : i.platformAndroid = false)
    (hcount : (w.storage.filter (fun p => decide (p.1 = id))).length ≤ 1) :
    ((onStart (onStart w id none x y) id none x2 y2).storage.filter
        (fun p => decide (p.1 = id))).length = 1 ∧
    lookupA id (onStart (onStart w id none x y) id none x2 y2).storage =
      some { activeTimeout := w.nextHandle + 1, timeout := none } ∧
    ∃ t ∈ (onStart (onStart w id none x y) id none x2 y2).timers,
      t.handle = w.nextHandle ∧ t.cb = TimerCb.startCb id := by
  have hI1 : lookupA id (onStart w id none x y).insts = some i := by
    rw [onStart_mouse_insts w x y hI hha hand]; exact hI
  have hsto1 := onStart_mouse_storage w x y hI hha hand
  have hsto2 := onStart_mouse_storage (onStart w id none x y) x2 y2 hI1 hha hand
  have htim1 := onStart_mouse_timers w x y hI hha hand
  have htim2 := onStart_mouse_timers (onStart w id none x y) x2 y2 hI1 hha hand
  have hnh1 := onStart_mouse_nextHandle w x y hI hha hand
  have hnow1 := onStart_mouse_now w x y hI hha hand
  refine ⟨?_, ?_, ?_⟩
  · rw [hsto2, hsto1]
    exact filter_setA_of_le id _ _ (le_of_eq (filter_setA_of_le id _ _ hcount))
  · rw [hsto2, hnh1]
    exact lookupA_setA_self id _ _
  · have hmem : ({ handle := w.nextHandle, delay := ACTIVE_DELAY, schedAt := w.now,
                   cb := TimerCb.startCb id } : Timer) ∈
        (onStart (onStart w id none x y) id none x2 y2).timers := by
      rw [htim2, htim1]
      simp
    exact ⟨_, hmem, rfl, rfl⟩

/-- Claim C8 counterexample: after two rapid gesture starts the first
registration's activation timer (handle 0) is still scheduled even though
the registry entry records only the second one (handle 1). -/
theorem tappable_rapid_restart_leaked_timer_counterexample :
    ¬ (∀ (w : World) (id : Nat) (x y x2 y2 : Int), Reach w → hasActiveOf w id = true →
        ∀ s, lookupA id (onStart (onStart w id none x y) id none x2 y2).storage = some s →
        ∀ t ∈ (onStart (onStart w id none x y) id none x2 y2).timers,
          t.cb = TimerCb.startCb id → t.handle = s.activeTimeout) := by
  intro hall
  have hr : Reach dblW0 := Reach.init [tapCfg1] 0 (by decide)
  have hres := hall dblW0 1 0 0 0 0 hr (by decide) { activeTimeout := 1, timeout := none }
    (by decide)
    { handle := 0, delay := ACTIVE_DELAY, schedAt := 0, cb := TimerCb.startCb 1 }
    (by decide) (by decide)
  exact absurd hres (by decide)

/-- Claim C10: `stop` on an instance with a registry entry cancels exactly
the entry's activation timeout and deletes the entry, never the entry's
release timeout — any other timer, in particular a scheduled release timer,
survives; and when a release (`stop`) timer later fires with the instance
inactive and no entry present, it changes no observable state beyond its own
removal from the queue. -/
theorem tappable_stop_preserves_release_timer (w : World) (id : Nat) :
    (∀ s, lookupA id w.storage = some s →
      lookupA id (stopI w id).storage = none ∧
      (∀ t ∈ w.timers, t.handle ≠ s.activeTimeout → t ∈ (stopI w id).timers) ∧
      (∀ t ∈ (stopI w id).timers, t ∈ w.timers ∧ t.handle ≠ s.activeTimeout) ∧
      (∀ h t, s.timeout = some h → t ∈ w.timers → t.handle = h →
        h ≠ s.activeTimeout → t ∈ (stopI w id).timers)) ∧
    (∀ h t, w.timers.find? (fun u => decide (u.handle = h)) = some t →
      t.cb = TimerCb.stopCb id → activeOf w id = false → lookupA id w.storage = none →
      (∀ k, lookupA k (fireTimer w h).insts = lookupA k w.insts) ∧
      (∀ k, lookupA k (fireTimer w h).storage = lookupA k w.storage) ∧
      (fireTimer w h).timers = w.timers.filter (fun u => decide (u.handle ≠ h))) := by
  constructor
  · intro s hs
    refine ⟨stopI_storage_self w id, ?_, ?_, ?_⟩
    · intro t ht hne
      rw [stopI_timers_entry w id hs]
      exact List.mem_filter.2 ⟨ht, by simpa using hne⟩
    · intro t ht
      rw [stopI_timers_entry w id hs] at ht
      rcases List.mem_filter.1 ht with ⟨h1, h2⟩
      exact ⟨h1, by simpa using h2⟩
    · intro h t _ ht hth hne
      rw [stopI_timers_entry w id hs]
      exact List.mem_filter.2 ⟨ht, by simpa [hth] using hne⟩
  · intro h t hfind hcb hact hs
    have hred : fireTimer w h =
        stopI { w with timers := w.timers.filter (fun u => decide (u.handle ≠ h)) } id := by
      unfold fireTimer
      rw [hfind]
      show runCb { w with timers := w.timers.filter (fun u => decide (u.handle ≠ h)) } t.cb = _
      rw [hcb]
      rfl
    rw [hred]
    set w2 : World := { w with timers := w.timers.filter (fun u => decide (u.handle ≠ h)) }
      with hw2
    have hs2 : lookupA id w2.storage = none := hs
    refine ⟨?_, ?_, ?_⟩
    · intro k
      rw [stopI_insts]
      by_cases hk : k = id
      · subst hk
        rw [if_pos rfl]
        show Option.map dstate (lookupA k w.insts) = lookupA k w.insts
        cases hIk : lookupA k w.insts with
        | none => rfl
        | some ik =>
          have : ik.active = false := by
            rw [activeOf, hIk] at hact
            exact hact
          simp [dstate, this]
      · rw [if_neg hk]
    · intro k
      by_cases hk : k = id
      · subst hk
        rw [stopI_storage_self, hs]
      · rw [stopI_storage_ne _ hk]
    · exact stopI_timers_noentry _ _ hs2

/-! ## Reduction lemmas for `onEnd` -/

theorem onEnd_some_zero (w : World) (id : Nat) : onEnd w id (some 0) = onEnd w id none := by
  unfold onEnd
  rfl

theorem activeOf_updInst (w : World) (id k : Nat) (f : Inst → Inst)
    (hf : ∀ j, (f j).active = j.active) : activeOf (updInst w id f) k = activeOf w k := by
  unfold activeOf
  rw [updInst_insts]
  by_cases hk : k = id
  · rw [if_pos hk]
    cases lookupA k w.insts with
    | none => rfl
    | some j => simp [hf j]
  · rw [if_neg hk]

theorem tsOf_updInst (w : World) (id k : Nat) (f : Inst → Inst)
    (hf : ∀ j, (f j).ts = j.ts) : tsOf (updInst w id f) k = tsOf w k := by
  unfold tsOf
  rw [updInst_insts]
  by_cases hk : k = id
  · rw [if_pos hk]
    cases lookupA k w.insts with
    | none => rfl
    | some j => simp [hf j]
  · rw [if_neg hk]

theorem onEnd_active_long_eq (w : World) {id : Nat} {i : Inst}
    (hI : lookupA id w.insts = some i) (hact : i.active = true)
    (hge : 100 ≤ w.now - i.ts.getD 0) :
    onEnd w id none = updInst (stopI w id) id (fun j => { j with isSlide := false }) := by
  unfold onEnd
  rw [hI]
  show (if (match (none : Option Nat) with | some n => decide (0 < n) | none => false) = true then
      stopI (updInst w id (fun j => { j with isSlide := false })) id
    else
      let w1 :=
        if i.active = true then
          if 100 ≤ w.now - i.ts.getD 0 then
            stopI w id
          else
            let p := setTimeoutW w (TimerCb.stopCb id)
              ((i.activeEffectDelay : Int) - (w.now : Int) + (i.ts.getD 0 : Int))
            match lookupA id p.1.storage with
            | some s => { p.1 with storage := setA id { s with timeout := some p.2 } p.1.storage }
            | none => p.1
        else if (!i.isSlide) = true then
          let w2 := startI w id
          let p := setTimeoutW w2 (TimerCb.stopCb id) (i.activeEffectDelay : Int)
          match lookupA id p.1.storage with
          | some s =>
              let w4 := clearTimeoutW p.1 s.activeTimeout
              { w4 with storage := setA id { s with timeout := some p.2 } w4.storage }
          | none => updInst p.1 id (fun j => { j with timeoutF := some p.2 })
        else w
      updInst w1 id (fun j => { j with isSlide := false })) = _
  rw [if_neg (by decide :
    ¬ ((match (none : Option Nat) with | some n => decide (0 < n) | none => false) = true))]
  rw [if_pos hact, if_pos hge]

theorem onEnd_active_short_eq (w : World) {id : Nat} {i : Inst}
    (hI : lookupA id w.insts = some i) (hact : i.active = true)
    (hlt : ¬ 100 ≤ w.now - i.ts.getD 0) :
    onEnd w id none = updInst
      (match lookupA id w.storage with
       | some s =>
           { (setTimeoutW w (TimerCb.stopCb id)
               ((i.activeEffectDelay : Int) - (w.now : Int) + (i.ts.getD 0 : Int))).1 with
             storage := setA id { s with timeout := some w.nextHandle } w.storage }
       | none => (setTimeoutW w (TimerCb.stopCb id)
           ((i.activeEffectDelay : Int) - (w.now : Int) + (i.ts.getD 0 : Int))).1)
      id (fun j => { j with isSlide := false }) := by
  unfold onEnd
  rw [hI]
  show (if (match (none : Option Nat) with | some n => decide (0 < n) | none => false) = true then
      stopI (updInst w id (fun j => { j with isSlide := false })) id
    else
      let w1 :=
        if i.active = true then
          if 100 ≤ w.now - i.ts.getD 0 then
            stopI w id
          else
            let p := setTimeoutW w (TimerCb.stopCb id)
              ((i.activeEffectDelay : Int) - (w.now : Int) + (i.ts.getD 0 : Int))
            match lookupA id p.1.storage with
            | some s => { p.1 with storage := setA id { s with timeout := some p.2 } p.1.storage }
            | none => p.1
        else if (!i.isSlide) = true then
          let w2 := startI w id
          let p := setTimeoutW w2 (TimerCb.stopCb id) (i.activeEffectDelay : Int)
          match lookupA id p.1.storage with
          | some s =>
              let w4 := clearTimeoutW p.1 s.activeTimeout
              { w4 with storage := setA id { s with timeout := some p.2 } w4.storage }
          | none => updInst p.1 id (fun j => { j with timeoutF := some p.2 })
        else w
      updInst w1 id (fun j => { j with isSlide := false })) = _
  rw [if_neg (by decide :
    ¬ ((match (none : Option Nat) with | some n => decide (0 < n) | none => false) = true))]
  rw [if_pos hact, if_neg hlt]
  rfl

theorem onEnd_veryShort_eq (w : World) {id : Nat} {i : Inst}
    (hI : lookupA id w.insts = some i) (hnact : i.active = false)
    (hns : i.isSlide = false) :
    onEnd w id none = updInst
      (match lookupA id (startI w id).storage with
       | some s =>
           { clearTimeoutW (setTimeoutW (startI w id) (TimerCb.stopCb id)
               (i.activeEffectDelay : Int)).1 s.activeTimeout with
             storage := setA id { s with timeout := some (startI w id).nextHandle }
               (clearTimeoutW (setTimeoutW (startI w id) (TimerCb.stopCb id)
                 (i.activeEffectDelay : Int)).1 s.activeTimeout).storage }
       | none => updInst (setTimeoutW (startI w id) (TimerCb.stopCb id)
           (i.activeEffectDelay : Int)).1 id
           (fun j => { j with timeoutF := some (startI w id).nextHandle }))
      id (fun j => { j with isSlide := false }) := by
  unfold onEnd
  rw [hI]
  show (if (match (none : Option Nat) with | some n => decide (0 < n) | none => false) = true then
      stopI (updInst w id (fun j => { j with isSlide := false })) id
    else
      let w1 :=
        if i.active = true then
          if 100 ≤ w.now - i.ts.getD 0 then
            stopI w id
          else
            let p := setTimeoutW w (TimerCb.stopCb id)
              ((i.activeEffectDelay : Int) - (w.now : Int) + (i.ts.getD 0 : Int))
            match lookupA id p.1.storage with
            | some s => { p.1 with storage := setA id { s with timeout := some p.2 } p.1.storage }
            | none => p.1
        else if (!i.isSlide) = true then
          let w2 := startI w id
          let p := setTimeoutW w2 (TimerCb.stopCb id) (i.activeEffectDelay : Int)
          match lookupA id p.1.storage with
          | some s =>
              let w4 := clearTimeoutW p.1 s.activeTimeout
              { w4 with storage := setA id { s with timeout := some p.2 } w4.storage }
          | none => updInst p.1 id (fun j => { j with timeoutF := some p.2 })
        else w
      updInst w1 id (fun j => { j with isSlide := false })) = _
  rw [if_neg (by decide :
    ¬ ((match (none : Option Nat) with | some n => decide (0 < n) | none => false) = true))]
  rw [if_neg (by simp [hnact]), if_pos (by simp [hns] : (!i.isSlide) = true)]
  rfl

theorem onEnd_active_short_timers (w : World) {id : Nat} {i : Inst}
    (hI : lookupA id w.insts = some i) (hact : i.active = true)
    (hlt : ¬ 100 ≤ w.now - i.ts.getD 0) :
    (onEnd w id none).timers = w.timers ++
      [{ handle := w.nextHandle,
         delay := (i.activeEffectDelay : Int) - (w.now : Int) + (i.ts.getD 0 : Int),
         schedAt := w.now, cb := TimerCb.stopCb id }] := by
  rw [onEnd_active_short_eq w hI hact hlt, updInst_timers]
  cases hsn : lookupA id w.storage with
  | some s => rfl
  | none => rfl

theorem onEnd_active_short_active (w : World) {id : Nat} {i : Inst} (k : Nat)
    (hI : lookupA id w.insts = some i) (hact : i.active = true)
    (hlt : ¬ 100 ≤ w.now - i.ts.getD 0) :
    activeOf (onEnd w id none) k = activeOf w k := by
  rw [onEnd_active_short_eq w hI hact hlt,
    activeOf_updInst _ _ _ (fun j => { j with isSlide := false }) (fun j => rfl)]
  cases hsn : lookupA id w.storage with
  | some s => rfl
  | none => rfl

/-- Claim C4: releasing an active instance with no remaining contacts
deactivates it immediately when at least 100 ms have elapsed since
activation, and otherwise leaves it active and schedules its deactivation
after exactly `activeEffectDelay` minus the elapsed time, so that the stop
fires at activation time plus the configured effect delay. -/
theorem tappable_release_active_timing (w : World) (id : Nat) (tc : Option Nat) {i : Inst}
    (t0 : Nat) (hI : lookupA id w.insts = some i) (hact : i.active = true)
    (hts : i.ts = some t0) (hle : t0 ≤ w.now) (htc : tc = none ∨ tc = some 0) :
    (100 ≤ w.now - t0 →
      activeOf (onEnd w id tc) id = false ∧ lookupA id (onEnd w id tc).storage = none) ∧
    (w.now - t0 < 100 →
      activeOf (onEnd w id tc) id = true ∧
      ∃ t ∈ (onEnd w id tc).timers, t.cb = TimerCb.stopCb id ∧ t.schedAt = w.now ∧
        t.delay = (i.activeEffectDelay : Int) - ((w.now - t0 : Nat) : Int) ∧
        (t.schedAt : Int) + t.delay = (t0 : Int) + (i.activeEffectDelay : Int)) := by
  have hts0 : i.ts.getD 0 = t0 := by rw [hts]; rfl
  have hcase : onEnd w id tc = onEnd w id none := by
    rcases htc with h | h <;> subst h
    · rfl
    · exact onEnd_some_zero w id
  rw [hcase]
  constructor
  · intro hge
    rw [onEnd_active_long_eq w hI hact (by rw [hts0]; exact hge)]
    constructor
    · rw [activeOf_updInst _ _ _ (fun j => { j with isSlide := false }) (fun j => rfl)]
      exact stopI_active_self w id
    · rw [updInst_storage]
      exact stopI_storage_self w id
  · intro hlt
    have hlt' : ¬ 100 ≤ w.now - i.ts.getD 0 := by rw [hts0]; omega
    refine ⟨?_, ?_⟩
    · rw [onEnd_active_short_active w id hI hact hlt']
      rw [activeOf, hI]
      exact hact
    · rw [onEnd_active_short_timers w hI hact hlt']
      refine ⟨{ handle := w.nextHandle,
                delay := (i.activeEffectDelay : Int) - (w.now : Int) + (i.ts.getD 0 : Int),
                schedAt := w.now, cb := TimerCb.stopCb id }, by simp, rfl, rfl, ?_, ?_⟩
      · show (i.activeEffectDelay : Int) - (w.now : Int) + (i.ts.getD 0 : Int) =
          (i.activeEffectDelay : Int) - ((w.now - t0 : Nat) : Int)
        rw [hts0]
        omega
      · show (w.now : Int) + ((i.activeEffectDelay : Int) - (w.now : Int) + (i.ts.getD 0 : Int)) =
          (t0 : Int) + (i.activeEffectDelay : Int)
        rw [hts0]
        omega

/-- Claim C5: a release with no remaining contacts before the activation
timeout has fired (instance inactive, not dragging, activation enabled,
entry and its pending `start` timer present) activates the instance
immediately at the release instant, cancels the pending activation timer,
and schedules deactivation after exactly the configured
`activeEffectDelay`. -/
theorem tappable_release_before_activation (w : World) (id : Nat) (tc : Option Nat)
    {i : Inst} {s : StorageItem} (tstar : Timer)
    (hI : lookupA id w.insts = some i) (hnact : i.active = false) (hns : i.isSlide = false)
    (hha : i.hasActive = true)
    (hs : lookupA id w.storage = some s) (hfresh : s.activeTimeout < w.nextHandle)
    (htmem : tstar ∈ w.timers) (hth : tstar.handle = s.activeTimeout)
    (htc : tc = none ∨ tc = some 0) :
    activeOf (onEnd w id tc) id = true ∧ tsOf (onEnd w id tc) id = some w.now ∧
    tstar ∉ (onEnd w id tc).timers ∧
    ∃ t ∈ (onEnd w id tc).timers, t.cb = TimerCb.stopCb id ∧
      t.delay = (i.activeEffectDelay : Int) ∧ t.schedAt = w.now := by
  have hcase : onEnd w id tc = onEnd w id none := by
    rcases htc with h | h <;> subst h
    · rfl
    · exact onEnd_some_zero w id
  rw [hcase]
  have hs2 : lookupA id (startI w id).storage = some s := (startI_storage_self w id).trans hs
  have hred : onEnd w id none = updInst
      { clearTimeoutW (setTimeoutW (startI w id) (TimerCb.stopCb id)
          (i.activeEffectDelay : Int)).1 s.activeTimeout with
        storage := setA id { s with timeout := some (startI w id).nextHandle }
          (clearTimeoutW (setTimeoutW (startI w id) (TimerCb.stopCb id)
            (i.activeEffectDelay : Int)).1 s.activeTimeout).storage }
      id (fun j => { j with isSlide := false }) := by
    rw [onEnd_veryShort_eq w hI hnact hns, hs2]
  rw [hred]
  have hnh : (startI w id).nextHandle = w.nextHandle := startI_nextHandle w id
  have hnow : (startI w id).now = w.now := startI_now w id
  refine ⟨?_, ?_, ?_, ?_⟩
  · rw [activeOf_updInst _ _ _ (fun j => { j with isSlide := false }) (fun j => rfl)]
    exact startI_active_self w hI hha
  · rw [tsOf_updInst _ _ _ (fun j => { j with isSlide := false }) (fun j => rfl)]
    exact startI_ts_self w hI hha hnact
  · intro hmem
    rw [updInst_timers] at hmem
    have hmem2 : tstar ∈ (clearTimeoutW (setTimeoutW (startI w id) (TimerCb.stopCb id)
        (i.activeEffectDelay : Int)).1 s.activeTimeout).timers := hmem
    rcases mem_clearTimeoutW.1 hmem2 with ⟨_, hne⟩
    exact hne hth
  · refine ⟨{ handle := (startI w id).nextHandle, delay := (i.activeEffectDelay : Int),
              schedAt := (startI w id).now, cb := TimerCb.stopCb id }, ?_, rfl, rfl, ?_⟩
    · rw [updInst_timers]
      refine mem_clearTimeoutW.2 ⟨?_, ?_⟩
      · rw [setTimeoutW_timers]
        simp
      · show (startI w id).nextHandle ≠ s.activeTimeout
        rw [hnh]
        omega
    · show (startI w id).now = w.now
      exact hnow

/-! ## Support lemmas for the invariant -/

theorem pendingStartB_iff {w : World} {id : Nat} {s : StorageItem} :
    pendingStartB w id s = true ↔
      ∃ t ∈ w.timers, t.handle = s.activeTimeout ∧ t.cb = TimerCb.startCb id := by
  simp [pendingStartB, List.any_eq_true]

theorem stopI_timers_sublist (w : World) (id : Nat) :
    (stopI w id).timers.Sublist w.timers := by
  cases hs : lookupA id w.storage with
  | none => rw [stopI_timers_noentry w id hs]
  | some s =>
    rw [stopI_timers_entry w id hs]
    exact List.filter_sublist _

theorem purgeOne_timers_sublist (w : World) (a : Nat) :
    (purgeOne w a).timers.Sublist w.timers := by
  cases hs : lookupA a w.storage with
  | none => rw [purgeOne_noentry w a hs]
  | some s =>
    have h1 : ∀ t ∈ (purgeOne w a).timers, t ∈ w.timers := fun t ht =>
      purgeOne_timers_sub w a ht
    -- rebuild as a filter chain for sublist
    unfold purgeOne
    rw [hs]
    simp only []
    have hst : lookupA a (clearTimeoutO (clearTimeoutW w s.activeTimeout) s.timeout).storage =
        some s := by rw [purgeOne_storage_clearTwo w a s]; exact hs
    rw [stopI_timers_entry _ _ hst]
    refine List.Sublist.trans (List.filter_sublist _) ?_
    show (clearTimeoutO (clearTimeoutW w s.activeTimeout) s.timeout).timers.Sublist w.timers
    cases s.timeout with
    | none =>
      show (clearTimeoutW w s.activeTimeout).timers.Sublist w.timers
      exact List.filter_sublist _
    | some h2 =>
      exact List.Sublist.trans (List.filter_sublist _) (List.filter_sublist _)

theorem foldl_purgeOne_timers_sublist : ∀ (l : List Nat) (w : World),
    (List.foldl purgeOne w l).timers.Sublist w.timers := by
  intro l
  induction l with
  | nil => intro w; exact List.Sublist.refl _
  | cons a rest ih =>
    intro w
    exact List.Sublist.trans (ih (purgeOne w a)) (purgeOne_timers_sublist w a)

theorem deact_timers_sublist (w : World) (ex : Option Nat) :
    (deactivateOtherInstances w ex).timers.Sublist w.timers :=
  foldl_purgeOne_timers_sublist _ _

theorem startI_timers_sublist (w : World) (id : Nat) :
    (startI w id).timers.Sublist w.timers := by
  have key : ∀ w1 : World, w1.timers = w.timers →
      (deactivateOtherInstances w1 (some id)).timers.Sublist w.timers := by
    intro w1 he
    have := deact_timers_sublist w1 (some id)
    rwa [he] at this
  unfold startI
  cases hI : lookupA id w.insts with
  | none => exact key _ rfl
  | some i => exact key _ (by split <;> first | rfl | (split <;> rfl))

theorem purgeOne_hasActiveOf (w : World) (a k : Nat) :
    hasActiveOf (purgeOne w a) k = hasActiveOf w k := by
  by_cases hk : k = a
  · subst hk
    cases hs : lookupA k w.storage with
    | none => rw [purgeOne_noentry w k hs]
    | some s =>
      unfold hasActiveOf
      rw [purgeOne_insts_self w k hs]
      cases lookupA k w.insts with
      | none => rfl
      | some i => simp [(dstate_fields i).1]
  · unfold hasActiveOf
    rw [purgeOne_insts_ne w hk]

theorem foldl_purgeOne_hasActiveOf : ∀ (l : List Nat) (w : World) (k : Nat),
    hasActiveOf (List.foldl purgeOne w l) k = hasActiveOf w k := by
  intro l
  induction l with
  | nil => intro w k; rfl
  | cons a rest ih =>
    intro w k
    rw [List.foldl_cons, ih, purgeOne_hasActiveOf]

theorem deact_hasActiveOf (w : World) (ex : Option Nat) (k : Nat) :
    hasActiveOf (deactivateOtherInstances w ex) k = hasActiveOf w k :=
  foldl_purgeOne_hasActiveOf _ _ _

theorem hasActiveOf_updInst (w : World) (id k : Nat) (f : Inst → Inst)
    (hf : ∀ j, (f j).hasActive = j.hasActive) :
    hasActiveOf (updInst w id f) k = hasActiveOf w k := by
  unfold hasActiveOf
  rw [updInst_insts]
  by_cases hk : k = id
  · rw [if_pos hk]
    cases lookupA k w.insts with
    | none => rfl
    | some j => simp [hf j]
  · rw [if_neg hk]

theorem startI_hasActiveOf (w : World) (id k : Nat) :
    hasActiveOf (startI w id) k = hasActiveOf w k := by
  have key : ∀ w1 : World, (∀ k2, hasActiveOf w1 k2 = hasActiveOf w k2) →
      hasActiveOf (deactivateOtherInstances w1 (some id)) k = hasActiveOf w k := by
    intro w1 he
    rw [deact_hasActiveOf, he]
  unfold startI
  cases hI : lookupA id w.insts with
  | none => exact key _ (fun k2 => rfl)
  | some i =>
    refine key _ (fun k2 => ?_)
    simp only []
    by_cases hc : (!i.active && i.hasActive) = true
    · rw [if_pos hc]
      exact hasActiveOf_updInst w id k2
        (fun j => { j with active := true, ts := some w.now }) (fun j => rfl)
    · rw [if_neg hc]

theorem stopI_hasActiveOf (w : World) (id k : Nat) :
    hasActiveOf (stopI w id) k = hasActiveOf w k := by
  unfold hasActiveOf
  rw [stopI_insts]
  by_cases hk : k = id
  · rw [if_pos hk]
    cases lookupA k w.insts with
    | none => rfl
    | some i => simp [(dstate_fields i).1]
  · rw [if_neg hk]

theorem stopI_inst_transfer (w : World) (id k : Nat) {i' : Inst}
    (h : lookupA k (stopI w id).insts = some i') :
    ∃ i, lookupA k w.insts = some i ∧ i'.hasActive = i.hasActive ∧
      i'.wavesTimeout = i.wavesTimeout := by
  rw [stopI_insts] at h
  by_cases hk : k = id
  · rw [if_pos hk] at h
    cases hI : lookupA k w.insts with
    | none => rw [hI] at h; exact absurd h (by simp)
    | some i =>
      rw [hI] at h
      have : i' = dstate i := by simpa using h.symm
      subst this
      exact ⟨i, rfl, (dstate_fields i).1, (dstate_fields i).2.2.1⟩
  · rw [if_neg hk] at h
    exact ⟨i', h, rfl, rfl⟩

theorem Wf.of_mono {w' w : World} (h : Wf w)
    (hsto : ∀ id s, lookupA id w'.storage = some s → lookupA id w.storage = some s)
    (hsub : w'.timers.Sublist w.timers)
    (hnh : w'.nextHandle = w.nextHandle)
    (hinst : ∀ id i', lookupA id w'.insts = some i' →
      ∃ i, lookupA id w.insts = some i ∧ i'.hasActive = i.hasActive ∧
        i'.wavesTimeout = i.wavesTimeout)
    (hHA : ∀ id s, lookupA id w'.storage = some s →
      hasActiveOf w' id = hasActiveOf w id) : Wf w' := by
  refine ⟨?_, ?_, ?_, ?_, ?_, ?_, ?_, ?_⟩
  · exact h.tdist.sublist hsub
  · intro t ht
    rw [hnh]
    exact h.tfresh t (hsub.mem ht)
  · intro id s hs
    rw [hnh]
    exact h.sfresh id s (hsto id s hs)
  · intro id i' hi hh hw
    rcases hinst id i' hi with ⟨i, hIi, _, hwv⟩
    rw [hnh]
    exact h.wfresh id i hIi hh (by rw [← hwv]; exact hw)
  · intro id s hs t ht hth
    exact h.cohA id s (hsto id s hs) t (hsub.mem ht) hth
  · intro id s hs t ht hth
    exact h.cohR id s (hsto id s hs) t (hsub.mem ht) hth
  · intro id i' hi t ht hth
    rcases hinst id i' hi with ⟨i, hIi, _, hwv⟩
    exact h.cohW id i hIi t (hsub.mem ht) (by rw [← hwv]; exact hth)
  · intro id s hs
    rw [hHA id s hs]
    exact h.entried id s (hsto id s hs)

theorem tdist_unique {l : List Timer} (hd : l.Pairwise (fun a b => a.handle ≠ b.handle)) :
    ∀ {t u : Timer}, t ∈ l → u ∈ l → t.handle = u.handle → t = u := by
  induction l with
  | nil => intro t u ht; exact absurd ht (List.not_mem_nil t)
  | cons a rest ih =>
    intro t u ht hu hh
    rcases List.pairwise_cons.1 hd with ⟨ha, hrest⟩
    rcases List.mem_cons.1 ht with h1 | h1 <;> rcases List.mem_cons.1 hu with h2 | h2
    · rw [h1, h2]
    · subst h1; exact absurd hh (ha u h2)
    · subst h2; exact absurd hh.symm (ha t h1)
    · exact ih hrest h1 h2 hh

theorem settledActiveB_eq_true_iff {w : World} {k : Nat} :
    settledActiveB w k = true ↔
      activeOf w k = true ∧ ∃ s, lookupA k w.storage = some s ∧
        pendingStartB w k s = false := by
  unfold settledActiveB
  rw [Bool.and_eq_true]
  constructor
  · rintro ⟨ha, hm⟩
    refine ⟨ha, ?_⟩
    cases hs : lookupA k w.storage with
    | none => rw [hs] at hm; exact absurd hm (by simp)
    | some s =>
      rw [hs] at hm
      exact ⟨s, rfl, by simpa using hm⟩
  · rintro ⟨ha, s, hs, hp⟩
    exact ⟨ha, by rw [hs]; simpa using hp⟩

theorem pendingStartB_eq_false_iff {w : World} {id : Nat} {s : StorageItem} :
    pendingStartB w id s = false ↔
      ∀ t ∈ w.timers, t.handle = s.activeTimeout → t.cb ≠ TimerCb.startCb id := by
  rw [← Bool.not_eq_true, pendingStartB_iff]
  constructor
  · intro h t ht hth hcb
    exact h ⟨t, ht, hth, hcb⟩
  · rintro h ⟨t, ht, hth, hcb⟩
    exact h t ht hth hcb

/-! ## Preservation of the invariant by the primitive world operations -/

theorem wf_updInst (w : World) (id : Nat) (f : Inst → Inst)
    (hfa : ∀ j, (f j).hasActive = j.hasActive)
    (hfw : ∀ j, (f j).wavesTimeout = j.wavesTimeout)
    (h : Wf w) : Wf (updInst w id f) := by
  refine Wf.of_mono h (fun id2 s2 hs2 => hs2) (List.Sublist.refl _) rfl ?_ ?_
  · intro id2 i' hi
    rw [updInst_insts] at hi
    by_cases hk : id2 = id
    · rw [if_pos hk] at hi
      cases hI : lookupA id2 w.insts with
      | none => rw [hI] at hi; exact absurd hi (by simp)
      | some j =>
        rw [hI] at hi
        have : i' = f j := by simpa using hi.symm
        subst this
        exact ⟨j, rfl, hfa j, hfw j⟩
    · rw [if_neg hk] at hi
      exact ⟨i', hi, rfl, rfl⟩
  · intro id2 s2 _
    exact hasActiveOf_updInst w id id2 f hfa

theorem poa_updInst (w : World) (id : Nat) (f : Inst → Inst)
    (hfa : ∀ j, (f j).active = j.active)
    (hp : EntriesPendingOrActive w) : EntriesPendingOrActive (updInst w id f) := by
  intro id2 s2 hs2
  rcases hp id2 s2 hs2 with hpend | hact
  · exact Or.inl hpend
  · right
    rw [activeOf_updInst w id id2 f hfa]
    exact hact

theorem su_updInst (w : World) (id : Nat) (f : Inst → Inst)
    (hfa : ∀ j, (f j).active = j.active)
    (h : SettledUnique w) : SettledUnique (updInst w id f) := by
  have key : ∀ k, settledActiveB (updInst w id f) k = settledActiveB w k := by
    intro k
    unfold settledActiveB
    rw [activeOf_updInst w id k f hfa]
    rfl
  intro a b ha hb
  rw [key] at ha hb
  exact h a b ha hb

theorem wf_setTimeoutW (w : World) (cb : TimerCb) (d : Int)
    (h : Wf w) : Wf (setTimeoutW w cb d).1 := by
  refine ⟨?_, ?_, ?_, ?_, ?_, ?_, ?_, ?_⟩
  · unfold TimersDistinct
    rw [setTimeoutW_timers]
    refine List.pairwise_append.2 ⟨h.tdist, by simp, ?_⟩
    intro a ha b hb
    rw [List.mem_singleton.1 hb]
    exact Nat.ne_of_lt (h.tfresh a ha)
  · intro t ht
    rw [setTimeoutW_timers] at ht
    rw [setTimeoutW_nextHandle]
    rcases List.mem_append.1 ht with h1 | h1
    · exact Nat.lt_succ_of_lt (h.tfresh t h1)
    · rw [List.mem_singleton.1 h1]
      exact Nat.lt_succ_self _
  · intro id s hs
    rw [setTimeoutW_nextHandle]
    have hs' : lookupA id w.storage = some s := hs
    rcases h.sfresh id s hs' with ⟨h1, h2⟩
    exact ⟨Nat.lt_succ_of_lt h1, fun hh hhh => Nat.lt_succ_of_lt (h2 hh hhh)⟩
  · intro id i hi hh hw
    rw [setTimeoutW_nextHandle]
    exact Nat.lt_succ_of_lt (h.wfresh id i hi hh hw)
  · intro id s hs t ht hth
    have hs' : lookupA id w.storage = some s := hs
    rw [setTimeoutW_timers] at ht
    rcases List.mem_append.1 ht with h1 | h1
    · exact h.cohA id s hs' t h1 hth
    · rw [List.mem_singleton.1 h1] at hth ⊢
      exact absurd hth (Nat.ne_of_gt (h.sfresh id s hs').1)
  · intro id s hs t ht hth
    have hs' : lookupA id w.storage = some s := hs
    rw [setTimeoutW_timers] at ht
    rcases List.mem_append.1 ht with h1 | h1
    · exact h.cohR id s hs' t h1 hth
    · rw [List.mem_singleton.1 h1] at hth ⊢
      have := (h.sfresh id s hs').2 w.nextHandle (by rw [hth])
      exact absurd rfl (Nat.ne_of_lt this)
  · intro id i hi t ht hth
    have hi' : lookupA id w.insts = some i := hi
    rw [setTimeoutW_timers] at ht
    rcases List.mem_append.1 ht with h1 | h1
    · exact h.cohW id i hi' t h1 hth
    · rw [List.mem_singleton.1 h1] at hth ⊢
      have := h.wfresh id i hi' w.nextHandle (by rw [hth])
      exact absurd rfl (Nat.ne_of_lt this)
  · intro id s hs
    exact h.entried id s hs

theorem poa_setTimeoutW (w : World) (cb : TimerCb) (d : Int)
    (hp : EntriesPendingOrActive w) : EntriesPendingOrActive (setTimeoutW w cb d).1 := by
  intro id s hs
  have hs' : lookupA id w.storage = some s := hs
  rcases hp id s hs' with hpend | hact
  · left
    rcases pendingStartB_iff.1 hpend with ⟨t, ht, h1, h2⟩
    refine pendingStartB_iff.2 ⟨t, ?_, h1, h2⟩
    rw [setTimeoutW_timers]
    exact List.mem_append.2 (Or.inl ht)
  · exact Or.inr hact

theorem su_setTimeoutW (w : World) (cb : TimerCb) (d : Int)
    (h : SettledUnique w) : SettledUnique (setTimeoutW w cb d).1 := by
  have key : ∀ k, settledActiveB (setTimeoutW w cb d).1 k = true →
      settledActiveB w k = true := by
    intro k hk
    rcases settledActiveB_eq_true_iff.1 hk with ⟨ha, s, hs, hp⟩
    refine settledActiveB_eq_true_iff.2 ⟨ha, s, hs, ?_⟩
    refine pendingStartB_eq_false_iff.2 ?_
    intro t ht h1 h2
    have : t ∈ (setTimeoutW w cb d).1.timers := by
      rw [setTimeoutW_timers]
      exact List.mem_append.2 (Or.inl ht)
    exact pendingStartB_eq_false_iff.1 hp t this h1 h2
  intro a b ha hb
  exact h a b (key a ha) (key b hb)

theorem wf_stopI (w : World) (id : Nat) (h : Wf w) : Wf (stopI w id) := by
  refine Wf.of_mono h ?_ (stopI_timers_sublist w id) (stopI_nextHandle w id)
    (fun id2 i' hi => stopI_inst_transfer w id id2 hi) (fun id2 s2 _ => stopI_hasActiveOf w id id2)
  intro id2 s2 hs2
  by_cases hk : id2 = id
  · subst hk
    rw [stopI_storage_self] at hs2
    exact absurd hs2 (by simp)
  · rw [stopI_storage_ne w hk] at hs2
    exact hs2

theorem poa_stopI (w : World) (id : Nat) (hwf : Wf w)
    (hp : EntriesPendingOrActive w) : EntriesPendingOrActive (stopI w id) := by
  intro id2 s2 hs2
  by_cases hk : id2 = id
  · subst hk
    rw [stopI_storage_self] at hs2
    exact absurd hs2 (by simp)
  · rw [stopI_storage_ne w hk] at hs2
    rcases hp id2 s2 hs2 with hpend | hact
    · left
      rcases pendingStartB_iff.1 hpend with ⟨t, ht, hth, hcb⟩
      refine pendingStartB_iff.2 ⟨t, ?_, hth, hcb⟩
      cases hs : lookupA id w.storage with
      | none => rw [stopI_timers_noentry w id hs]; exact ht
      | some s =>
        rw [stopI_timers_entry w id hs]
        refine List.mem_filter.2 ⟨ht, ?_⟩
        simp only [decide_eq_true_eq]
        intro heq
        have h1 := hwf.cohA id s hs t ht heq
        rw [hcb] at h1
        injection h1 with h2
        exact hk h2
    · right
      rw [stopI_active_ne w hk]
      exact hact

theorem su_stopI_le (w : World) (id : Nat) (hwf : Wf w) (k : Nat)
    (hk2 : settledActiveB (stopI w id) k = true) : settledActiveB w k = true := by
  rcases settledActiveB_eq_true_iff.1 hk2 with ⟨ha, s2, hs2, hp⟩
  by_cases hk : k = id
  · subst hk
    rw [stopI_storage_self] at hs2
    exact absurd hs2 (by simp)
  · rw [stopI_storage_ne w hk] at hs2
    refine settledActiveB_eq_true_iff.2 ⟨?_, s2, hs2, ?_⟩
    · rw [← stopI_active_ne w hk]
      exact ha
    · refine pendingStartB_eq_false_iff.2 ?_
      intro t ht hth hcb
      refine pendingStartB_eq_false_iff.1 hp t ?_ hth hcb
      cases hs : lookupA id w.storage with
      | none => rw [stopI_timers_noentry w id hs]; exact ht
      | some s =>
        rw [stopI_timers_entry w id hs]
        refine List.mem_filter.2 ⟨ht, ?_⟩
        simp only [decide_eq_true_eq]
        intro heq
        have h1 := hwf.cohA id s hs t ht heq
        rw [hcb] at h1
        injection h1 with h2
        exact hk h2

theorem wf_purgeOne (w : World) (a : Nat) (h : Wf w) : Wf (purgeOne w a) := by
  refine Wf.of_mono h ?_ (purgeOne_timers_sublist w a) (purgeOne_nextHandle w a)
    ?_ (fun id2 s2 _ => purgeOne_hasActiveOf w a id2)
  · intro id2 s2 hs2
    by_cases hk : id2 = a
    · subst hk
      rw [purgeOne_storage_self] at hs2
      exact absurd hs2 (by simp)
    · rw [purgeOne_storage_ne w hk] at hs2
      exact hs2
  · intro id2 i' hi
    rcases purgeOne_inst_transfer w a id2 hi with ⟨i, h1, h2, h3, _⟩
    exact ⟨i, h1, h2, h3⟩

theorem poa_purgeOne (w : World) (a : Nat) (hwf : Wf w)
    (hp : EntriesPendingOrActive w) : EntriesPendingOrActive (purgeOne w a) := by
  intro id2 s2 hs2
  by_cases hk : id2 = a
  · subst hk
    rw [purgeOne_storage_self] at hs2
    exact absurd hs2 (by simp)
  · rw [purgeOne_storage_ne w hk] at hs2
    rcases hp id2 s2 hs2 with hpend | hact
    · left
      rcases pendingStartB_iff.1 hpend with ⟨t, ht, hth, hcb⟩
      refine pendingStartB_iff.2 ⟨t, ?_, hth, hcb⟩
      cases hs : lookupA a w.storage with
      | none => rw [purgeOne_noentry w a hs]; exact ht
      | some s =>
        refine (purgeOne_timers_mem w a hs).2 ⟨ht, ?_, ?_⟩
        · intro heq
          have h1 := hwf.cohA a s hs t ht heq
          rw [hcb] at h1
          injection h1 with h2
          exact hk h2
        · intro heq
          have h1 := hwf.cohR a s hs t ht heq
          rw [hcb] at h1
          exact TimerCb.noConfusion h1
    · right
      unfold activeOf
      rw [purgeOne_insts_ne w hk]
      exact hact

theorem wf_deact (w : World) (ex : Option Nat) (h : Wf w) :
    Wf (deactivateOtherInstances w ex) :=
  foldl_purgeOne_pres (fun v a hv => wf_purgeOne v a hv) _ _ h

theorem wf_poa_deact (w : World) (ex : Option Nat)
    (h : Wf w ∧ EntriesPendingOrActive w) :
    Wf (deactivateOtherInstances w ex) ∧
      EntriesPendingOrActive (deactivateOtherInstances w ex) :=
  @foldl_purgeOne_pres (fun v => Wf v ∧ EntriesPendingOrActive v)
    (fun v a hv => ⟨wf_purgeOne v a hv.1, poa_purgeOne v a hv.1 hv.2⟩) _ _ h

theorem wf_startI (w : World) (id : Nat) (h : Wf w) : Wf (startI w id) := by
  have key : ∀ w1 : World, Wf w1 → Wf (deactivateOtherInstances w1 (some id)) :=
    fun w1 h1 => wf_deact w1 _ h1
  unfold startI
  cases hI : lookupA id w.insts with
  | none => exact key _ h
  | some i =>
    simp only []
    by_cases hc : (!i.active && i.hasActive) = true
    · rw [if_pos hc]
      exact key _ (wf_updInst w id _ (fun j => rfl) (fun j => rfl) h)
    · rw [if_neg hc]
      exact key _ h

theorem poa_startI (w : World) (id : Nat) (hwf : Wf w) :
    EntriesPendingOrActive (startI w id) := by
  intro id2 s2 hs2
  by_cases hk : id2 = id
  · subst hk
    right
    have hs' : lookupA id2 w.storage = some s2 := by
      rw [← startI_storage_self w id2]
      exact hs2
    have hha := hwf.entried id2 s2 hs'
    unfold hasActiveOf at hha
    cases hI : lookupA id2 w.insts with
    | none => rw [hI] at hha; exact absurd hha (by simp)
    | some i =>
      rw [hI] at hha
      exact startI_active_self w hI hha
  · rw [startI_storage_other w hk] at hs2
    exact absurd hs2 (by simp)

theorem settledActiveB_true_entry {w : World} {k : Nat}
    (h : settledActiveB w k = true) : ∃ s, lookupA k w.storage = some s := by
  rcases settledActiveB_eq_true_iff.1 h with ⟨_, s, hs, _⟩
  exact ⟨s, hs⟩

theorem su_startI (w : World) (id : Nat) : SettledUnique (startI w id) := by
  intro a b ha hb
  rcases settledActiveB_true_entry ha with ⟨sa, hsa⟩
  rcases settledActiveB_true_entry hb with ⟨sb, hsb⟩
  by_cases hka : a = id
  · by_cases hkb : b = id
    · rw [hka, hkb]
    · rw [startI_storage_other w hkb] at hsb
      exact absurd hsb (by simp)
  · rw [startI_storage_other w hka] at hsa
    exact absurd hsa (by simp)

theorem poa_removeTimer (w : World) (hnd : Nat) {t : Timer}
    (hwf : Wf w) (hp : EntriesPendingOrActive w)
    (ht : t ∈ w.timers) (hth : t.handle = hnd)
    (hcb : ∀ k, t.cb ≠ TimerCb.startCb k) :
    EntriesPendingOrActive
      { w with timers := w.timers.filter (fun u => decide (u.handle ≠ hnd)) } := by
  intro id2 s2 hs2
  have hs2' : lookupA id2 w.storage = some s2 := hs2
  rcases hp id2 s2 hs2' with hpend | hact
  · left
    rcases pendingStartB_iff.1 hpend with ⟨u, hu, h1, h2⟩
    refine pendingStartB_iff.2 ⟨u, ?_, h1, h2⟩
    show u ∈ w.timers.filter (fun u => decide (u.handle ≠ hnd))
    refine List.mem_filter.2 ⟨hu, ?_⟩
    simp only [decide_eq_true_eq]
    intro heq
    have hut : u = t := tdist_unique hwf.tdist hu ht (by rw [heq, hth])
    rw [hut] at h2
    exact hcb id2 h2
  · exact Or.inr hact

theorem su_removeTimer (w : World) (hnd : Nat) {t : Timer}
    (hwf : Wf w) (h : SettledUnique w)
    (ht : t ∈ w.timers) (hth : t.handle = hnd)
    (hcb : ∀ k, t.cb ≠ TimerCb.startCb k) :
    SettledUnique
      { w with timers := w.timers.filter (fun u => decide (u.handle ≠ hnd)) } := by
  have key : ∀ k, settledActiveB
      { w with timers := w.timers.filter (fun u => decide (u.handle ≠ hnd)) } k = true →
      settledActiveB w k = true := by
    intro k hk
    rcases settledActiveB_eq_true_iff.1 hk with ⟨ha, s, hs, hpend⟩
    refine settledActiveB_eq_true_iff.2 ⟨ha, s, hs, ?_⟩
    refine pendingStartB_eq_false_iff.2 ?_
    intro u hu h1 h2
    refine pendingStartB_eq_false_iff.1 hpend u ?_ h1 h2
    show u ∈ w.timers.filter (fun u => decide (u.handle ≠ hnd))
    refine List.mem_filter.2 ⟨hu, ?_⟩
    simp only [decide_eq_true_eq]
    intro heq
    have hut : u = t := tdist_unique hwf.tdist hu ht (by rw [heq, hth])
    rw [hut] at h2
    exact hcb k h2
  intro a b ha hb
  exact h a b (key a ha) (key b hb)

theorem wf_removeTimer (w : World) (hnd : Nat) (h : Wf w) :
    Wf { w with timers := w.timers.filter (fun u => decide (u.handle ≠ hnd)) } :=
  Wf.of_mono h (fun id2 s2 hs2 => hs2) (List.filter_sublist _) rfl
    (fun id2 i' hi => ⟨i', hi, rfl, rfl⟩) (fun id2 s2 _ => rfl)

theorem fireTimer_nofind (w : World) (hnd : Nat)
    (hfind : w.timers.find? (fun t => decide (t.handle = hnd)) = none) :
    fireTimer w hnd = w := by
  unfold fireTimer
  rw [hfind]

theorem fireTimer_found (w : World) (hnd : Nat) {t : Timer}
    (hfind : w.timers.find? (fun t => decide (t.handle = hnd)) = some t) :
    fireTimer w hnd =
      runCb { w with timers := w.timers.filter (fun u => decide (u.handle ≠ hnd)) } t.cb := by
  unfold fireTimer
  rw [hfind]

theorem runCb_startCb (v : World) (id : Nat) : runCb v (TimerCb.startCb id) = startI v id := rfl

theorem runCb_stopCb (v : World) (id : Nat) : runCb v (TimerCb.stopCb id) = stopI v id := rfl

theorem wf_runCb (v : World) (cb : TimerCb) (h : Wf v) : Wf (runCb v cb) := by
  cases cb with
  | startCb id => exact wf_startI v id h
  | stopCb id => exact wf_stopI v id h
  | wavesCb id key =>
    unfold runCb
    simp only []
    cases hI : lookupA id v.insts with
    | none => exact h
    | some i =>
      exact wf_updInst v id (fun j => { j with clicks := eraseAllA key j.clicks })
        (fun j => rfl) (fun j => rfl) h

theorem poa_waves_runCb (v : World) (id key : Nat)
    (hp : EntriesPendingOrActive v) :
    EntriesPendingOrActive (runCb v (TimerCb.wavesCb id key)) := by
  unfold runCb
  simp only []
  cases hI : lookupA id v.insts with
  | none => exact hp
  | some i =>
    exact poa_updInst v id (fun j => { j with clicks := eraseAllA key j.clicks })
      (fun j => rfl) hp

theorem su_waves_runCb (v : World) (id key : Nat)
    (h : SettledUnique v) : SettledUnique (runCb v (TimerCb.wavesCb id key)) := by
  unfold runCb
  simp only []
  cases hI : lookupA id v.insts with
  | none => exact h
  | some i =>
    exact su_updInst v id (fun j => { j with clicks := eraseAllA key j.clicks })
      (fun j => rfl) h

theorem wf_fireTimer (w : World) (hnd : Nat) (h : Wf w) : Wf (fireTimer w hnd) := by
  cases hfind : w.timers.find? (fun t => decide (t.handle = hnd)) with
  | none => rw [fireTimer_nofind w hnd hfind]; exact h
  | some t =>
    rw [fireTimer_found w hnd hfind]
    exact wf_runCb _ _ (wf_removeTimer w hnd h)

theorem poa_fireTimer (w : World) (hnd : Nat) (hwf : Wf w)
    (hp : EntriesPendingOrActive w) : EntriesPendingOrActive (fireTimer w hnd) := by
  cases hfind : w.timers.find? (fun t => decide (t.handle = hnd)) with
  | none => rw [fireTimer_nofind w hnd hfind]; exact hp
  | some t =>
    rw [fireTimer_found w hnd hfind]
    have htmem : t ∈ w.timers := List.mem_of_find?_eq_some hfind
    have hth : t.handle = hnd := by
      have := List.find?_some hfind
      simpa using this
    have hwf' := wf_removeTimer w hnd hwf
    cases hcb : t.cb with
    | startCb id =>
      rw [runCb_startCb]
      exact poa_startI _ id hwf'
    | stopCb id =>
      rw [runCb_stopCb]
      refine poa_stopI _ id hwf' ?_
      exact poa_removeTimer w hnd hwf hp htmem hth (fun k hk => by rw [hcb] at hk; exact TimerCb.noConfusion hk)
    | wavesCb id key =>
      refine poa_waves_runCb _ id key ?_
      exact poa_removeTimer w hnd hwf hp htmem hth (fun k hk => by rw [hcb] at hk; exact TimerCb.noConfusion hk)

theorem su_stopI (w : World) (id : Nat) (hwf : Wf w)
    (h : SettledUnique w) : SettledUnique (stopI w id) := by
  intro a b ha hb
  exact h a b (su_stopI_le w id hwf a ha) (su_stopI_le w id hwf b hb)

theorem su_fireTimer (w : World) (hnd : Nat) (hwf : Wf w)
    (h : SettledUnique w) : SettledUnique (fireTimer w hnd) := by
  cases hfind : w.timers.find? (fun t => decide (t.handle = hnd)) with
  | none => rw [fireTimer_nofind w hnd hfind]; exact h
  | some t =>
    rw [fireTimer_found w hnd hfind]
    have htmem : t ∈ w.timers := List.mem_of_find?_eq_some hfind
    have hth : t.handle = hnd := by
      have := List.find?_some hfind
      simpa using this
    have hwf' := wf_removeTimer w hnd hwf
    cases hcb : t.cb with
    | startCb id =>
      rw [runCb_startCb]
      exact su_startI _ id
    | stopCb id =>
      rw [runCb_stopCb]
      refine su_stopI _ id hwf' ?_
      exact su_removeTimer w hnd hwf h htmem hth
        (fun k hk => by rw [hcb] at hk; exact TimerCb.noConfusion hk)
    | wavesCb id key =>
      refine su_waves_runCb _ id key ?_
      exact su_removeTimer w hnd hwf h htmem hth
        (fun k hk => by rw [hcb] at hk; exact TimerCb.noConfusion hk)

theorem wf_advance (w : World) (d : Nat) (h : Wf w) : Wf (advanceW w d) :=
  Wf.of_mono h (fun id2 s2 hs2 => hs2) (List.Sublist.refl _) rfl
    (fun id2 i' hi => ⟨i', hi, rfl, rfl⟩) (fun id2 s2 _ => rfl)

theorem poa_advance (w : World) (d : Nat)
    (hp : EntriesPendingOrActive w) : EntriesPendingOrActive (advanceW w d) :=
  fun id s hs => hp id s hs

theorem su_advance (w : World) (d : Nat)
    (h : SettledUnique w) : SettledUnique (advanceW w d) :=
  fun a b ha hb => h a b ha hb

theorem lookupA_map_init (cfg : List InstCfg) (k : Nat) {i : Inst}
    (h : lookupA k (cfg.map (fun c => (c.id, initInst c))) = some i) :
    ∃ c, i = initInst c := by
  induction cfg with
  | nil => exact absurd h (by simp [lookupA])
  | cons c rest ih =>
    by_cases hc : c.id = k
    · refine ⟨c, ?_⟩
      have : some (initInst c) = some i := by
        rw [← h]
        simp [lookupA, hc]
      injection this with h2
      exact h2.symm
    · refine ih ?_
      rw [← h]
      simp [lookupA, hc]

theorem wf_init (cfg : List InstCfg) (t0 : Nat) : Wf (initWorld cfg t0) := by
  refine ⟨?_, ?_, ?_, ?_, ?_, ?_, ?_, ?_⟩
  · exact List.Pairwise.nil
  · intro t ht
    exact absurd ht (List.not_mem_nil t)
  · intro id s hs
    exact absurd hs (by simp [initWorld, lookupA])
  · intro id i hi h hw
    rcases lookupA_map_init cfg id hi with ⟨c, hc⟩
    rw [hc] at hw
    exact absurd hw (by simp [initInst])
  · intro id s hs
    exact absurd hs (by simp [initWorld, lookupA])
  · intro id s hs
    exact absurd hs (by simp [initWorld, lookupA])
  · intro id i hi t ht
    exact absurd ht (List.not_mem_nil t)
  · intro id s hs
    exact absurd hs (by simp [initWorld, lookupA])

theorem poa_init (cfg : List InstCfg) (t0 : Nat) :
    EntriesPendingOrActive (initWorld cfg t0) := by
  intro id s hs
  exact absurd hs (by simp [initWorld, lookupA])

theorem su_init (cfg : List InstCfg) (t0 : Nat) : SettledUnique (initWorld cfg t0) := by
  intro a b ha _
  rcases settledActiveB_true_entry ha with ⟨s, hs⟩
  exact absurd hs (by simp [initWorld, lookupA])

theorem regWorld_storage_self (w1 : World) (id : Nat) :
    lookupA id (regWorld w1 id).storage =
      some { activeTimeout := w1.nextHandle, timeout := none } :=
  lookupA_setA_self id _ w1.storage

theorem regWorld_storage_ne (w1 : World) {id k : Nat} (hk : k ≠ id) :
    lookupA k (regWorld w1 id).storage = lookupA k w1.storage :=
  lookupA_setA_ne _ w1.storage hk

theorem regWorld_newTimer_mem (w1 : World) (id : Nat) :
    ({ handle := w1.nextHandle, delay := ACTIVE_DELAY, schedAt := w1.now,
       cb := TimerCb.startCb id } : Timer) ∈ (regWorld w1 id).timers :=
  List.mem_append.2 (Or.inr (by simp))

theorem wf_regWorld (w1 : World) (id : Nat) (hha : hasActiveOf w1 id = true)
    (h : Wf w1) : Wf (regWorld w1 id) := by
  refine ⟨?_, ?_, ?_, ?_, ?_, ?_, ?_, ?_⟩
  · unfold TimersDistinct regWorld
    simp only []
    refine List.pairwise_append.2 ⟨h.tdist, by simp, ?_⟩
    intro a ha b hb
    rw [List.mem_singleton.1 hb]
    exact Nat.ne_of_lt (h.tfresh a ha)
  · intro t ht
    rcases List.mem_append.1 ht with h1 | h1
    · exact Nat.lt_succ_of_lt (h.tfresh t h1)
    · rw [List.mem_singleton.1 h1]
      exact Nat.lt_succ_self _
  · intro id2 s2 hs2
    show s2.activeTimeout < w1.nextHandle + 1 ∧ _
    by_cases hk : id2 = id
    · rw [hk, regWorld_storage_self] at hs2
      injection hs2 with hs3
      rw [← hs3]
      refine ⟨Nat.lt_succ_self _, fun hh hhh => ?_⟩
      exact absurd hhh (by simp)
    · rw [regWorld_storage_ne w1 hk] at hs2
      rcases h.sfresh id2 s2 hs2 with ⟨h1, h2⟩
      exact ⟨Nat.lt_succ_of_lt h1, fun hh hhh => Nat.lt_succ_of_lt (h2 hh hhh)⟩
  · intro id2 i hi hh hw
    exact Nat.lt_succ_of_lt (h.wfresh id2 i hi hh hw)
  · intro id2 s2 hs2 t ht hth
    by_cases hk : id2 = id
    · rw [hk, regWorld_storage_self] at hs2
      injection hs2 with hs3
      rw [← hs3] at hth
      rcases List.mem_append.1 ht with h1 | h1
      · exact absurd hth (Nat.ne_of_lt (h.tfresh t h1))
      · rw [List.mem_singleton.1 h1, hk]
    · rw [regWorld_storage_ne w1 hk] at hs2
      rcases List.mem_append.1 ht with h1 | h1
      · exact h.cohA id2 s2 hs2 t h1 hth
      · rw [List.mem_singleton.1 h1] at hth
        have hth2 : w1.nextHandle = s2.activeTimeout := hth
        exact absurd hth2.symm (Nat.ne_of_lt (h.sfresh id2 s2 hs2).1)
  · intro id2 s2 hs2 t ht hth
    by_cases hk : id2 = id
    · rw [hk, regWorld_storage_self] at hs2
      injection hs2 with hs3
      rw [← hs3] at hth
      exact absurd hth (by simp)
    · rw [regWorld_storage_ne w1 hk] at hs2
      rcases List.mem_append.1 ht with h1 | h1
      · exact h.cohR id2 s2 hs2 t h1 hth
      · rw [List.mem_singleton.1 h1] at hth
        have hth2 : s2.timeout = some w1.nextHandle := hth
        have := (h.sfresh id2 s2 hs2).2 w1.nextHandle hth2
        exact absurd rfl (Nat.ne_of_lt this)
  · intro id2 i hi t ht hth
    rcases List.mem_append.1 ht with h1 | h1
    · exact h.cohW id2 i hi t h1 hth
    · rw [List.mem_singleton.1 h1] at hth
      have hth2 : i.wavesTimeout = some w1.nextHandle := hth
      have := h.wfresh id2 i hi w1.nextHandle hth2
      exact absurd rfl (Nat.ne_of_lt this)
  · intro id2 s2 hs2
    by_cases hk : id2 = id
    · rw [hk]
      exact hha
    · rw [regWorld_storage_ne w1 hk] at hs2
      exact h.entried id2 s2 hs2

theorem poa_regWorld (w1 : World) (id : Nat)
    (hp : EntriesPendingOrActive w1) : EntriesPendingOrActive (regWorld w1 id) := by
  intro id2 s2 hs2
  by_cases hk : id2 = id
  · left
    rw [hk, regWorld_storage_self] at hs2
    injection hs2 with hs3
    refine pendingStartB_iff.2 ⟨{ handle := w1.nextHandle, delay := ACTIVE_DELAY,
                                  schedAt := w1.now, cb := TimerCb.startCb id }, ?_, ?_, ?_⟩
    · exact regWorld_newTimer_mem w1 id
    · rw [← hs3]
    · rw [hk]
  · rw [regWorld_storage_ne w1 hk] at hs2
    rcases hp id2 s2 hs2 with hpend | hact
    · left
      rcases pendingStartB_iff.1 hpend with ⟨t, ht, h1, h2⟩
      exact pendingStartB_iff.2 ⟨t, List.mem_append.2 (Or.inl ht), h1, h2⟩
    · exact Or.inr hact

theorem su_regWorld (w1 : World) (id : Nat)
    (h : SettledUnique w1) : SettledUnique (regWorld w1 id) := by
  have key : ∀ k, settledActiveB (regWorld w1 id) k = true → settledActiveB w1 k = true := by
    intro k hk
    rcases settledActiveB_eq_true_iff.1 hk with ⟨ha, s, hs, hpend⟩
    by_cases hik : k = id
    · exfalso
      rw [hik, regWorld_storage_self] at hs
      injection hs with hs3
      refine pendingStartB_eq_false_iff.1 hpend
        { handle := w1.nextHandle, delay := ACTIVE_DELAY,
          schedAt := w1.now, cb := TimerCb.startCb id }
        (regWorld_newTimer_mem w1 id) (by rw [← hs3]) ?_
      rw [hik]
    · rw [regWorld_storage_ne w1 hik] at hs
      refine settledActiveB_eq_true_iff.2 ⟨ha, s, hs, ?_⟩
      refine pendingStartB_eq_false_iff.2 ?_
      intro t ht h1 h2
      exact pendingStartB_eq_false_iff.1 hpend t (List.mem_append.2 (Or.inl ht)) h1 h2
  intro a b ha hb
  exact h a b (key a ha) (key b hb)

theorem onDown_noinst (w : World) (id : Nat) (x y : Int)
    (hI : lookupA id w.insts = none) : onDown w id x y = w := by
  unfold onDown
  rw [hI]

theorem onDown_skip (w : World) {id : Nat} {i : Inst} (x y : Int)
    (hI : lookupA id w.insts = some i) (hand : i.platformAndroid = false) :
    onDown w id x y = w := by
  unfold onDown
  rw [hI]
  simp only []
  rw [if_neg (by simp [hand])]

theorem onDown_android_eq (w : World) {id : Nat} {i : Inst} (x y : Int)
    (hI : lookupA id w.insts = some i) (hand : i.platformAndroid = true) :
    onDown w id x y =
      updInst (setTimeoutW
          (updInst w id (fun j => { j with clicks := setA w.now (x, y) j.clicks }))
          (TimerCb.wavesCb id w.now) 225).1
        id (fun j => { j with wavesTimeout := some w.nextHandle }) := by
  unfold onDown
  rw [hI]
  simp only []
  rw [if_pos (by simp [hand])]
  rfl

theorem hasActiveOf_onDown (w : World) (id : Nat) (x y : Int) (k : Nat) :
    hasActiveOf (onDown w id x y) k = hasActiveOf w k := by
  cases hI : lookupA id w.insts with
  | none => rw [onDown_noinst w id x y hI]
  | some i =>
    cases hand : i.platformAndroid with
    | false => rw [onDown_skip w x y hI hand]
    | true =>
      rw [onDown_android_eq w x y hI hand]
      rw [hasActiveOf_updInst _ id k
        (fun j => { j with wavesTimeout := some w.nextHandle }) (fun j => rfl)]
      show hasActiveOf (updInst w id
        (fun j => { j with clicks := setA w.now (x, y) j.clicks })) k = hasActiveOf w k
      rw [hasActiveOf_updInst w id k
        (fun j => { j with clicks := setA w.now (x, y) j.clicks }) (fun j => rfl)]

theorem wf_onDown (w : World) (id : Nat) (x y : Int) (h : Wf w) :
    Wf (onDown w id x y) := by
  cases hI : lookupA id w.insts with
  | none => rw [onDown_noinst w id x y hI]; exact h
  | some i =>
    cases hand : i.platformAndroid with
    | false => rw [onDown_skip w x y hI hand]; exact h
    | true =>
      have hHA : ∀ k, hasActiveOf (onDown w id x y) k = hasActiveOf w k :=
        fun k => hasActiveOf_onDown w id x y k
      rw [onDown_android_eq w x y hI hand] at hHA ⊢
      have h1 := wf_updInst w id
        (fun j => { j with clicks := setA w.now (x, y) j.clicks })
        (fun j => rfl) (fun j => rfl) h
      have h2 := wf_setTimeoutW _ (TimerCb.wavesCb id w.now) 225 h1
      refine ⟨h2.tdist, h2.tfresh, h2.sfresh, ?_, h2.cohA, h2.cohR, ?_, ?_⟩
      · intro id2 i2 hi hh hw
        rw [updInst_insts] at hi
        by_cases hk : id2 = id
        · rw [if_pos hk] at hi
          cases hI2 : lookupA id2 (setTimeoutW
              (updInst w id (fun j => { j with clicks := setA w.now (x, y) j.clicks }))
              (TimerCb.wavesCb id w.now) 225).1.insts with
          | none => rw [hI2] at hi; exact absurd hi (by simp)
          | some j =>
            rw [hI2] at hi
            have hij : i2 = { j with wavesTimeout := some w.nextHandle } := by
              simpa using hi.symm
            subst hij
            have hwn : hh = w.nextHandle := by
              have h3 : some w.nextHandle = some hh := hw
              injection h3 with h4
              exact h4.symm
            rw [hwn]
            show w.nextHandle < w.nextHandle + 1
            exact Nat.lt_succ_self _
        · rw [if_neg hk] at hi
          exact h2.wfresh id2 i2 hi hh hw
      · intro id2 i2 hi t ht hth
        rw [updInst_insts] at hi
        rw [updInst_timers] at ht
        by_cases hk : id2 = id
        · rw [if_pos hk] at hi
          cases hI2 : lookupA id2 (setTimeoutW
              (updInst w id (fun j => { j with clicks := setA w.now (x, y) j.clicks }))
              (TimerCb.wavesCb id w.now) 225).1.insts with
          | none => rw [hI2] at hi; exact absurd hi (by simp)
          | some j =>
            rw [hI2] at hi
            have hij : i2 = { j with wavesTimeout := some w.nextHandle } := by
              simpa using hi.symm
            subst hij
            have hthn : t.handle = w.nextHandle := by
              have h3 : some w.nextHandle = some t.handle := hth
              injection h3 with h4
              exact h4.symm
            rw [setTimeoutW_timers] at ht
            rcases List.mem_append.1 ht with hm | hm
            · have hlt : t.handle < w.nextHandle := h.tfresh t hm
              exact absurd hthn (Nat.ne_of_lt hlt)
            · rw [List.mem_singleton.1 hm]
              rw [hk]
              exact ⟨w.now, rfl⟩
        · rw [if_neg hk] at hi
          exact h2.cohW id2 i2 hi t ht hth
      · intro id2 s2 hs2
        have hs2' : lookupA id2 w.storage = some s2 := hs2
        rw [hHA id2]
        exact h.entried id2 s2 hs2'

theorem poa_onDown (w : World) (id : Nat) (x y : Int)
    (hp : EntriesPendingOrActive w) : EntriesPendingOrActive (onDown w id x y) := by
  cases hI : lookupA id w.insts with
  | none => rw [onDown_noinst w id x y hI]; exact hp
  | some i =>
    cases hand : i.platformAndroid with
    | false => rw [onDown_skip w x y hI hand]; exact hp
    | true =>
      rw [onDown_android_eq w x y hI hand]
      refine poa_updInst _ id _ (fun j => rfl) ?_
      refine poa_setTimeoutW _ _ _ ?_
      exact poa_updInst w id _ (fun j => rfl) hp

theorem su_onDown (w : World) (id : Nat) (x y : Int)
    (h : SettledUnique w) : SettledUnique (onDown w id x y) := by
  cases hI : lookupA id w.insts with
  | none => rw [onDown_noinst w id x y hI]; exact h
  | some i =>
    cases hand : i.platformAndroid with
    | false => rw [onDown_skip w x y hI hand]; exact h
    | true =>
      rw [onDown_android_eq w x y hI hand]
      refine su_updInst _ id _ (fun j => rfl) ?_
      refine su_setTimeoutW _ _ _ ?_
      exact su_updInst w id _ (fun j => rfl) h

theorem onStart_noinst (w : World) (id : Nat) (tc : Option Nat) (x y : Int)
    (hI : lookupA id w.insts = none) : onStart w id tc x y = w := by
  unfold onStart
  rw [hI]

theorem onStart_nohasactive (w : World) {id : Nat} {i : Inst} (tc : Option Nat) (x y : Int)
    (hI : lookupA id w.insts = some i) (hha : i.hasActive = false) :
    onStart w id tc x y = w := by
  unfold onStart
  rw [hI]
  simp only []
  rw [if_neg (by simp [hha])]

theorem onStart_deact_eq (w : World) {id : Nat} {i : Inst} {tc : Option Nat} (x y : Int)
    (hI : lookupA id w.insts = some i) (hha : i.hasActive = true)
    (hm : (match tc with | some n => decide (1 < n) | none => false) = true) :
    onStart w id tc x y = deactivateOtherInstances w none := by
  unfold onStart
  rw [hI]
  simp only []
  rw [if_pos hha, if_pos hm]

theorem onStart_reg_eq (w : World) {id : Nat} {i : Inst} {tc : Option Nat} (x y : Int)
    (hI : lookupA id w.insts = some i) (hha : i.hasActive = true)
    (hm : (match tc with | some n => decide (1 < n) | none => false) = false) :
    onStart w id tc x y =
      regWorld (if i.platformAndroid then onDown w id x y else w) id := by
  unfold onStart
  rw [hI]
  simp only []
  rw [if_pos hha, if_neg (by simp [hm])]
  rfl

theorem su_deact_none (w : World) :
    SettledUnique (deactivateOtherInstances w none) := by
  intro a b ha _
  exfalso
  rcases settledActiveB_true_entry ha with ⟨sa, hsa⟩
  rw [deact_storage_none w (by simp : some a ≠ none)] at hsa
  exact absurd hsa (by simp)

theorem poa_deact_none (w : World) :
    EntriesPendingOrActive (deactivateOtherInstances w none) := by
  intro id2 s2 hs2
  rw [deact_storage_none w (by simp : some id2 ≠ none)] at hs2
  exact absurd hs2 (by simp)

theorem wf_onStart (w : World) (id : Nat) (tc : Option Nat) (x y : Int)
    (h : Wf w) : Wf (onStart w id tc x y) := by
  cases hI : lookupA id w.insts with
  | none => rw [onStart_noinst w id tc x y hI]; exact h
  | some i =>
    cases hha : i.hasActive with
    | false => rw [onStart_nohasactive w tc x y hI hha]; exact h
    | true =>
      cases hm : (match tc with | some n => decide (1 < n) | none => false) with
      | true =>
        rw [onStart_deact_eq w x y hI hha hm]
        exact wf_deact w none h
      | false =>
        rw [onStart_reg_eq w x y hI hha hm]
        have hw0 : hasActiveOf w id = true := by
          unfold hasActiveOf
          rw [hI]
          exact hha
        cases hand : i.platformAndroid with
        | false =>
          rw [if_neg (by simp [hand])]
          exact wf_regWorld w id hw0 h
        | true =>
          rw [if_pos (by simp [hand])]
          refine wf_regWorld _ id ?_ (wf_onDown w id x y h)
          rw [hasActiveOf_onDown]
          exact hw0

theorem poa_onStart (w : World) (id : Nat) (tc : Option Nat) (x y : Int)
    (hp : EntriesPendingOrActive w) : EntriesPendingOrActive (onStart w id tc x y) := by
  cases hI : lookupA id w.insts with
  | none => rw [onStart_noinst w id tc x y hI]; exact hp
  | some i =>
    cases hha : i.hasActive with
    | false => rw [onStart_nohasactive w tc x y hI hha]; exact hp
    | true =>
      cases hm : (match tc with | some n => decide (1 < n) | none => false) with
      | true =>
        rw [onStart_deact_eq w x y hI hha hm]
        exact poa_deact_none w
      | false =>
        rw [onStart_reg_eq w x y hI hha hm]
        cases hand : i.platformAndroid with
        | false =>
          rw [if_neg (by simp [hand])]
          exact poa_regWorld w id hp
        | true =>
          rw [if_pos (by simp [hand])]
          exact poa_regWorld _ id (poa_onDown w id x y hp)

theorem su_onStart (w : World) (id : Nat) (tc : Option Nat) (x y : Int)
    (hs : SettledUnique w) : SettledUnique (onStart w id tc x y) := by
  cases hI : lookupA id w.insts with
  | none => rw [onStart_noinst w id tc x y hI]; exact hs
  | some i =>
    cases hha : i.hasActive with
    | false => rw [onStart_nohasactive w tc x y hI hha]; exact hs
    | true =>
      cases hm : (match tc with | some n => decide (1 < n) | none => false) with
      | true =>
        rw [onStart_deact_eq w x y hI hha hm]
        exact su_deact_none w
      | false =>
        rw [onStart_reg_eq w x y hI hha hm]
        cases hand : i.platformAndroid with
        | false =>
          rw [if_neg (by simp [hand])]
          exact su_regWorld w id hs
        | true =>
          rw [if_pos (by simp [hand])]
          exact su_regWorld _ id (su_onDown w id x y hs)

theorem onMove_noinst (w : World) (id : Nat) (sx sy : Nat)
    (hI : lookupA id w.insts = none) : onMove w id sx sy = w := by
  unfold onMove
  rw [hI]

theorem onMove_nomove (w : World) {id : Nat} {i : Inst} {sx sy : Nat}
    (hI : lookupA id w.insts = some i) (hsx : ¬ 20 < sx) (hsy : ¬ 20 < sy) :
    onMove w id sx sy = w := by
  unfold onMove
  rw [hI]
  simp only []
  rw [if_neg (by simp [hsx, hsy])]

theorem wf_onMove (w : World) (id sx sy : Nat) (h : Wf w) :
    Wf (onMove w id sx sy) := by
  cases hI : lookupA id w.insts with
  | none => rw [onMove_noinst w id sx sy hI]; exact h
  | some i =>
    by_cases hsx : 20 < sx
    · rw [onMove_slide_eq w sx sy hI (Or.inl hsx)]
      exact wf_stopI _ id (wf_updInst w id _ (fun j => rfl) (fun j => rfl) h)
    · by_cases hsy : 20 < sy
      · rw [onMove_slide_eq w sx sy hI (Or.inr hsy)]
        exact wf_stopI _ id (wf_updInst w id _ (fun j => rfl) (fun j => rfl) h)
      · rw [onMove_nomove w hI hsx hsy]
        exact h

theorem poa_onMove (w : World) (id sx sy : Nat) (hwf : Wf w)
    (hp : EntriesPendingOrActive w) : EntriesPendingOrActive (onMove w id sx sy) := by
  cases hI : lookupA id w.insts with
  | none => rw [onMove_noinst w id sx sy hI]; exact hp
  | some i =>
    by_cases hsx : 20 < sx
    · rw [onMove_slide_eq w sx sy hI (Or.inl hsx)]
      exact poa_stopI _ id (wf_updInst w id _ (fun j => rfl) (fun j => rfl) hwf)
        (poa_updInst w id _ (fun j => rfl) hp)
    · by_cases hsy : 20 < sy
      · rw [onMove_slide_eq w sx sy hI (Or.inr hsy)]
        exact poa_stopI _ id (wf_updInst w id _ (fun j => rfl) (fun j => rfl) hwf)
          (poa_updInst w id _ (fun j => rfl) hp)
      · rw [onMove_nomove w hI hsx hsy]
        exact hp

theorem su_onMove (w : World) (id sx sy : Nat) (hwf : Wf w)
    (hs : SettledUnique w) : SettledUnique (onMove w id sx sy) := by
  cases hI : lookupA id w.insts with
  | none => rw [onMove_noinst w id sx sy hI]; exact hs
  | some i =>
    by_cases hsx : 20 < sx
    · rw [onMove_slide_eq w sx sy hI (Or.inl hsx)]
      exact su_stopI _ id (wf_updInst w id _ (fun j => rfl) (fun j => rfl) hwf)
        (su_updInst w id _ (fun j => rfl) hs)
    · by_cases hsy : 20 < sy
      · rw [onMove_slide_eq w sx sy hI (Or.inr hsy)]
        exact su_stopI _ id (wf_updInst w id _ (fun j => rfl) (fun j => rfl) hwf)
          (su_updInst w id _ (fun j => rfl) hs)
      · rw [onMove_nomove w hI hsx hsy]
        exact hs

theorem onEnd_noinst (w : World) (id : Nat) (tc : Option Nat)
    (hI : lookupA id w.insts = none) : onEnd w id tc = w := by
  unfold onEnd
  rw [hI]

theorem onEnd_touchrem_eq (w : World) {id : Nat} {i : Inst} {n : Nat}
    (hI : lookupA id w.insts = some i) (hn : 0 < n) :
    onEnd w id (some n) =
      stopI (updInst w id (fun j => { j with isSlide := false })) id := by
  unfold onEnd
  rw [hI]
  show (if (match (some n : Option Nat) with | some n => decide (0 < n) | none => false) = true then
      stopI (updInst w id (fun j => { j with isSlide := false })) id
    else
      let w1 :=
        if i.active = true then
          if 100 ≤ w.now - i.ts.getD 0 then
            stopI w id
          else
            let p := setTimeoutW w (TimerCb.stopCb id)
              ((i.activeEffectDelay : Int) - (w.now : Int) + (i.ts.getD 0 : Int))
            match lookupA id p.1.storage with
            | some s => { p.1 with storage := setA id { s with timeout := some p.2 } p.1.storage }
            | none => p.1
        else if (!i.isSlide) = true then
          let w2 := startI w id
          let p := setTimeoutW w2 (TimerCb.stopCb id) (i.activeEffectDelay : Int)
          match lookupA id p.1.storage with
          | some s =>
              let w4 := clearTimeoutW p.1 s.activeTimeout
              { w4 with storage := setA id { s with timeout := some p.2 } w4.storage }
          | none => updInst p.1 id (fun j => { j with timeoutF := some p.2 })
        else w
      updInst w1 id (fun j => { j with isSlide := false })) = _
  rw [if_pos (show (match (some n : Option Nat) with
    | some n => decide (0 < n) | none => false) = true by simp [hn])]

theorem onEnd_slide_eq (w : World) {id : Nat} {i : Inst}
    (hI : lookupA id w.insts = some i) (hnact : i.active = false)
    (hsl : i.isSlide = true) :
    onEnd w id none = updInst w id (fun j => { j with isSlide := false }) := by
  unfold onEnd
  rw [hI]
  show (if (match (none : Option Nat) with | some n => decide (0 < n) | none => false) = true then
      stopI (updInst w id (fun j => { j with isSlide := false })) id
    else
      let w1 :=
        if i.active = true then
          if 100 ≤ w.now - i.ts.getD 0 then
            stopI w id
          else
            let p := setTimeoutW w (TimerCb.stopCb id)
              ((i.activeEffectDelay : Int) - (w.now : Int) + (i.ts.getD 0 : Int))
            match lookupA id p.1.storage with
            | some s => { p.1 with storage := setA id { s with timeout := some p.2 } p.1.storage }
            | none => p.1
        else if (!i.isSlide) = true then
          let w2 := startI w id
          let p := setTimeoutW w2 (TimerCb.stopCb id) (i.activeEffectDelay : Int)
          match lookupA id p.1.storage with
          | some s =>
              let w4 := clearTimeoutW p.1 s.activeTimeout
              { w4 with storage := setA id { s with timeout := some p.2 } w4.storage }
          | none => updInst p.1 id (fun j => { j with timeoutF := some p.2 })
        else w
      updInst w1 id (fun j => { j with isSlide := false })) = _
  rw [if_neg (by decide :
    ¬ ((match (none : Option Nat) with | some n => decide (0 < n) | none => false) = true))]
  rw [if_neg (by simp [hnact]), if_neg (by simp [hsl])]

theorem wf_setRelease (w : World) (id : Nat) (d : Int) {s : StorageItem}
    (hs : lookupA id w.storage = some s) (h : Wf w) :
    Wf { (setTimeoutW w (TimerCb.stopCb id) d).1 with
         storage := setA id { s with timeout := some w.nextHandle } w.storage } := by
  refine ⟨?_, ?_, ?_, ?_, ?_, ?_, ?_, ?_⟩
  · unfold TimersDistinct
    show (w.timers ++ [({ handle := w.nextHandle, delay := d, schedAt := w.now, cb := TimerCb.stopCb id } : Timer)]).Pairwise (fun t u => t.handle ≠ u.handle)
    refine List.pairwise_append.2 ⟨h.tdist, by simp, ?_⟩
    intro a ha b hb
    rw [List.mem_singleton.1 hb]
    exact Nat.ne_of_lt (h.tfresh a ha)
  · intro t ht
    have ht' : t ∈ w.timers ++ [({ handle := w.nextHandle, delay := d, schedAt := w.now, cb := TimerCb.stopCb id } : Timer)] := ht
    show t.handle < w.nextHandle + 1
    rcases List.mem_append.1 ht' with h1 | h1
    · exact Nat.lt_succ_of_lt (h.tfresh t h1)
    · rw [List.mem_singleton.1 h1]
      exact Nat.lt_succ_self _
  · intro id2 s2 hs2
    have hs2' : lookupA id2 (setA id { s with timeout := some w.nextHandle } w.storage)
        = some s2 := hs2
    show s2.activeTimeout < w.nextHandle + 1 ∧ ∀ hh, s2.timeout = some hh → hh < w.nextHandle + 1
    by_cases hk : id2 = id
    · rw [hk, lookupA_setA_self] at hs2'
      injection hs2' with hs3
      rw [← hs3]
      refine ⟨Nat.lt_succ_of_lt (h.sfresh id s hs).1, fun hh hhh => ?_⟩
      have h4 : some w.nextHandle = some hh := hhh
      injection h4 with h5
      rw [← h5]
      exact Nat.lt_succ_self _
    · rw [lookupA_setA_ne _ _ hk] at hs2'
      rcases h.sfresh id2 s2 hs2' with ⟨h1, h2⟩
      exact ⟨Nat.lt_succ_of_lt h1, fun hh hhh => Nat.lt_succ_of_lt (h2 hh hhh)⟩
  · intro id2 i hi hh hw
    exact Nat.lt_succ_of_lt (h.wfresh id2 i hi hh hw)
  · intro id2 s2 hs2 t ht hth
    have hs2' : lookupA id2 (setA id { s with timeout := some w.nextHandle } w.storage)
        = some s2 := hs2
    have ht' : t ∈ w.timers ++ [({ handle := w.nextHandle, delay := d, schedAt := w.now, cb := TimerCb.stopCb id } : Timer)] := ht
    by_cases hk : id2 = id
    · rw [hk, lookupA_setA_self] at hs2'
      injection hs2' with hs3
      rw [← hs3] at hth
      have hth2 : t.handle = s.activeTimeout := hth
      rcases List.mem_append.1 ht' with h1 | h1
      · rw [hk]
        exact h.cohA id s hs t h1 hth2
      · rw [List.mem_singleton.1 h1] at hth2
        have h4 : w.nextHandle = s.activeTimeout := hth2
        exact absurd h4.symm (Nat.ne_of_lt (h.sfresh id s hs).1)
    · rw [lookupA_setA_ne _ _ hk] at hs2'
      rcases List.mem_append.1 ht' with h1 | h1
      · exact h.cohA id2 s2 hs2' t h1 hth
      · rw [List.mem_singleton.1 h1] at hth
        have h4 : w.nextHandle = s2.activeTimeout := hth
        exact absurd h4.symm (Nat.ne_of_lt (h.sfresh id2 s2 hs2').1)
  · intro id2 s2 hs2 t ht hth
    have hs2' : lookupA id2 (setA id { s with timeout := some w.nextHandle } w.storage)
        = some s2 := hs2
    have ht' : t ∈ w.timers ++ [({ handle := w.nextHandle, delay := d, schedAt := w.now, cb := TimerCb.stopCb id } : Timer)] := ht
    by_cases hk : id2 = id
    · rw [hk, lookupA_setA_self] at hs2'
      injection hs2' with hs3
      rw [← hs3] at hth
      have hth2 : some w.nextHandle = some t.handle := hth
      injection hth2 with hth3
      rcases List.mem_append.1 ht' with h1 | h1
      · exact absurd hth3.symm (Nat.ne_of_lt (h.tfresh t h1))
      · rw [List.mem_singleton.1 h1]
        show TimerCb.stopCb id = TimerCb.stopCb id2
        rw [hk]
    · rw [lookupA_setA_ne _ _ hk] at hs2'
      rcases List.mem_append.1 ht' with h1 | h1
      · exact h.cohR id2 s2 hs2' t h1 hth
      · rw [List.mem_singleton.1 h1] at hth
        have hth2 : s2.timeout = some w.nextHandle := hth
        have := (h.sfresh id2 s2 hs2').2 w.nextHandle hth2
        exact absurd rfl (Nat.ne_of_lt this)
  · intro id2 i hi t ht hth
    have ht' : t ∈ w.timers ++ [({ handle := w.nextHandle, delay := d, schedAt := w.now, cb := TimerCb.stopCb id } : Timer)] := ht
    rcases List.mem_append.1 ht' with h1 | h1
    · exact h.cohW id2 i hi t h1 hth
    · rw [List.mem_singleton.1 h1] at hth
      have hth2 : i.wavesTimeout = some w.nextHandle := hth
      have := h.wfresh id2 i hi w.nextHandle hth2
      exact absurd rfl (Nat.ne_of_lt this)
  · intro id2 s2 hs2
    have hs2' : lookupA id2 (setA id { s with timeout := some w.nextHandle } w.storage)
        = some s2 := hs2
    by_cases hk : id2 = id
    · show hasActiveOf w id2 = true
      rw [hk]
      exact h.entried id s hs
    · rw [lookupA_setA_ne _ _ hk] at hs2'
      exact h.entried id2 s2 hs2'

theorem poa_setRelease (w : World) (id : Nat) (d : Int) {s : StorageItem}
    (hact : activeOf w id = true)
    (hp : EntriesPendingOrActive w) :
    EntriesPendingOrActive { (setTimeoutW w (TimerCb.stopCb id) d).1 with
         storage := setA id { s with timeout := some w.nextHandle } w.storage } := by
  intro id2 s2 hs2
  have hs2' : lookupA id2 (setA id { s with timeout := some w.nextHandle } w.storage)
      = some s2 := hs2
  by_cases hk : id2 = id
  · exact Or.inr (show activeOf w id2 = true by rw [hk]; exact hact)
  · rw [lookupA_setA_ne _ _ hk] at hs2'
    rcases hp id2 s2 hs2' with hpend | hact2
    · left
      rcases pendingStartB_iff.1 hpend with ⟨t, ht, h1, h2⟩
      exact pendingStartB_iff.2 ⟨t,
        show t ∈ w.timers ++ [({ handle := w.nextHandle, delay := d, schedAt := w.now, cb := TimerCb.stopCb id } : Timer)] from List.mem_append.2 (Or.inl ht), h1, h2⟩
    · exact Or.inr hact2

theorem su_setRelease (w : World) (id : Nat) (d : Int) {s : StorageItem}
    (hs : lookupA id w.storage = some s)
    (h : SettledUnique w) :
    SettledUnique { (setTimeoutW w (TimerCb.stopCb id) d).1 with
         storage := setA id { s with timeout := some w.nextHandle } w.storage } := by
  have key : ∀ k, settledActiveB { (setTimeoutW w (TimerCb.stopCb id) d).1 with
      storage := setA id { s with timeout := some w.nextHandle } w.storage } k = true →
      settledActiveB w k = true := by
    intro k hk
    rcases settledActiveB_eq_true_iff.1 hk with ⟨ha, s2, hs2, hpend⟩
    have ha' : activeOf w k = true := ha
    have hs2' : lookupA k (setA id { s with timeout := some w.nextHandle } w.storage)
        = some s2 := hs2
    by_cases hik : k = id
    · rw [hik, lookupA_setA_self] at hs2'
      injection hs2' with hs3
      refine settledActiveB_eq_true_iff.2 ⟨ha', s, (by rw [hik]; exact hs), ?_⟩
      refine pendingStartB_eq_false_iff.2 ?_
      intro t ht hth hcb
      refine pendingStartB_eq_false_iff.1 hpend t
        (show t ∈ w.timers ++ [({ handle := w.nextHandle, delay := d, schedAt := w.now, cb := TimerCb.stopCb id } : Timer)] from List.mem_append.2 (Or.inl ht)) ?_ hcb
      rw [← hs3]
      exact hth
    · rw [lookupA_setA_ne _ _ hik] at hs2'
      refine settledActiveB_eq_true_iff.2 ⟨ha', s2, hs2', ?_⟩
      refine pendingStartB_eq_false_iff.2 ?_
      intro t ht hth hcb
      exact pendingStartB_eq_false_iff.1 hpend t
        (show t ∈ w.timers ++ [({ handle := w.nextHandle, delay := d, schedAt := w.now, cb := TimerCb.stopCb id } : Timer)] from List.mem_append.2 (Or.inl ht)) hth hcb
  intro a b ha hb
  exact h a b (key a ha) (key b hb)

theorem wf_clearSetRelease (v : World) (id : Nat) (d : Int) {s : StorageItem}
    (hs : lookupA id v.storage = some s) (h : Wf v) :
    Wf { clearTimeoutW (setTimeoutW v (TimerCb.stopCb id) d).1 s.activeTimeout with
         storage := setA id { s with timeout := some v.nextHandle }
           (clearTimeoutW (setTimeoutW v (TimerCb.stopCb id) d).1 s.activeTimeout).storage } := by
  have base : (v.timers ++ [({ handle := v.nextHandle, delay := d, schedAt := v.now, cb := TimerCb.stopCb id } : Timer)]).Pairwise (fun t u => t.handle ≠ u.handle) := by
    refine List.pairwise_append.2 ⟨h.tdist, by simp, ?_⟩
    intro a ha b hb
    rw [List.mem_singleton.1 hb]
    exact Nat.ne_of_lt (h.tfresh a ha)
  refine ⟨?_, ?_, ?_, ?_, ?_, ?_, ?_, ?_⟩
  · unfold TimersDistinct
    show ((v.timers ++ [({ handle := v.nextHandle, delay := d, schedAt := v.now, cb := TimerCb.stopCb id } : Timer)]).filter
      (fun t => decide (t.handle ≠ s.activeTimeout))).Pairwise (fun t u => t.handle ≠ u.handle)
    exact List.Pairwise.sublist (List.filter_sublist _) base
  · intro t ht
    have ht' : t ∈ (v.timers ++ [({ handle := v.nextHandle, delay := d, schedAt := v.now, cb := TimerCb.stopCb id } : Timer)]).filter
        (fun t => decide (t.handle ≠ s.activeTimeout)) := ht
    have hMem := (List.mem_filter.1 ht').1
    show t.handle < v.nextHandle + 1
    rcases List.mem_append.1 hMem with h1 | h1
    · exact Nat.lt_succ_of_lt (h.tfresh t h1)
    · rw [List.mem_singleton.1 h1]
      exact Nat.lt_succ_self _
  · intro id2 s2 hs2
    have hs2' : lookupA id2 (setA id { s with timeout := some v.nextHandle }
        (clearTimeoutW (setTimeoutW v (TimerCb.stopCb id) d).1 s.activeTimeout).storage)
        = some s2 := hs2
    show s2.activeTimeout < v.nextHandle + 1 ∧ ∀ hh, s2.timeout = some hh → hh < v.nextHandle + 1
    by_cases hk : id2 = id
    · rw [hk, lookupA_setA_self] at hs2'
      injection hs2' with hs3
      rw [← hs3]
      refine ⟨Nat.lt_succ_of_lt (h.sfresh id s hs).1, fun hh hhh => ?_⟩
      have h4 : some v.nextHandle = some hh := hhh
      injection h4 with h5
      rw [← h5]
      exact Nat.lt_succ_self _
    · rw [lookupA_setA_ne _ _ hk] at hs2'
      have hs2w : lookupA id2 v.storage = some s2 := hs2'
      rcases h.sfresh id2 s2 hs2w with ⟨h1, h2⟩
      exact ⟨Nat.lt_succ_of_lt h1, fun hh hhh => Nat.lt_succ_of_lt (h2 hh hhh)⟩
  · intro id2 i hi hh hw
    exact Nat.lt_succ_of_lt (h.wfresh id2 i hi hh hw)
  · intro id2 s2 hs2 t ht hth
    have hs2' : lookupA id2 (setA id { s with timeout := some v.nextHandle }
        (clearTimeoutW (setTimeoutW v (TimerCb.stopCb id) d).1 s.activeTimeout).storage)
        = some s2 := hs2
    have ht' : t ∈ (v.timers ++ [({ handle := v.nextHandle, delay := d, schedAt := v.now, cb := TimerCb.stopCb id } : Timer)]).filter
        (fun t => decide (t.handle ≠ s.activeTimeout)) := ht
    have hMem := (List.mem_filter.1 ht').1
    have hKeep0 := (List.mem_filter.1 ht').2
    simp only [decide_eq_true_eq] at hKeep0
    by_cases hk : id2 = id
    · rw [hk, lookupA_setA_self] at hs2'
      injection hs2' with hs3
      rw [← hs3] at hth
      have hth2 : t.handle = s.activeTimeout := hth
      exact absurd hth2 hKeep0
    · rw [lookupA_setA_ne _ _ hk] at hs2'
      have hs2w : lookupA id2 v.storage = some s2 := hs2'
      rcases List.mem_append.1 hMem with h1 | h1
      · exact h.cohA id2 s2 hs2w t h1 hth
      · rw [List.mem_singleton.1 h1] at hth
        have h4 : v.nextHandle = s2.activeTimeout := hth
        exact absurd h4.symm (Nat.ne_of_lt (h.sfresh id2 s2 hs2w).1)
  · intro id2 s2 hs2 t ht hth
    have hs2' : lookupA id2 (setA id { s with timeout := some v.nextHandle }
        (clearTimeoutW (setTimeoutW v (TimerCb.stopCb id) d).1 s.activeTimeout).storage)
        = some s2 := hs2
    have ht' : t ∈ (v.timers ++ [({ handle := v.nextHandle, delay := d, schedAt := v.now, cb := TimerCb.stopCb id } : Timer)]).filter
        (fun t => decide (t.handle ≠ s.activeTimeout)) := ht
    have hMem := (List.mem_filter.1 ht').1
    by_cases hk : id2 = id
    · rw [hk, lookupA_setA_self] at hs2'
      injection hs2' with hs3
      rw [← hs3] at hth
      have hth2 : some v.nextHandle = some t.handle := hth
      injection hth2 with hth3
      rcases List.mem_append.1 hMem with h1 | h1
      · exact absurd hth3.symm (Nat.ne_of_lt (h.tfresh t h1))
      · rw [List.mem_singleton.1 h1]
        show TimerCb.stopCb id = TimerCb.stopCb id2
        rw [hk]
    · rw [lookupA_setA_ne _ _ hk] at hs2'
      have hs2w : lookupA id2 v.storage = some s2 := hs2'
      rcases List.mem_append.1 hMem with h1 | h1
      · exact h.cohR id2 s2 hs2w t h1 hth
      · rw [List.mem_singleton.1 h1] at hth
        have hth2 : s2.timeout = some v.nextHandle := hth
        have := (h.sfresh id2 s2 hs2w).2 v.nextHandle hth2
        exact absurd rfl (Nat.ne_of_lt this)
  · intro id2 i hi t ht hth
    have ht' : t ∈ (v.timers ++ [({ handle := v.nextHandle, delay := d, schedAt := v.now, cb := TimerCb.stopCb id } : Timer)]).filter
        (fun t => decide (t.handle ≠ s.activeTimeout)) := ht
    have hMem := (List.mem_filter.1 ht').1
    rcases List.mem_append.1 hMem with h1 | h1
    · exact h.cohW id2 i hi t h1 hth
    · rw [List.mem_singleton.1 h1] at hth
      have hth2 : i.wavesTimeout = some v.nextHandle := hth
      have := h.wfresh id2 i hi v.nextHandle hth2
      exact absurd rfl (Nat.ne_of_lt this)
  · intro id2 s2 hs2
    have hs2' : lookupA id2 (setA id { s with timeout := some v.nextHandle }
        (clearTimeoutW (setTimeoutW v (TimerCb.stopCb id) d).1 s.activeTimeout).storage)
        = some s2 := hs2
    by_cases hk : id2 = id
    · show hasActiveOf v id2 = true
      rw [hk]
      exact h.entried id s hs
    · rw [lookupA_setA_ne _ _ hk] at hs2'
      have hs2w : lookupA id2 v.storage = some s2 := hs2'
      exact h.entried id2 s2 hs2w

theorem poa_clearSetRelease (v : World) (id : Nat) (d : Int) {s : StorageItem}
    (hs : lookupA id v.storage = some s) (hwf : Wf v)
    (hact : activeOf v id = true)
    (hp : EntriesPendingOrActive v) :
    EntriesPendingOrActive
      { clearTimeoutW (setTimeoutW v (TimerCb.stopCb id) d).1 s.activeTimeout with
        storage := setA id { s with timeout := some v.nextHandle }
          (clearTimeoutW (setTimeoutW v (TimerCb.stopCb id) d).1 s.activeTimeout).storage } := by
  intro id2 s2 hs2
  have hs2' : lookupA id2 (setA id { s with timeout := some v.nextHandle }
      (clearTimeoutW (setTimeoutW v (TimerCb.stopCb id) d).1 s.activeTimeout).storage)
      = some s2 := hs2
  by_cases hk : id2 = id
  · exact Or.inr (show activeOf v id2 = true by rw [hk]; exact hact)
  · rw [lookupA_setA_ne _ _ hk] at hs2'
    have hs2w : lookupA id2 v.storage = some s2 := hs2'
    rcases hp id2 s2 hs2w with hpend | hact2
    · left
      rcases pendingStartB_iff.1 hpend with ⟨t, ht, h1, h2⟩
      have hne : t.handle ≠ s.activeTimeout := by
        intro heq
        have h3 := hwf.cohA id s hs t ht heq
        rw [h2] at h3
        injection h3 with h4
        exact hk h4
      refine pendingStartB_iff.2 ⟨t, ?_, h1, h2⟩
      show t ∈ (v.timers ++ [({ handle := v.nextHandle, delay := d, schedAt := v.now, cb := TimerCb.stopCb id } : Timer)]).filter
        (fun t => decide (t.handle ≠ s.activeTimeout))
      exact List.mem_filter.2 ⟨List.mem_append.2 (Or.inl ht), by simp [hne]⟩
    · exact Or.inr (show activeOf v id2 = true from hact2)

theorem su_onlyEntry (W : World) (id : Nat)
    (honly : ∀ k, k ≠ id → lookupA k W.storage = none) : SettledUnique W := by
  intro a b ha hb
  rcases settledActiveB_true_entry ha with ⟨sa, hsa⟩
  rcases settledActiveB_true_entry hb with ⟨sb, hsb⟩
  by_cases hka : a = id
  · by_cases hkb : b = id
    · rw [hka, hkb]
    · rw [honly b hkb] at hsb
      exact absurd hsb (by simp)
  · rw [honly a hka] at hsa
    exact absurd hsa (by simp)

theorem hasActiveOf_startI_self (w : World) {id : Nat} {i : Inst}
    (hI : lookupA id w.insts = some i) :
    hasActiveOf (startI w id) id = i.hasActive := by
  unfold hasActiveOf
  rw [startI_insts_self, hI]
  show (astate w.now i).hasActive = i.hasActive
  unfold astate
  by_cases hc : (!i.active && i.hasActive) = true
  · rw [if_pos hc]
  · rw [if_neg hc]

theorem wf_onEnd_none (w : World) (id : Nat) (h : Wf w) : Wf (onEnd w id none) := by
  cases hI : lookupA id w.insts with
  | none => rw [onEnd_noinst w id none hI]; exact h
  | some i =>
    cases hact : i.active with
    | true =>
      by_cases hge : 100 ≤ w.now - i.ts.getD 0
      · rw [onEnd_active_long_eq w hI hact hge]
        exact wf_updInst _ id _ (fun j => rfl) (fun j => rfl) (wf_stopI w id h)
      · rw [onEnd_active_short_eq w hI hact hge]
        cases hsn : lookupA id w.storage with
        | some s =>
          exact wf_updInst _ id _ (fun j => rfl) (fun j => rfl)
            (wf_setRelease w id _ hsn h)
        | none =>
          exact wf_updInst _ id _ (fun j => rfl) (fun j => rfl)
            (wf_setTimeoutW w (TimerCb.stopCb id) _ h)
    | false =>
      cases hsl : i.isSlide with
      | true =>
        rw [onEnd_slide_eq w hI hact hsl]
        exact wf_updInst w id _ (fun j => rfl) (fun j => rfl) h
      | false =>
        rw [onEnd_veryShort_eq w hI hact hsl]
        cases hsn : lookupA id (startI w id).storage with
        | some s =>
          exact wf_updInst _ id _ (fun j => rfl) (fun j => rfl)
            (wf_clearSetRelease (startI w id) id _ hsn (wf_startI w id h))
        | none =>
          exact wf_updInst _ id _ (fun j => rfl) (fun j => rfl)
            (wf_updInst _ id _ (fun j => rfl) (fun j => rfl)
              (wf_setTimeoutW (startI w id) (TimerCb.stopCb id) _ (wf_startI w id h)))

theorem wf_onEnd (w : World) (id : Nat) (tc : Option Nat) (h : Wf w) :
    Wf (onEnd w id tc) := by
  cases hI : lookupA id w.insts with
  | none => rw [onEnd_noinst w id tc hI]; exact h
  | some i =>
    cases tc with
    | none => exact wf_onEnd_none w id h
    | some n =>
      cases n with
      | zero =>
        rw [onEnd_some_zero]
        exact wf_onEnd_none w id h
      | succ m =>
        rw [onEnd_touchrem_eq w hI (Nat.succ_pos m)]
        exact wf_stopI _ id (wf_updInst w id _ (fun j => rfl) (fun j => rfl) h)

theorem poa_onEnd_none (w : World) (id : Nat) (hwf : Wf w)
    (hp : EntriesPendingOrActive w) : EntriesPendingOrActive (onEnd w id none) := by
  cases hI : lookupA id w.insts with
  | none => rw [onEnd_noinst w id none hI]; exact hp
  | some i =>
    cases hact : i.active with
    | true =>
      have hactive : activeOf w id = true := by
        unfold activeOf
        rw [hI]
        exact hact
      by_cases hge : 100 ≤ w.now - i.ts.getD 0
      · rw [onEnd_active_long_eq w hI hact hge]
        exact poa_updInst _ id _ (fun j => rfl) (poa_stopI w id hwf hp)
      · rw [onEnd_active_short_eq w hI hact hge]
        cases hsn : lookupA id w.storage with
        | some s =>
          exact poa_updInst _ id _ (fun j => rfl) (poa_setRelease w id _ hactive hp)
        | none =>
          exact poa_updInst _ id _ (fun j => rfl)
            (poa_setTimeoutW w (TimerCb.stopCb id) _ hp)
    | false =>
      cases hsl : i.isSlide with
      | true =>
        rw [onEnd_slide_eq w hI hact hsl]
        exact poa_updInst w id _ (fun j => rfl) hp
      | false =>
        rw [onEnd_veryShort_eq w hI hact hsl]
        cases hsn : lookupA id (startI w id).storage with
        | some s =>
          have hEnt := (wf_startI w id hwf).entried id s hsn
          have hha : i.hasActive = true := by
            rw [← hasActiveOf_startI_self w hI]
            exact hEnt
          have hact2 : activeOf (startI w id) id = true := startI_active_self w hI hha
          exact poa_updInst _ id _ (fun j => rfl)
            (poa_clearSetRelease (startI w id) id _ hsn (wf_startI w id hwf) hact2
              (poa_startI w id hwf))
        | none =>
          exact poa_updInst _ id _ (fun j => rfl)
            (poa_updInst _ id _ (fun j => rfl)
              (poa_setTimeoutW (startI w id) (TimerCb.stopCb id) _ (poa_startI w id hwf)))

theorem poa_onEnd (w : World) (id : Nat) (tc : Option Nat) (hwf : Wf w)
    (hp : EntriesPendingOrActive w) : EntriesPendingOrActive (onEnd w id tc) := by
  cases hI : lookupA id w.insts with
  | none => rw [onEnd_noinst w id tc hI]; exact hp
  | some i =>
    cases tc with
    | none => exact poa_onEnd_none w id hwf hp
    | some n =>
      cases n with
      | zero =>
        rw [onEnd_some_zero]
        exact poa_onEnd_none w id hwf hp
      | succ m =>
        rw [onEnd_touchrem_eq w hI (Nat.succ_pos m)]
        exact poa_stopI _ id (wf_updInst w id _ (fun j => rfl) (fun j => rfl) hwf)
          (poa_updInst w id _ (fun j => rfl) hp)

theorem su_onEnd_none (w : World) (id : Nat) (hwf : Wf w)
    (hsu : SettledUnique w) : SettledUnique (onEnd w id none) := by
  cases hI : lookupA id w.insts with
  | none => rw [onEnd_noinst w id none hI]; exact hsu
  | some i =>
    cases hact : i.active with
    | true =>
      by_cases hge : 100 ≤ w.now - i.ts.getD 0
      · rw [onEnd_active_long_eq w hI hact hge]
        exact su_updInst _ id _ (fun j => rfl) (su_stopI w id hwf hsu)
      · rw [onEnd_active_short_eq w hI hact hge]
        cases hsn : lookupA id w.storage with
        | some s =>
          exact su_updInst _ id _ (fun j => rfl) (su_setRelease w id _ hsn hsu)
        | none =>
          exact su_updInst _ id _ (fun j => rfl)
            (su_setTimeoutW w (TimerCb.stopCb id) _ hsu)
    | false =>
      cases hsl : i.isSlide with
      | true =>
        rw [onEnd_slide_eq w hI hact hsl]
        exact su_updInst w id _ (fun j => rfl) hsu
      | false =>
        rw [onEnd_veryShort_eq w hI hact hsl]
        cases hsn : lookupA id (startI w id).storage with
        | some s =>
          refine su_updInst _ id _ (fun j => rfl) (su_onlyEntry _ id ?_)
          intro k hkne
          show lookupA k (setA id { s with timeout := some (startI w id).nextHandle }
            (clearTimeoutW (setTimeoutW (startI w id) (TimerCb.stopCb id)
              (i.activeEffectDelay : Int)).1 s.activeTimeout).storage) = none
          rw [lookupA_setA_ne _ _ hkne]
          exact startI_storage_other w hkne
        | none =>
          exact su_updInst _ id _ (fun j => rfl)
            (su_updInst _ id _ (fun j => rfl)
              (su_setTimeoutW (startI w id) (TimerCb.stopCb id) _ (su_startI w id)))

theorem su_onEnd (w : World) (id : Nat) (tc : Option Nat) (hwf : Wf w)
    (hsu : SettledUnique w) : SettledUnique (onEnd w id tc) := by
  cases hI : lookupA id w.insts with
  | none => rw [onEnd_noinst w id tc hI]; exact hsu
  | some i =>
    cases tc with
    | none => exact su_onEnd_none w id hwf hsu
    | some n =>
      cases n with
      | zero =>
        rw [onEnd_some_zero]
        exact su_onEnd_none w id hwf hsu
      | succ m =>
        rw [onEnd_touchrem_eq w hI (Nat.succ_pos m)]
        exact su_stopI _ id (wf_updInst w id _ (fun j => rfl) (fun j => rfl) hwf)
          (su_updInst w id _ (fun j => rfl) hsu)

theorem clearTimeoutO_timers_sublist (w : World) (ho : Option Nat) :
    (clearTimeoutO w ho).timers.Sublist w.timers := by
  cases ho with
  | none => exact List.Sublist.refl _
  | some h => exact List.filter_sublist _

theorem unmount_noinst (w : World) (id : Nat)
    (hI : lookupA id w.insts = none) : componentWillUnmount w id = w := by
  unfold componentWillUnmount
  rw [hI]

theorem unmount_entry_eq (w : World) {id : Nat} {i : Inst} {s : StorageItem}
    (hI : lookupA id w.insts = some i) (hsn : lookupA id w.storage = some s) :
    componentWillUnmount w id =
      { clearTimeoutO
          { clearTimeoutW (clearTimeoutO w s.timeout) s.activeTimeout with
            storage := eraseAllA id
              (clearTimeoutW (clearTimeoutO w s.timeout) s.activeTimeout).storage }
          i.wavesTimeout with
        insts := eraseAllA id (clearTimeoutO
          { clearTimeoutW (clearTimeoutO w s.timeout) s.activeTimeout with
            storage := eraseAllA id
              (clearTimeoutW (clearTimeoutO w s.timeout) s.activeTimeout).storage }
          i.wavesTimeout).insts } := by
  unfold componentWillUnmount
  rw [hI]
  simp only []
  rw [hsn]

theorem unmount_noentry_eq (w : World) {id : Nat} {i : Inst}
    (hI : lookupA id w.insts = some i) (hsn : lookupA id w.storage = none) :
    componentWillUnmount w id =
      { clearTimeoutO w i.wavesTimeout with
        insts := eraseAllA id (clearTimeoutO w i.wavesTimeout).insts } := by
  unfold componentWillUnmount
  rw [hI]
  simp only []
  rw [hsn]

theorem unmount_entry_storage_self (w : World) {id : Nat} {i : Inst} {s : StorageItem}
    (hI : lookupA id w.insts = some i) (hsn : lookupA id w.storage = some s) :
    lookupA id (componentWillUnmount w id).storage = none := by
  rw [unmount_entry_eq w hI hsn]
  show lookupA id (clearTimeoutO
      { clearTimeoutW (clearTimeoutO w s.timeout) s.activeTimeout with
        storage := eraseAllA id
          (clearTimeoutW (clearTimeoutO w s.timeout) s.activeTimeout).storage }
      i.wavesTimeout).storage = none
  rw [(clearTimeoutO_frame _ i.wavesTimeout).2.1]
  show lookupA id (eraseAllA id
    (clearTimeoutW (clearTimeoutO w s.timeout) s.activeTimeout).storage) = none
  exact lookupA_eraseAllA_self _ _

theorem unmount_entry_storage (w : World) {id : Nat} {i : Inst} {s : StorageItem}
    (hI : lookupA id w.insts = some i) (hsn : lookupA id w.storage = some s)
    (k : Nat) (hk : k ≠ id) :
    lookupA k (componentWillUnmount w id).storage = lookupA k w.storage := by
  rw [unmount_entry_eq w hI hsn]
  show lookupA k (clearTimeoutO
      { clearTimeoutW (clearTimeoutO w s.timeout) s.activeTimeout with
        storage := eraseAllA id
          (clearTimeoutW (clearTimeoutO w s.timeout) s.activeTimeout).storage }
      i.wavesTimeout).storage = lookupA k w.storage
  rw [(clearTimeoutO_frame _ i.wavesTimeout).2.1]
  show lookupA k (eraseAllA id
    (clearTimeoutW (clearTimeoutO w s.timeout) s.activeTimeout).storage) = lookupA k w.storage
  rw [lookupA_eraseAllA_ne _ hk]
  show lookupA k (clearTimeoutO w s.timeout).storage = lookupA k w.storage
  rw [(clearTimeoutO_frame w s.timeout).2.1]

theorem unmount_entry_insts_self (w : World) {id : Nat} {i : Inst} {s : StorageItem}
    (hI : lookupA id w.insts = some i) (hsn : lookupA id w.storage = some s) :
    lookupA id (componentWillUnmount w id).insts = none := by
  rw [unmount_entry_eq w hI hsn]
  show lookupA id (eraseAllA id (clearTimeoutO
      { clearTimeoutW (clearTimeoutO w s.timeout) s.activeTimeout with
        storage := eraseAllA id
          (clearTimeoutW (clearTimeoutO w s.timeout) s.activeTimeout).storage }
      i.wavesTimeout).insts) = none
  exact lookupA_eraseAllA_self _ _

theorem unmount_entry_insts (w : World) {id : Nat} {i : Inst} {s : StorageItem}
    (hI : lookupA id w.insts = some i) (hsn : lookupA id w.storage = some s)
    (k : Nat) (hk : k ≠ id) :
    lookupA k (componentWillUnmount w id).insts = lookupA k w.insts := by
  rw [unmount_entry_eq w hI hsn]
  show lookupA k (eraseAllA id (clearTimeoutO
      { clearTimeoutW (clearTimeoutO w s.timeout) s.activeTimeout with
        storage := eraseAllA id
          (clearTimeoutW (clearTimeoutO w s.timeout) s.activeTimeout).storage }
      i.wavesTimeout).insts) = lookupA k w.insts
  rw [lookupA_eraseAllA_ne _ hk]
  rw [(clearTimeoutO_frame _ i.wavesTimeout).1]
  show lookupA k (clearTimeoutO w s.timeout).insts = lookupA k w.insts
  rw [(clearTimeoutO_frame w s.timeout).1]

theorem unmount_entry_nextHandle (w : World) {id : Nat} {i : Inst} {s : StorageItem}
    (hI : lookupA id w.insts = some i) (hsn : lookupA id w.storage = some s) :
    (componentWillUnmount w id).nextHandle = w.nextHandle := by
  rw [unmount_entry_eq w hI hsn]
  show (clearTimeoutO
      { clearTimeoutW (clearTimeoutO w s.timeout) s.activeTimeout with
        storage := eraseAllA id
          (clearTimeoutW (clearTimeoutO w s.timeout) s.activeTimeout).storage }
      i.wavesTimeout).nextHandle = w.nextHandle
  rw [(clearTimeoutO_frame _ i.wavesTimeout).2.2.2]
  show (clearTimeoutO w s.timeout).nextHandle = w.nextHandle
  rw [(clearTimeoutO_frame w s.timeout).2.2.2]

theorem unmount_entry_timers_sublist (w : World) {id : Nat} {i : Inst} {s : StorageItem}
    (hI : lookupA id w.insts = some i) (hsn : lookupA id w.storage = some s) :
    (componentWillUnmount w id).timers.Sublist w.timers := by
  rw [unmount_entry_eq w hI hsn]
  show (clearTimeoutO
      { clearTimeoutW (clearTimeoutO w s.timeout) s.activeTimeout with
        storage := eraseAllA id
          (clearTimeoutW (clearTimeoutO w s.timeout) s.activeTimeout).storage }
      i.wavesTimeout).timers.Sublist w.timers
  refine (clearTimeoutO_timers_sublist _ _).trans ?_
  exact (List.filter_sublist _).trans (clearTimeoutO_timers_sublist w s.timeout)

theorem unmount_entry_mem_timers (w : World) {id : Nat} {i : Inst} {s : StorageItem}
    (hI : lookupA id w.insts = some i) (hsn : lookupA id w.storage = some s)
    {t : Timer} :
    t ∈ (componentWillUnmount w id).timers ↔
      t ∈ w.timers ∧ t.handle ≠ s.activeTimeout ∧ s.timeout ≠ some t.handle ∧
        i.wavesTimeout ≠ some t.handle := by
  rw [unmount_entry_eq w hI hsn]
  show t ∈ (clearTimeoutO
      { clearTimeoutW (clearTimeoutO w s.timeout) s.activeTimeout with
        storage := eraseAllA id
          (clearTimeoutW (clearTimeoutO w s.timeout) s.activeTimeout).storage }
      i.wavesTimeout).timers ↔ _
  rw [mem_clearTimeoutO]
  show (t ∈ (clearTimeoutW (clearTimeoutO w s.timeout) s.activeTimeout).timers ∧
    i.wavesTimeout ≠ some t.handle) ↔ _
  rw [mem_clearTimeoutW, mem_clearTimeoutO]
  tauto

theorem unmount_noentry_storage (w : World) {id : Nat} {i : Inst}
    (hI : lookupA id w.insts = some i) (hsn : lookupA id w.storage = none)
    (k : Nat) :
    lookupA k (componentWillUnmount w id).storage = lookupA k w.storage := by
  rw [unmount_noentry_eq w hI hsn]
  show lookupA k (clearTimeoutO w i.wavesTimeout).storage = lookupA k w.storage
  rw [(clearTimeoutO_frame w i.wavesTimeout).2.1]

theorem unmount_noentry_insts_self (w : World) {id : Nat} {i : Inst}
    (hI : lookupA id w.insts = some i) (hsn : lookupA id w.storage = none) :
    lookupA id (componentWillUnmount w id).insts = none := by
  rw [unmount_noentry_eq w hI hsn]
  show lookupA id (eraseAllA id (clearTimeoutO w i.wavesTimeout).insts) = none
  exact lookupA_eraseAllA_self _ _

theorem unmount_noentry_insts (w : World) {id : Nat} {i : Inst}
    (hI : lookupA id w.insts = some i) (hsn : lookupA id w.storage = none)
    (k : Nat) (hk : k ≠ id) :
    lookupA k (componentWillUnmount w id).insts = lookupA k w.insts := by
  rw [unmount_noentry_eq w hI hsn]
  show lookupA k (eraseAllA id (clearTimeoutO w i.wavesTimeout).insts) = lookupA k w.insts
  rw [lookupA_eraseAllA_ne _ hk]
  rw [(clearTimeoutO_frame w i.wavesTimeout).1]

theorem unmount_noentry_nextHandle (w : World) {id : Nat} {i : Inst}
    (hI : lookupA id w.insts = some i) (hsn : lookupA id w.storage = none) :
    (componentWillUnmount w id).nextHandle = w.nextHandle := by
  rw [unmount_noentry_eq w hI hsn]
  show (clearTimeoutO w i.wavesTimeout).nextHandle = w.nextHandle
  rw [(clearTimeoutO_frame w i.wavesTimeout).2.2.2]

theorem unmount_noentry_timers_sublist (w : World) {id : Nat} {i : Inst}
    (hI : lookupA id w.insts = some i) (hsn : lookupA id w.storage = none) :
    (componentWillUnmount w id).timers.Sublist w.timers := by
  rw [unmount_noentry_eq w hI hsn]
  show (clearTimeoutO w i.wavesTimeout).timers.Sublist w.timers
  exact clearTimeoutO_timers_sublist w i.wavesTimeout

theorem unmount_noentry_mem_timers (w : World) {id : Nat} {i : Inst}
    (hI : lookupA id w.insts = some i) (hsn : lookupA id w.storage = none)
    {t : Timer} :
    t ∈ (componentWillUnmount w id).timers ↔
      t ∈ w.timers ∧ i.wavesTimeout ≠ some t.handle := by
  rw [unmount_noentry_eq w hI hsn]
  show t ∈ (clearTimeoutO w i.wavesTimeout).timers ↔ _
  exact mem_clearTimeoutO

theorem unmount_timer_survives_waves (w : World) {id : Nat} {i : Inst}
    (hwf : Wf w) (hI : lookupA id w.insts = some i)
    {k : Nat} {t : Timer} (ht : t ∈ w.timers) (hcb : t.cb = TimerCb.startCb k) :
    i.wavesTimeout ≠ some t.handle := by
  intro heq
  rcases hwf.cohW id i hI t ht heq with ⟨k2, hcb2⟩
  rw [hcb] at hcb2
  exact TimerCb.noConfusion hcb2

theorem unmount_timer_survives (w : World) {id : Nat} {i : Inst} {s : StorageItem}
    (hwf : Wf w) (hI : lookupA id w.insts = some i)
    (hsn : lookupA id w.storage = some s)
    {k : Nat} (hk : k ≠ id) {t : Timer} (ht : t ∈ w.timers)
    (hcb : t.cb = TimerCb.startCb k) :
    t.handle ≠ s.activeTimeout ∧ s.timeout ≠ some t.handle ∧
      i.wavesTimeout ≠ some t.handle := by
  refine ⟨?_, ?_, unmount_timer_survives_waves w hwf hI ht hcb⟩
  · intro heq
    have h3 := hwf.cohA id s hsn t ht heq
    rw [hcb] at h3
    injection h3 with h4
    exact hk h4
  · intro heq
    have h3 := hwf.cohR id s hsn t ht heq
    rw [hcb] at h3
    exact TimerCb.noConfusion h3

theorem wf_unmount (w : World) (id : Nat) (h : Wf w) :
    Wf (componentWillUnmount w id) := by
  cases hI : lookupA id w.insts with
  | none => rw [unmount_noinst w id hI]; exact h
  | some i =>
    cases hsn : lookupA id w.storage with
    | some s =>
      refine Wf.of_mono h ?_ (unmount_entry_timers_sublist w hI hsn)
        (unmount_entry_nextHandle w hI hsn) ?_ ?_
      · intro k s2 hk2
        by_cases hkid : k = id
        · rw [hkid, unmount_entry_storage_self w hI hsn] at hk2
          exact Option.noConfusion hk2
        · rw [unmount_entry_storage w hI hsn k hkid] at hk2
          exact hk2
      · intro k i' hik
        by_cases hkid : k = id
        · rw [hkid, unmount_entry_insts_self w hI hsn] at hik
          exact Option.noConfusion hik
        · rw [unmount_entry_insts w hI hsn k hkid] at hik
          exact ⟨i', hik, rfl, rfl⟩
      · intro k s2 hk2
        have hkid : k ≠ id := by
          intro he
          rw [he, unmount_entry_storage_self w hI hsn] at hk2
          exact Option.noConfusion hk2
        unfold hasActiveOf
        rw [unmount_entry_insts w hI hsn k hkid]
    | none =>
      refine Wf.of_mono h ?_ (unmount_noentry_timers_sublist w hI hsn)
        (unmount_noentry_nextHandle w hI hsn) ?_ ?_
      · intro k s2 hk2
        rw [unmount_noentry_storage w hI hsn k] at hk2
        exact hk2
      · intro k i' hik
        by_cases hkid : k = id
        · rw [hkid, unmount_noentry_insts_self w hI hsn] at hik
          exact Option.noConfusion hik
        · rw [unmount_noentry_insts w hI hsn k hkid] at hik
          exact ⟨i', hik, rfl, rfl⟩
      · intro k s2 hk2
        have hkid : k ≠ id := by
          intro he
          rw [unmount_noentry_storage w hI hsn k, he, hsn] at hk2
          exact Option.noConfusion hk2
        unfold hasActiveOf
        rw [unmount_noentry_insts w hI hsn k hkid]

theorem poa_unmount (w : World) (id : Nat) (hwf : Wf w)
    (hp : EntriesPendingOrActive w) :
    EntriesPendingOrActive (componentWillUnmount w id) := by
  cases hI : lookupA id w.insts with
  | none => rw [unmount_noinst w id hI]; exact hp
  | some i =>
    cases hsn : lookupA id w.storage with
    | some s =>
      intro k s2 hk2
      have hkid : k ≠ id := by
        intro he
        rw [he, unmount_entry_storage_self w hI hsn] at hk2
        exact Option.noConfusion hk2
      have hk2w : lookupA k w.storage = some s2 := by
        rw [← unmount_entry_storage w hI hsn k hkid]
        exact hk2
      rcases hp k s2 hk2w with hpend | hact
      · left
        rcases pendingStartB_iff.1 hpend with ⟨t, ht, h1, h2⟩
        have hsur := unmount_timer_survives w hwf hI hsn hkid ht h2
        exact pendingStartB_iff.2 ⟨t,
          (unmount_entry_mem_timers w hI hsn).2 ⟨ht, hsur.1, hsur.2.1, hsur.2.2⟩, h1, h2⟩
      · right
        unfold activeOf
        rw [unmount_entry_insts w hI hsn k hkid]
        unfold activeOf at hact
        exact hact
    | none =>
      intro k s2 hk2
      have hk2w : lookupA k w.storage = some s2 := by
        rw [← unmount_noentry_storage w hI hsn k]
        exact hk2
      have hkid : k ≠ id := by
        intro he
        rw [he, hsn] at hk2w
        exact Option.noConfusion hk2w
      rcases hp k s2 hk2w with hpend | hact
      · left
        rcases pendingStartB_iff.1 hpend with ⟨t, ht, h1, h2⟩
        have hsur := unmount_timer_survives_waves w hwf hI ht h2
        exact pendingStartB_iff.2 ⟨t,
          (unmount_noentry_mem_timers w hI hsn).2 ⟨ht, hsur⟩, h1, h2⟩
      · right
        unfold activeOf
        rw [unmount_noentry_insts w hI hsn k hkid]
        unfold activeOf at hact
        exact hact

theorem su_unmount (w : World) (id : Nat) (hwf : Wf w)
    (hsu : SettledUnique w) : SettledUnique (componentWillUnmount w id) := by
  cases hI : lookupA id w.insts with
  | none => rw [unmount_noinst w id hI]; exact hsu
  | some i =>
    cases hsn : lookupA id w.storage with
    | some s =>
      have key : ∀ k, settledActiveB (componentWillUnmount w id) k = true →
          settledActiveB w k = true := by
        intro k hk
        rcases settledActiveB_eq_true_iff.1 hk with ⟨ha, s2, hs2, hpend⟩
        have hkid : k ≠ id := by
          intro he
          rw [he, unmount_entry_storage_self w hI hsn] at hs2
          exact Option.noConfusion hs2
        have hs2w : lookupA k w.storage = some s2 := by
          rw [← unmount_entry_storage w hI hsn k hkid]
          exact hs2
        have ha' : activeOf w k = true := by
          unfold activeOf
          unfold activeOf at ha
          rw [unmount_entry_insts w hI hsn k hkid] at ha
          exact ha
        refine settledActiveB_eq_true_iff.2 ⟨ha', s2, hs2w, ?_⟩
        refine pendingStartB_eq_false_iff.2 ?_
        intro t ht h1 h2
        have hsur := unmount_timer_survives w hwf hI hsn hkid ht h2
        exact pendingStartB_eq_false_iff.1 hpend t
          ((unmount_entry_mem_timers w hI hsn).2 ⟨ht, hsur.1, hsur.2.1, hsur.2.2⟩) h1 h2
      intro a b ha hb
      exact hsu a b (key a ha) (key b hb)
    | none =>
      have key : ∀ k, settledActiveB (componentWillUnmount w id) k = true →
          settledActiveB w k = true := by
        intro k hk
        rcases settledActiveB_eq_true_iff.1 hk with ⟨ha, s2, hs2, hpend⟩
        have hs2w : lookupA k w.storage = some s2 := by
          rw [← unmount_noentry_storage w hI hsn k]
          exact hs2
        have hkid : k ≠ id := by
          intro he
          rw [he, hsn] at hs2w
          exact Option.noConfusion hs2w
        have ha' : activeOf w k = true := by
          unfold activeOf
          unfold activeOf at ha
          rw [unmount_noentry_insts w hI hsn k hkid] at ha
          exact ha
        refine settledActiveB_eq_true_iff.2 ⟨ha', s2, hs2w, ?_⟩
        refine pendingStartB_eq_false_iff.2 ?_
        intro t ht h1 h2
        have hsur := unmount_timer_survives_waves w hwf hI ht h2
        exact pendingStartB_eq_false_iff.1 hpend t
          ((unmount_noentry_mem_timers w hI hsn).2 ⟨ht, hsur⟩) h1 h2
      intro a b ha hb
      exact hsu a b (key a ha) (key b hb)

theorem reach_inv {w : World} (h : Reach w) :
    Wf w ∧ EntriesPendingOrActive w ∧ SettledUnique w := by
  induction h with
  | init cfg t0 hids => exact ⟨wf_init cfg t0, poa_init cfg t0, su_init cfg t0⟩
  | advance d _ ih =>
      exact ⟨wf_advance _ d ih.1, poa_advance _ d ih.2.1, su_advance _ d ih.2.2⟩
  | gestureStart id tc x y _ ih =>
      exact ⟨wf_onStart _ id tc x y ih.1, poa_onStart _ id tc x y ih.2.1,
        su_onStart _ id tc x y ih.2.2⟩
  | gestureMove id sx sy _ ih =>
      exact ⟨wf_onMove _ id sx sy ih.1, poa_onMove _ id sx sy ih.1 ih.2.1,
        su_onMove _ id sx sy ih.1 ih.2.2⟩
  | gestureEnd id tc _ ih =>
      exact ⟨wf_onEnd _ id tc ih.1, poa_onEnd _ id tc ih.1 ih.2.1,
        su_onEnd _ id tc ih.1 ih.2.2⟩
  | unmount id _ ih =>
      exact ⟨wf_unmount _ id ih.1, poa_unmount _ id ih.1 ih.2.1,
        su_unmount _ id ih.1 ih.2.2⟩
  | fire hnd hdue _ ih =>
      exact ⟨wf_fireTimer _ hnd ih.1, poa_fireTimer _ hnd ih.1 ih.2.1,
        su_fireTimer _ hnd ih.1 ih.2.2⟩

/-- Claim C1 (amended): the code does not bound the number of simultaneously
active instances at one (see the two-active counterexample), but it does
maintain the amended invariant: at most one instance is settled-active, i.e.
active while holding a registry entry whose recorded activation timeout is no
longer pending. -/
theorem tappable_settled_active_unique (w : World) (h : Reach w) : SettledUnique w :=
  (reach_inv h).2.2

theorem tappable_settled_active_unique_witness :
    Reach tapActiveW ∧ settledActiveB tapActiveW 1 = true ∧ (1 : Nat) = 1 := by
  have hr : Reach tapActiveW := Reach.fire 0 (by decide)
    (Reach.advance 70 (Reach.gestureStart 1 none 0 0 (Reach.init [tapCfg1] 0 (by decide))))
  exact ⟨hr, by decide,
    tappable_settled_active_unique tapActiveW hr 1 1 (by decide) (by decide)⟩

/-- Claim C2 (amended): the full "entry iff pending-or-active" equivalence
fails right-to-left (see the active-without-entry counterexample), but the
left-to-right direction holds in every reachable world: every registry entry
belongs to an instance whose recorded activation timeout is still pending or
that is currently active. -/
theorem tappable_entry_implies_pending_or_active (w : World) (h : Reach w) :
    EntriesPendingOrActive w :=
  (reach_inv h).2.1

theorem tappable_entry_implies_pending_or_active_witness :
    Reach tapW1 ∧ (pendingStartB tapW1 1 { activeTimeout := 0, timeout := none } = true ∨
      activeOf tapW1 1 = true) := by
  have hr : Reach tapW1 := Reach.gestureStart 1 none 0 0 (Reach.init [tapCfg1] 0 (by decide))
  exact ⟨hr, tappable_entry_implies_pending_or_active tapW1 hr 1
    { activeTimeout := 0, timeout := none } (by decide)⟩

theorem tappable_release_active_timing_witness :
    (activeOf (onEnd (advanceW tapActiveW 150) 1 none) 1 = false ∧
      lookupA 1 (onEnd (advanceW tapActiveW 150) 1 none).storage = none) ∧
    (activeOf (onEnd (advanceW tapActiveW 50) 1 none) 1 = true ∧
      ∃ t ∈ (onEnd (advanceW tapActiveW 50) 1 none).timers, t.cb = TimerCb.stopCb 1 ∧
        t.schedAt = 120 ∧ t.delay = 550 ∧ (t.schedAt : Int) + t.delay = 670) := by
  have hI150 : lookupA 1 (advanceW tapActiveW 150).insts = some
      { active := true, ts := some 70, hasActive := true, isSlide := false,
        clicks := [], wavesTimeout := none, timeoutF := none,
        activeEffectDelay := 600, platformAndroid := false } := by decide
  have hI50 : lookupA 1 (advanceW tapActiveW 50).insts = some
      { active := true, ts := some 70, hasActive := true, isSlide := false,
        clicks := [], wavesTimeout := none, timeoutF := none,
        activeEffectDelay := 600, platformAndroid := false } := by decide
  constructor
  · exact (tappable_release_active_timing (advanceW tapActiveW 150) 1 none 70
      hI150 (by decide) (by decide) (by decide) (Or.inl rfl)).1 (by decide)
  · refine ⟨?_, ?_⟩
    · exact ((tappable_release_active_timing (advanceW tapActiveW 50) 1 none 70
        hI50 (by decide) (by decide) (by decide) (Or.inl rfl)).2 (by decide)).1
    · rcases ((tappable_release_active_timing (advanceW tapActiveW 50) 1 none 70
        hI50 (by decide) (by decide) (by decide) (Or.inl rfl)).2 (by decide)).2 with
        ⟨t, htm, hcb, hsched, hdelay, hsum⟩
      refine ⟨t, htm, hcb, ?_, ?_, ?_⟩
      · rw [hsched]
        decide
      · rw [hdelay]
        decide
      · rw [hsum]
        decide

theorem tappable_release_before_activation_witness :
    activeOf (onEnd tapW2 1 none) 1 = true ∧
    tsOf (onEnd tapW2 1 none) 1 = some tapW2.now ∧
    ({ handle := 0, delay := ACTIVE_DELAY, schedAt := 0, cb := TimerCb.startCb 1 } : Timer)
      ∉ (onEnd tapW2 1 none).timers ∧
    ∃ t ∈ (onEnd tapW2 1 none).timers, t.cb = TimerCb.stopCb 1 ∧
      t.delay = ((initInst tapCfg1).activeEffectDelay : Int) ∧ t.schedAt = tapW2.now := by
  have hI : lookupA 1 tapW2.insts = some (initInst tapCfg1) := by decide
  have hs : lookupA 1 tapW2.storage = some { activeTimeout := 0, timeout := none } := by decide
  exact tappable_release_before_activation tapW2 1 none
    { handle := 0, delay := ACTIVE_DELAY, schedAt := 0, cb := TimerCb.startCb 1 }
    hI (by decide) (by decide) (by decide) hs (by decide) (by decide) (by decide)
    (Or.inl rfl)

theorem tappable_move_threshold_cancels_witness :
    activeOf (onMove tapW1 1 25 0) 1 = false ∧
    isSlideOf (onMove tapW1 1 25 0) 1 = true ∧
    ∀ t ∈ (onMove tapW1 1 25 0).timers, t.cb ≠ TimerCb.startCb 1 := by
  have hI : lookupA 1 tapW1.insts = some (initInst tapCfg1) := by decide
  exact tappable_move_threshold_cancels tapW1 1 25 0 hI (Or.inl (by decide)) (by decide)

theorem tappable_multitouch_start_purges_witness :
    (∀ k, lookupA k (onStart mtW0 1 (some 2) 0 0).storage = none) ∧
    (∀ k, activeOf (onStart mtW0 1 (some 2) 0 0) k = true → activeOf mtW0 k = true) ∧
    (∀ k, lookupA k mtW0.storage ≠ none →
      activeOf (onStart mtW0 1 (some 2) 0 0) k = false) := by
  have hI : lookupA 1 mtW0.insts = some (initInst tapCfg1) := by decide
  exact tappable_multitouch_start_purges mtW0 1 2 0 0 hI (by decide) (by decide)

theorem tappable_rapid_restart_registration_witness :
    ((onStart (onStart dblW0 1 none 0 0) 1 none 0 0).storage.filter
        (fun p => decide (p.1 = 1))).length = 1 ∧
    lookupA 1 (onStart (onStart dblW0 1 none 0 0) 1 none 0 0).storage =
      some { activeTimeout := dblW0.nextHandle + 1, timeout := none } ∧
    ∃ t ∈ (onStart (onStart dblW0 1 none 0 0) 1 none 0 0).timers,
      t.handle = dblW0.nextHandle ∧ t.cb = TimerCb.startCb 1 := by
  have hI : lookupA 1 dblW0.insts = some (initInst tapCfg1) := by decide
  exact tappable_rapid_restart_registration dblW0 1 0 0 0 0 hI (by decide) (by decide)
    (by decide)

theorem tappable_stop_preserves_release_timer_witness :
    lookupA 1 (stopI shortTapW 1).storage = none ∧
    ({ handle := 1, delay := 600, schedAt := 30, cb := TimerCb.stopCb 1 } : Timer)
      ∈ (stopI shortTapW 1).timers ∧
    ((∀ k, lookupA k (fireTimer slideW 1).insts = lookupA k slideW.insts) ∧
     (∀ k, lookupA k (fireTimer slideW 1).storage = lookupA k slideW.storage) ∧
     (fireTimer slideW 1).timers = slideW.timers.filter (fun u => decide (u.handle ≠ 1))) := by
  refine ⟨?_, ?_, ?_⟩
  · exact ((tappable_stop_preserves_release_timer shortTapW 1).1
      { activeTimeout := 0, timeout := some 1 } (by decide)).1
  · exact ((tappable_stop_preserves_release_timer shortTapW 1).1
      { activeTimeout := 0, timeout := some 1 } (by decide)).2.2.2 1
      { handle := 1, delay := 600, schedAt := 30, cb := TimerCb.stopCb 1 }
      (by decide) (by decide) (by decide) (by decide)
  · exact (tappable_stop_preserves_release_timer slideW 1).2 1
      { handle := 1, delay := 600, schedAt := 30, cb := TimerCb.stopCb 1 }
      (by decide) (by decide) (by decide) (by decide)

/-- Claim C6 counterexample: after a duplicated gesture start the first
registration's activation timer is not recorded in the registry entry, so the
`stop` run by a threshold-crossing move cancels only the recorded one and the
leaked activation timer stays scheduled. -/
theorem tappable_move_leaked_timer_counterexample :
    ¬ (∀ (w : World) (id sx sy : Nat), Reach w → (20 < sx ∨ 20 < sy) →
        ∀ t ∈ (onMove w id sx sy).timers, t.cb ≠ TimerCb.startCb id) := by
  intro hall
  have hr : Reach dblW2 := Reach.gestureStart 1 none 0 0
    (Reach.gestureStart 1 none 0 0 (Reach.init [tapCfg1] 0 (by decide)))
  exact hall dblW2 1 25 0 hr (Or.inl (by decide))
    { handle := 0, delay := ACTIVE_DELAY, schedAt := 0, cb := TimerCb.startCb 1 }
    (by decide) (by decide)
